import Mathlib

/-!
# uRPC: a shallow embedding of the protocol engine

The development follows `uRPC.h` and `uRPC.c`:

* the configuration (`uRPC_CRC_CHECKSUM`, the signedness of plain `char`),
* `calculateCrc`, the bit-serial checksum,
* the session state (`uRpcRequestHeader`, `uRpcRequestBuffer`, `uRpcByteCount`),
* `uRpcInitialize` and `uRpcHandle`, one call of which is one step of the engine.

Machine integers are natural numbers reduced modulo the width of their C type
(`unsigned int`: 32 bits, `unsigned short`: 16 bits, `size_t`: 64 bits, the
width `uRPC_POINTER_T` documents for the target).  Header fields are read from
the header bytes in little-endian order, the byte order of the example target.
Every call records the actions it performs (bytes received, stores with their
offsets, allocations, handler invocations, bytes transmitted) in a list of
events, so that statements about what a call does or does not do are
statements about that list.
-/

namespace uRPC

/-! ## Configuration and basic types -/

/-- One `char` object, as its bit pattern. -/
abbrev Byte := Fin 256

/-- Build-time configuration: `crcChecksum` says whether `uRPC_CRC_CHECKSUM` is
defined; `charSigned` says whether plain `char` is a signed type for the
compiler in use (C leaves this to the implementation). -/
structure Config where
  crcChecksum : Bool
  charSigned : Bool
deriving DecidableEq, Repr

/-- Capacity of the response buffer, `uRPC_OUT_BUFFER_SIZE_BYTES`. -/
def uRPC_OUT_BUFFER_SIZE_BYTES : Nat := 64

/-- Status `uRPC_STATUS_WAITING_DATA`. -/
def uRPC_STATUS_WAITING_DATA : Int := -1
/-- Status `uRPC_STATUS_SUCCESS`. -/
def uRPC_STATUS_SUCCESS : Int := 0
/-- Status `uRPC_STATUS_WRONG_CRC`. -/
def uRPC_STATUS_WRONG_CRC : Int := 1
/-- Status `uRPC_STATUS_UNKNOWN_CMD`. -/
def uRPC_STATUS_UNKNOWN_CMD : Int := 2
/-- Status `uRPC_STATUS_ERROR_MALLOC`. -/
def uRPC_STATUS_ERROR_MALLOC : Int := 3

/-- The value of `sizeof(uRpcHeader)` for the packed structure: a 4-byte `size`,
a 2-byte `code` and, with `uRPC_CRC_CHECKSUM`, the two 4-byte fields of
`uRpcCrcHeader`. -/
def sizeofHeader (cfg : Config) : Nat :=
  if cfg.crcChecksum then 4 + 2 + (4 + 4) else 4 + 2

/-- Modulus of `unsigned int` (`uRPC_SIZE_T`, `uRPC_CRC_T`). -/
def UINT : Nat := 2 ^ 32
/-- Modulus of `unsigned short` (`uRPC_CODE_T`). -/
def USHORT : Nat := 2 ^ 16
/-- Modulus of `size_t`, the type of `sizeof` expressions. -/
def SIZE_T : Nat := 2 ^ 64

/-- Subtraction in `size_t` arithmetic, as in `uRpcRequestHeader.size - sizeof(uRpcHeader)`. -/
def sizeSub (a b : Nat) : Nat := (a % SIZE_T + SIZE_T - b % SIZE_T) % SIZE_T

/-- Value of an integer object from its bytes, least significant byte first. -/
def fromBytes : List Byte → Nat
  | [] => 0
  | b :: bs => b.val + 256 * fromBytes bs

/-- The `width` bytes of an integer object, least significant byte first. -/
def toBytes : Nat → Nat → List Byte
  | 0, _ => []
  | width + 1, n => Fin.ofNat (n % 256) :: toBytes width (n / 256)

/-- Field `size` of a header given as its bytes (offset 0, 4 bytes). -/
def headerSize (h : List Byte) : Nat := fromBytes (h.take 4)
/-- Field `code` of a header given as its bytes (offset 4, 2 bytes). -/
def headerCode (h : List Byte) : Nat := fromBytes ((h.drop 4).take 2)
/-- Field `crc.header` of a header given as its bytes (offset 6, 4 bytes). -/
def headerCrcHeader (h : List Byte) : Nat := fromBytes ((h.drop 6).take 4)
/-- Field `crc.payload` of a header given as its bytes (offset 10, 4 bytes). -/
def headerCrcPayload (h : List Byte) : Nat := fromBytes ((h.drop 10).take 4)

/-- The assignment `header.crc.header = v` on the bytes of a header. -/
def setCrcHeader (h : List Byte) (v : Nat) : List Byte :=
  h.take 6 ++ toBytes 4 v ++ h.drop 10

/-! ## The integrity checker -/

/-- One pass of the inner loop of `calculateCrc`:
`mask = -(crc & 1); crc = (crc >> 1) ^ (0xEDB88320 & mask);` on `unsigned int`. -/
def crcBit (crc : Nat) : Nat :=
  let mask := (UINT - (crc &&& 1)) % UINT
  (crc >>> 1) ^^^ (0xEDB88320 &&& mask)

/-- The inner loop `for (bit = 7; bit >= 0; bit--)`, run for `n` passes. -/
def crcBits : Nat → Nat → Nat
  | 0, crc => crc
  | n + 1, crc => crcBits n (crcBit crc)

/-- The conversion in `byte = *(char *)(...)`: a `char` converted to
`unsigned int`.  A signed `char` with the top bit set is negative and the
conversion sign-extends it. -/
def charToUInt (signed : Bool) (b : Byte) : Nat :=
  if signed ∧ 128 ≤ b.val then b.val + 0xFFFFFF00 else b.val

/-- One pass of the outer loop of `calculateCrc`. -/
def crcByte (signed : Bool) (crc : Nat) (b : Byte) : Nat :=
  crcBits 8 (crc ^^^ charToUInt signed b)

/-- The function `calculateCrc(data, length)`; `data` is the list of the `length`
bytes found at the pointer.  The loop index is the position in the list, which
is what the C `int` index holds as long as it does not overflow (fewer than
`2 ^ 31` bytes). -/
def calculateCrc (cfg : Config) (data : List Byte) : Nat :=
  UINT - 1 - data.foldl (crcByte cfg.charSigned) 0xFFFFFFFF

/-! ## Session state, handlers, environment, events -/

/-- The three file-scope variables of `uRPC.c`: the bytes of `uRpcRequestHeader`,
the object `uRpcRequestBuffer` points to (`none` for `NULL`), and `uRpcByteCount`. -/
structure Session where
  header : List Byte
  buffer : Option (List Byte)
  byteCount : Nat
deriving DecidableEq, Repr

/-- What a handler leaves behind: its return value, the contents of `outBuffer`
and the value of `*response`.  Writes of a handler into `inBuffer` are not
recorded: `uRpcHandle` does not read the request buffer after the call. -/
structure HandlerResult where
  code : Nat
  outBuffer : List Byte
  response : Nat
deriving DecidableEq, Repr

/-- A handler (`uRPC_PROCEDURE`): from `inBuffer` (`none` for `NULL`), `request`,
the contents of `outBuffer` and the value of `*response` on entry. -/
abbrev uRPC_PROCEDURE := Option (List Byte) → Nat → List Byte → Nat → HandlerResult

/-- What the surroundings contribute to one call of `uRpcHandle`: the byte that
`receiveByte()` returns, whether `malloc` succeeds, and the contents of the
memory that follows the response buffer (read only when the loop index runs
past the buffer). -/
structure Env where
  rx : Byte
  mallocOk : Bool
  beyond : Nat → Byte

/-- Actions of one call, in program order. -/
inductive Event
  | free
  | receive (b : Byte)
  | storeHeader (offset : Nat) (b : Byte)
  | checkHeaderCrc (expected received : Nat)
  | mallocRequest (size : Nat) (ok : Bool)
  | storePayload (index : Nat) (b : Byte)
  | checkPayloadCrc (expected received : Nat)
  | mallocResponse (ok : Bool)
  | call (code : Nat) (inBuffer : Option (List Byte)) (request : Nat)
      (outBuffer : List Byte) (response : Nat)
  | transmitHeader (offset : Nat) (b : Byte)
  | transmitPayload (index : Nat) (b : Byte)
  | freeResponse
deriving DecidableEq, Repr

/-- Outcome of one call: the returned status, the session state left behind and
the actions performed. -/
structure Result where
  status : Int
  session : Session
  events : List Event
deriving DecidableEq, Repr

/-- The session before the first call: zero-initialised statics. -/
def emptySession (cfg : Config) : Session :=
  { header := List.replicate (sizeofHeader cfg) 0, buffer := none, byteCount := 0 }

/-! ## The engine -/

/-- The function `uRpcInitialize`: clears the header, frees a live request buffer,
resets the counter.  Returns the new session and the actions. -/
def uRpcInitialize (cfg : Config) (s : Session) : Session × List Event :=
  ({ header := List.replicate (sizeofHeader cfg) 0, buffer := none, byteCount := 0 },
   if s.buffer.isSome then [Event.free] else [])

/-- A handler's output fitted to the 64 bytes of the response buffer. -/
def fitBuffer (out : List Byte) : List Byte :=
  (out ++ List.replicate uRPC_OUT_BUFFER_SIZE_BYTES 0).take uRPC_OUT_BUFFER_SIZE_BYTES

/-- The byte `responseBuffer[i]`: inside the buffer, its content; past it, the
memory that follows. -/
def loadResponse (env : Env) (out : List Byte) (i : Nat) : Byte :=
  if h : i < out.length then out.get ⟨i, h⟩ else env.beyond (i - out.length)

/-- Bytes of a response header with the given fields. -/
def responseHeaderBytes (cfg : Config) (size code crcHeader crcPayload : Nat) : List Byte :=
  toBytes 4 size ++ toBytes 2 code ++
    (if cfg.crcChecksum then toBytes 4 crcHeader ++ toBytes 4 crcPayload else [])

/-- The transmit loop `for(uRpcByteCount = 0; uRpcByteCount < responseHeader.size; ...)`. -/
def transmitLoop (cfg : Config) (env : Env) (hdr out : List Byte) (size : Nat) : List Event :=
  (List.range size).map fun i =>
    if i < sizeofHeader cfg then Event.transmitHeader i (hdr.getD i 0)
    else Event.transmitPayload (sizeSub i (sizeofHeader cfg))
      (loadResponse env out (sizeSub i (sizeofHeader cfg)))

/-- Lines 149-201 of `uRPC.c`: allocate the response buffer, call the handler,
build the response header, transmit, reset the counter. -/
def respond (cfg : Config) (handlersTable : Nat → uRPC_PROCEDURE) (env : Env)
    (s : Session) (ev : List Event) : Result :=
  let requestSize := sizeSub (headerSize s.header) (sizeofHeader cfg) % UINT
  if env.mallocOk then
    let outBuffer := List.replicate uRPC_OUT_BUFFER_SIZE_BYTES (0 : Byte)
    let r := handlersTable (headerCode s.header) s.buffer requestSize outBuffer
      uRPC_OUT_BUFFER_SIZE_BYTES
    let responseBuffer := fitBuffer r.outBuffer
    let responseSize := r.response % UINT
    let code := r.code % USHORT
    let size := (sizeofHeader cfg + responseSize) % UINT
    let crcPayload :=
      if 0 < responseSize then
        calculateCrc cfg ((List.range responseSize).map (loadResponse env responseBuffer))
      else 0
    let crcHeader := calculateCrc cfg (responseHeaderBytes cfg size code 0 crcPayload)
    let responseHeader := responseHeaderBytes cfg size code crcHeader crcPayload
    { status := uRPC_STATUS_SUCCESS
      session := { s with byteCount := 0 }
      events := ev ++ [Event.mallocResponse true,
          Event.call (headerCode s.header) s.buffer requestSize outBuffer
            uRPC_OUT_BUFFER_SIZE_BYTES] ++
        transmitLoop cfg env responseHeader responseBuffer size ++ [Event.freeResponse] }
  else
    { status := uRPC_STATUS_ERROR_MALLOC
      session := { s with byteCount := 0 }
      events := ev ++ [Event.mallocResponse false] }

/-- Lines 142-202 of `uRPC.c`: validate the command, then respond. -/
def validateCommand (cfg : Config) (handlersTable : Nat → uRPC_PROCEDURE)
    (handlersCount : Nat) (env : Env) (s : Session) (ev : List Event) : Result :=
  if handlersCount ≤ headerCode s.header then
    { status := uRPC_STATUS_UNKNOWN_CMD, session := { s with byteCount := 0 }, events := ev }
  else respond cfg handlersTable env s ev

/-- Lines 131-139 of `uRPC.c` and what follows them: the payload checksum.
Reading through a `NULL` pointer or past the request buffer has no defined
result (`none`). -/
def checkPayload (cfg : Config) (handlersTable : Nat → uRPC_PROCEDURE)
    (handlersCount : Nat) (env : Env) (s : Session) (ev : List Event) : Option Result :=
  if cfg.crcChecksum then
    let length := sizeSub (headerSize s.header) (sizeofHeader cfg) % UINT
    match s.buffer with
    | none => none
    | some buf =>
      if length ≤ buf.length then
        let expectedCrc := calculateCrc cfg (buf.take length)
        let ev1 := ev ++ [Event.checkPayloadCrc expectedCrc (headerCrcPayload s.header)]
        if expectedCrc ≠ headerCrcPayload s.header then
          some { status := uRPC_STATUS_WRONG_CRC, session := { s with byteCount := 0 },
                 events := ev1 }
        else some (validateCommand cfg handlersTable handlersCount env s ev1)
      else none
  else some (validateCommand cfg handlersTable handlersCount env s ev)

/-- Lines 109-140 of `uRPC.c` and what follows them: allocate the request buffer
on the call that completes the header, store one payload byte on later calls.
A fresh buffer is taken to hold zero bytes (C leaves its content
indeterminate).  A store through a `NULL` pointer or outside the request
buffer has no defined result (`none`). -/
def receivePayload (cfg : Config) (handlersTable : Nat → uRPC_PROCEDURE)
    (handlersCount : Nat) (env : Env) (s : Session) (ev : List Event) : Option Result :=
  let size := headerSize s.header
  if 0 < sizeSub size (sizeofHeader cfg) then
    if s.byteCount = sizeofHeader cfg then
      if env.mallocOk then
        some { status := uRPC_STATUS_WAITING_DATA
               session := { s with
                 buffer := some (List.replicate (sizeSub size (sizeofHeader cfg)) 0)
                 byteCount := (s.byteCount + 1) % UINT }
               events := ev ++ [Event.mallocRequest (sizeSub size (sizeofHeader cfg)) true] }
      else
        some { status := uRPC_STATUS_ERROR_MALLOC
               session := { s with buffer := none, byteCount := 0 }
               events := ev ++ [Event.mallocRequest (sizeSub size (sizeofHeader cfg)) false] }
    else if s.byteCount ≤ (size + 1) % UINT then
      let index := sizeSub (sizeSub s.byteCount (sizeofHeader cfg)) 1
      match s.buffer with
      | none => none
      | some buf =>
        if index < buf.length then
          let s1 : Session := { s with
            buffer := some (buf.set index env.rx)
            byteCount := (s.byteCount + 1) % UINT }
          let ev1 := ev ++ [Event.receive env.rx, Event.storePayload index env.rx]
          if s1.byteCount < (size + 1) % UINT then
            some { status := uRPC_STATUS_WAITING_DATA, session := s1, events := ev1 }
          else checkPayload cfg handlersTable handlersCount env s1 ev1
        else none
    else checkPayload cfg handlersTable handlersCount env s ev
  else some (validateCommand cfg handlersTable handlersCount env s ev)

/-- Lines 90-107 of `uRPC.c` and what follows them: the header checksum, evaluated
when the counter equals `sizeof(uRpcHeader)`. -/
def checkHeader (cfg : Config) (handlersTable : Nat → uRPC_PROCEDURE)
    (handlersCount : Nat) (env : Env) (s : Session) (ev : List Event) : Option Result :=
  if cfg.crcChecksum ∧ s.byteCount = sizeofHeader cfg then
    let receivedCrc := headerCrcHeader s.header
    let s1 : Session := { s with header := setCrcHeader s.header 0 }
    let expectedCrc := calculateCrc cfg s1.header
    let ev1 := ev ++ [Event.checkHeaderCrc expectedCrc receivedCrc]
    if expectedCrc ≠ receivedCrc then
      some { status := uRPC_STATUS_WRONG_CRC, session := { s1 with byteCount := 0 },
             events := ev1 }
    else receivePayload cfg handlersTable handlersCount env s1 ev1
  else receivePayload cfg handlersTable handlersCount env s ev

/-- Lines 82-88 of `uRPC.c` and what follows them: store one header byte while
`uRpcByteCount <= sizeof(uRpcHeader)`.  A store at offset `sizeof(uRpcHeader)`
lands outside the header object and has no defined result (`none`). -/
def receiveHeader (cfg : Config) (handlersTable : Nat → uRPC_PROCEDURE)
    (handlersCount : Nat) (env : Env) (s : Session) (ev : List Event) : Option Result :=
  if s.byteCount ≤ sizeofHeader cfg then
    if s.byteCount < sizeofHeader cfg then
      let s1 : Session := { s with
        header := s.header.set s.byteCount env.rx
        byteCount := (s.byteCount + 1) % UINT }
      let ev1 := ev ++ [Event.receive env.rx, Event.storeHeader s.byteCount env.rx]
      if s1.byteCount < sizeofHeader cfg then
        some { status := uRPC_STATUS_WAITING_DATA, session := s1, events := ev1 }
      else checkHeader cfg handlersTable handlersCount env s1 ev1
    else none
  else checkHeader cfg handlersTable handlersCount env s ev

/-- The function `uRpcHandle(handlersTable, handlersCount)`: one call, in the
session `s`, with the surroundings `env`.  `handlersTable c` is the entry at
index `c`; `handlersCount` is a `uRPC_CODE_T` value. -/
def uRpcHandle (cfg : Config) (handlersTable : Nat → uRPC_PROCEDURE)
    (handlersCount : Nat) (env : Env) (s : Session) : Option Result :=
  if s.byteCount = 0 then
    receiveHeader cfg handlersTable handlersCount env
      (uRpcInitialize cfg s).1 (uRpcInitialize cfg s).2
  else receiveHeader cfg handlersTable handlersCount env s []

/-- Successive calls of `uRpcHandle`, one per element of `envs`, from session `s`:
the results in order, or `none` when a call has no defined result. -/
def runCalls (cfg : Config) (handlersTable : Nat → uRPC_PROCEDURE) (handlersCount : Nat) :
    Session → List Env → Option (List Result)
  | _, [] => some []
  | s, env :: envs =>
    match uRpcHandle cfg handlersTable handlersCount env s with
    | none => none
    | some r =>
      match runCalls cfg handlersTable handlersCount r.session envs with
      | none => none
      | some rs => some (r :: rs)


/-! ## Observations on runs -/

/-- The byte of a `receive` event. -/
def Event.rxByte? : Event → Option Byte
  | .receive b => some b
  | _ => none

/-- The byte of a transmit event. -/
def Event.txByte? : Event → Option Byte
  | .transmitHeader _ b => some b
  | .transmitPayload _ b => some b
  | _ => none

/-- Is the event a handler invocation? -/
def Event.isCall : Event → Bool
  | .call .. => true
  | _ => false

/-- The bytes taken from the transport, in order. -/
def received (evs : List Event) : List Byte := evs.filterMap Event.rxByte?

/-- The bytes handed to `transmitByte`, in order. -/
def transmitted (evs : List Event) : List Byte := evs.filterMap Event.txByte?

/-- The handler invocations, in order. -/
def calls (evs : List Event) : List Event := evs.filter Event.isCall

/-- The events of a run, call after call. -/
def allEvents : List Result → List Event
  | [] => []
  | r :: rs => r.events ++ allEvents rs

/-- The statuses returned by a run, call after call. -/
def statuses (rs : List Result) : List Int := rs.map (·.status)

/-- The session a run ends in. -/
def lastSession (s : Session) : List Result → Session
  | [] => s
  | r :: rs => lastSession r.session rs

/-- Session in the header phase, after the bytes `pre` of a header have been stored. -/
def hdrSession (cfg : Config) (pre : List Byte) : Session :=
  { header := pre ++ List.replicate (sizeofHeader cfg - pre.length) 0
    buffer := none
    byteCount := pre.length }

/-- Session in the payload phase: header `hdr`, the bytes `pre` stored so far, the
rest `suf` of the request buffer not yet written. -/
def paySession (cfg : Config) (hdr pre suf : List Byte) : Session :=
  { header := hdr
    buffer := some (pre ++ suf)
    byteCount := sizeofHeader cfg + 1 + pre.length }

/-- The header as `uRpcHandle` keeps it after the header check: with
`uRPC_CRC_CHECKSUM` the field `crc.header` has been set to zero. -/
def checkedHeader (cfg : Config) (hdr : List Byte) : List Byte :=
  if cfg.crcChecksum then setCrcHeader hdr 0 else hdr

/-- The environments of a run that receives the bytes `bs`, every allocation succeeding. -/
def feed (beyond : Nat → Byte) (bs : List Byte) : List Env :=
  bs.map fun b => { rx := b, mallocOk := true, beyond := beyond }


/-- A result with the events `ev` put in front of its own. -/
def prependEvents (ev : List Event) (r : Result) : Result :=
  { r with events := ev ++ r.events }

/-- Results of the calls that store the header bytes `bs` after the bytes `pre`,
none of them the last byte of the header. -/
def headerRun (cfg : Config) : List Byte → List Byte → List Result
  | _, [] => []
  | pre, b :: bs =>
    { status := uRPC_STATUS_WAITING_DATA
      session := hdrSession cfg (pre ++ [b])
      events := [Event.receive b, Event.storeHeader pre.length b] } ::
      headerRun cfg (pre ++ [b]) bs

/-- Results of the calls that store the payload bytes `bs` after the bytes `pre`,
none of them the last byte of the payload. -/
def payloadRun (cfg : Config) (hdr : List Byte) : List Byte → List Byte → List Byte → List Result
  | _, _, [] => []
  | pre, suf, b :: bs =>
    { status := uRPC_STATUS_WAITING_DATA
      session := paySession cfg hdr (pre ++ [b]) suf.tail
      events := [Event.receive b, Event.storePayload pre.length b] } ::
      payloadRun cfg hdr (pre ++ [b]) suf.tail bs


/-- The header checksum is the one `uRpcHandle` expects (no condition without
`uRPC_CRC_CHECKSUM`). -/
def headerCrcOk (cfg : Config) (hdr : List Byte) : Prop :=
  cfg.crcChecksum = true → headerCrcHeader hdr = calculateCrc cfg (setCrcHeader hdr 0)

/-- The payload checksum is the one `uRpcHandle` expects (no condition without
`uRPC_CRC_CHECKSUM`). -/
def payloadCrcOk (cfg : Config) (hdr payload : List Byte) : Prop :=
  cfg.crcChecksum = true → headerCrcPayload hdr = calculateCrc cfg payload

/-- The event of the header check on the header `hdr`. -/
def headerCheckEvents (cfg : Config) (hdr : List Byte) : List Event :=
  if cfg.crcChecksum then
    [Event.checkHeaderCrc (calculateCrc cfg (setCrcHeader hdr 0)) (headerCrcHeader hdr)]
  else []

/-- The event of the payload check on the payload `payload`. -/
def payloadCheckEvents (cfg : Config) (hdr payload : List Byte) : List Event :=
  if cfg.crcChecksum then
    [Event.checkPayloadCrc (calculateCrc cfg payload) (headerCrcPayload hdr)]
  else []


/-! ## Reference definitions, in the words of the specification -/

/-- One bit step of the reference CRC-32: shift right by one and xor the
polynomial `0xEDB88320` in when the value shifted was odd. -/
def crc32Step (c : Nat) : Nat := (c >>> 1) ^^^ (if c % 2 = 1 then 0xEDB88320 else 0)

/-- The reference CRC-32 of the specification: start with `0xFFFFFFFF`; for each
byte, xor its unsigned value into the low 8 bits and apply the bit step 8 times;
return the bitwise complement; all modulo `2 ^ 32`. -/
def crc32Reference (d : List Byte) : Nat :=
  ((d.foldl (fun c b => (crc32Step^[8] (c ^^^ b.val)) % 2 ^ 32) 0xFFFFFFFF) ^^^ 0xFFFFFFFF)
    % 2 ^ 32

/-- Decoding a frame received as a single block, as the specification describes
it: the command code from the header, the payload that follows the header, and
the payload length `size - sizeof(header)`. -/
def decodeBlock (cfg : Config) (F : List Byte) : Nat × List Byte × Nat :=
  let hdr := F.take (sizeofHeader cfg)
  (headerCode hdr,
   (F.drop (sizeofHeader cfg)).take (headerSize hdr - sizeofHeader cfg),
   headerSize hdr - sizeofHeader cfg)

/-- What a handler invocation hands to the handler: the command code, the
`request` bytes found at `inBuffer`, and `request`. -/
def Event.invocation? : Event → Option (Nat × List Byte × Nat)
  | .call code inBuffer request _ _ => some (code, (inBuffer.getD []).take request, request)
  | _ => none

/-- The requests handed to handlers, in order. -/
def invocations (evs : List Event) : List (Nat × List Byte × Nat) :=
  evs.filterMap Event.invocation?


/-! ## Concrete inputs -/

/-- A build with `uRPC_CRC_CHECKSUM` and an unsigned plain `char`. -/
def crcConfig : Config := { crcChecksum := true, charSigned := false }

/-- A build without `uRPC_CRC_CHECKSUM`. -/
def plainConfig : Config := { crcChecksum := false, charSigned := false }

/-- A handler that copies its input to its output and returns 0. -/
def echoHandler : uRPC_PROCEDURE := fun inBuffer request outBuffer _ =>
  { code := 0
    outBuffer := (inBuffer.getD []).take request ++ outBuffer.drop request
    response := request }

/-- A handlers table whose every entry is `echoHandler`. -/
def echoTable : Nat → uRPC_PROCEDURE := fun _ => echoHandler

/-- A request frame for `crcConfig`: size 16, code 0, both checksums right,
payload `01 02`. -/
def sampleFrame : List Byte :=
  [16, 0, 0, 0, 0, 0, 209, 187, 19, 150, 146, 66, 204, 182, 1, 2]

/-- A request frame for `crcConfig` with no payload: size 14, code 0. -/
def sampleEmptyFrame : List Byte :=
  [14, 0, 0, 0, 0, 0, 71, 44, 32, 26, 0, 0, 0, 0]

/-- Memory after the response buffer, all zero. -/
def zeroMemory : Nat → Byte := fun _ => 0


/-- Events that neither allocate, invoke a handler nor transmit: freeing the old
request buffer, receiving and storing a byte, evaluating a checksum. -/
def Event.isPassive : Event → Bool
  | .free => true
  | .receive _ => true
  | .storeHeader _ _ => true
  | .checkHeaderCrc _ _ => true
  | .storePayload _ _ => true
  | .checkPayloadCrc _ _ => true
  | _ => false

/-- The forms a result of `uRpcHandle` can take: after passive events `ev`, the
call either waits, reports a checksum mismatch, attempts the request
allocation (and waits or reports the failure), or reaches `validateCommand`. -/
def Shape (cfg : Config) (t : Nat → uRPC_PROCEDURE) (c : Nat) (env : Env) (r : Result) : Prop :=
  ∃ ev : List Event, (∀ e ∈ ev, e.isPassive = true) ∧
    ((r.status = uRPC_STATUS_WAITING_DATA ∧ r.events = ev) ∨
     (r.status = uRPC_STATUS_WRONG_CRC ∧ r.session.byteCount = 0 ∧ r.events = ev) ∨
     (∃ n, r.status = uRPC_STATUS_WAITING_DATA ∧ env.mallocOk = true ∧
        r.events = ev ++ [Event.mallocRequest n true]) ∨
     (∃ n, r.status = uRPC_STATUS_ERROR_MALLOC ∧ env.mallocOk = false ∧
        r.session.byteCount = 0 ∧ r.events = ev ++ [Event.mallocRequest n false]) ∨
     (∃ σ, r = validateCommand cfg t c env σ ev))


/-- A handler that reports the response length `0xFFFFFFFF`. -/
def wrapHandler : uRPC_PROCEDURE := fun _ _ outBuffer _ =>
  { code := 0, outBuffer := outBuffer, response := 4294967295 }

/-- A handler that reports the response length 65, one more than the capacity. -/
def overHandler : uRPC_PROCEDURE := fun _ _ outBuffer _ =>
  { code := 0, outBuffer := outBuffer, response := 65 }

/-- Surroundings of one call: the byte `00` arrives, `malloc` succeeds, the memory
after the response buffer holds `AA`. -/
def sampleEnv : Env := { rx := 0, mallocOk := true, beyond := fun _ => 0xAA }

/-- Session of `plainConfig` one byte before the end of the header `06 00 00 00 00 00`
(size 6, code 0, no payload). -/
def lastHeaderByteSession : Session := hdrSession plainConfig [6, 0, 0, 0, 0]

/-- Session of `plainConfig` one byte before the end of a frame of size 8 with
payload byte `01` stored. -/
def lastPayloadByteSession : Session := paySession plainConfig [8, 0, 0, 0, 0, 0] [1] [0]

/-- Surroundings of one call: the byte `02` arrives, `malloc` succeeds. -/
def lastPayloadByteEnv : Env := { rx := 2, mallocOk := true, beyond := zeroMemory }

/-- The result of `uRpcHandle` in `lastPayloadByteSession` with `lastPayloadByteEnv`
and the echo handler. -/
def lastPayloadByteResult : Result :=
  { status := 0
    session := { header := [8, 0, 0, 0, 0, 0], buffer := some [1, 2], byteCount := 0 }
    events := [Event.receive 2, Event.storePayload 1 2, Event.mallocResponse true,
      Event.call 0 (some [1, 2]) 2 (List.replicate 64 0) 64,
      Event.transmitHeader 0 8, Event.transmitHeader 1 0, Event.transmitHeader 2 0,
      Event.transmitHeader 3 0, Event.transmitHeader 4 0, Event.transmitHeader 5 0,
      Event.transmitPayload 0 1, Event.transmitPayload 1 2, Event.freeResponse] }


/-- Is the event an evaluation of the header checksum? -/
def Event.isHeaderCheck : Event → Bool
  | .checkHeaderCrc _ _ => true
  | _ => false

/-- The evaluations of the header checksum, in order. -/
def headerChecks (evs : List Event) : List Event := evs.filter Event.isHeaderCheck

/-- A header for `crcConfig` whose `crc.header` field (all zero) is not the
checksum of the header. -/
def badCrcHeader : List Byte := [14, 0, 0, 0, 0, 0, 0, 0, 0, 0, 0, 0, 0, 0]


/-- The frame `sampleFrame` with its last payload byte changed from `02` to `03`:
the header checksum is right, the payload checksum is not. -/
def badPayloadFrame : List Byte :=
  [16, 0, 0, 0, 0, 0, 209, 187, 19, 150, 146, 66, 204, 182, 1, 3]


/-- The byte `b` with bit `k` flipped. -/
def flipBit (b : Byte) (k : Fin 8) : Byte := Fin.ofNat (b.val ^^^ 2 ^ k.val)

/-- The frame `F` with bit `k` of its byte `i` flipped. -/
def corrupt (F : List Byte) (i : Nat) (k : Fin 8) : List Byte :=
  F.set i (flipBit (F.getD i 0) k)

/-- The call on which `uRpcHandle` detects a corruption of byte `i` of a frame:
the call that completes the header for a byte of the header, the call that
consumes the last byte of the frame for a byte of the payload. -/
def detectionCall (cfg : Config) (F : List Byte) (i : Nat) : Nat :=
  if i < sizeofHeader cfg then sizeofHeader cfg else F.length


/-- Events of the response stage: the response allocation, the handler
invocation, the transmitted bytes, the release of the response buffer. -/
def Event.isResponse : Event → Bool
  | .mallocResponse _ => true
  | .call .. => true
  | .transmitHeader _ _ => true
  | .transmitPayload _ _ => true
  | .freeResponse => true
  | _ => false

/-- A header for `plainConfig` declaring no payload: size 6, code 0. -/
def plainEmptyFrame : List Byte := [6, 0, 0, 0, 0, 0]


/-- Surroundings of one call in which `malloc` fails. -/
def failingEnv : Env := { rx := 0, mallocOk := false, beyond := zeroMemory }

/-- Session of `plainConfig` one byte before the end of the header `07 00 00 00 00 00`
(size 7, code 0, one payload byte). -/
def payloadHeaderSession : Session := hdrSession plainConfig [7, 0, 0, 0, 0]

/-- What a caller and the peer observe of a call: the returned status, the handler
invocations with their arguments, and the transmitted bytes. -/
def observe (r : Result) : Int × List Event × List Byte :=
  (r.status, calls r.events, transmitted r.events)

/-- Session of `crcConfig` one byte before the end of the frame `badPayloadFrame`:
the header checked (its `crc.header` field set to zero), the payload byte `01`
stored. -/
def lastBadByteSession : Session :=
  paySession crcConfig [16, 0, 0, 0, 0, 0, 0, 0, 0, 0, 146, 66, 204, 182] [1] [0]

/-- Surroundings of one call: the byte `03` arrives, `malloc` succeeds. -/
def lastBadByteEnv : Env := { rx := 3, mallocOk := true, beyond := zeroMemory }

/-- The result of `uRpcHandle` in `lastBadByteSession` with `lastBadByteEnv`: the
payload checksum does not match; the request buffer stays in the session. -/
def payloadMismatchResult : Result :=
  { status := 1
    session := { header := [16, 0, 0, 0, 0, 0, 0, 0, 0, 0, 146, 66, 204, 182],
                 buffer := some [1, 3], byteCount := 0 }
    events := [Event.receive 3, Event.storePayload 1 3,
      Event.checkPayloadCrc 3251335684 3066839698] }


/-- A build with `uRPC_CRC_CHECKSUM` for a compiler whose plain `char` is signed. -/
def signedConfig : Config := { crcChecksum := true, charSigned := true }


/-! ## Further observations: stores, allocations, reads of the response buffer -/

/-- The offset and byte of a store into the request header. -/
def Event.headerStore? : Event → Option (Nat × Byte)
  | .storeHeader i b => some (i, b)
  | _ => none

/-- The stores into the request header, in order. -/
def headerStores (evs : List Event) : List (Nat × Byte) := evs.filterMap Event.headerStore?

/-- The index and byte of a store into the request buffer. -/
def Event.payloadStore? : Event → Option (Nat × Byte)
  | .storePayload i b => some (i, b)
  | _ => none

/-- The stores into the request buffer, in order. -/
def payloadStores (evs : List Event) : List (Nat × Byte) := evs.filterMap Event.payloadStore?

/-- The size and outcome of an allocation of the request buffer. -/
def Event.allocation? : Event → Option (Nat × Bool)
  | .mallocRequest n ok => some (n, ok)
  | _ => none

/-- The allocations of the request buffer, in order. -/
def requestAllocations (evs : List Event) : List (Nat × Bool) :=
  evs.filterMap Event.allocation?

/-- The session states reachable from the empty session by calls of `uRpcHandle`
that have a defined result, with any handlers table, handlers count and
surroundings at each call. -/
inductive Reachable (cfg : Config) : Session → Prop
  | empty : Reachable cfg (emptySession cfg)
  | step (t : Nat → uRPC_PROCEDURE) (c : Nat) (env : Env) (s : Session) (r : Result) :
      Reachable cfg s → uRpcHandle cfg t c env s = some r → Reachable cfg r.session

/-- The invariant of the session between calls: either the counter is below
`sizeof(uRpcHeader)` (header phase, or idle at zero), or it is above it and the
request buffer is live, holds `size - sizeof(uRpcHeader)` bytes, and the
counter has not passed `size + 1` (it is `sizeof(uRpcHeader) + 1` right after
the allocation). -/
def SessionInv (cfg : Config) (s : Session) : Prop :=
  s.byteCount < sizeofHeader cfg ∨
  (sizeofHeader cfg < s.byteCount ∧
   (s.byteCount = sizeofHeader cfg + 1 ∨ s.byteCount < (headerSize s.header + 1) % UINT) ∧
   ∃ buf, s.buffer = some buf ∧
     buf.length = sizeSub (headerSize s.header) (sizeofHeader cfg) ∧ 0 < buf.length)

/-- The five status values of `uRPC.h`. -/
def statusValues : List Int :=
  [uRPC_STATUS_WAITING_DATA, uRPC_STATUS_SUCCESS, uRPC_STATUS_WRONG_CRC,
   uRPC_STATUS_UNKNOWN_CMD, uRPC_STATUS_ERROR_MALLOC]

/-! ## The example of `main.c` -/

/-- The handler `SelfTestFunction` of `main.c`: with a 4-byte request it reads an
`unsigned int` from `inBuffer`, writes that value plus `0xCAFE` to the first 4
bytes of `outBuffer`, sets `*response = 4` and returns `XST_SUCCESS`; with any
other request length it sets `*response = 0` and returns `XST_FAILURE`.  The
two return values are constants of a platform header that is not part of the
sources: they are the parameters `xstSuccess` and `xstFailure`.  Integers are
little-endian, as on the example target. -/
def SelfTestFunction (xstSuccess xstFailure : Nat) : uRPC_PROCEDURE :=
  fun inBuffer request outBuffer _ =>
    if request ≠ 4 then
      { code := xstFailure, outBuffer := outBuffer, response := 0 }
    else
      let inputValue := fromBytes ((inBuffer.getD []).take 4)
      { code := xstSuccess
        outBuffer := toBytes 4 ((inputValue + 0xCAFE) % UINT) ++ outBuffer.drop 4
        response := 4 }

/-- The handlers table `HANDLERS_TABLE` of `main.c`: its one entry is
`SelfTestFunction` (the table is only read at indices below `handlersCount = 1`). -/
def HANDLERS_TABLE (xstSuccess xstFailure : Nat) : Nat → uRPC_PROCEDURE :=
  fun _ => SelfTestFunction xstSuccess xstFailure

/-- The request of the example for a build without checksums: size 10 (a 6-byte
header and 4 payload bytes), code 0, the payload bytes `b0 b1 b2 b3`. -/
def selfTestFrame (b0 b1 b2 b3 : Byte) : List Byte := [10, 0, 0, 0, 0, 0, b0, b1, b2, b3]

/-- The request as the specification words it: size 14, code 0, the 4 payload
bytes of the value 1. -/
def specExampleFrame : List Byte := [14, 0, 0, 0, 0, 0, 1, 0, 0, 0]


/-- A call result that keeps the session invariant, returns
`uRPC_STATUS_WAITING_DATA` only with a non-zero counter, and has stored into
the request header exactly what the events `ev` record. -/
def StepOk (cfg : Config) (ev : List Event) (r : Result) : Prop :=
  SessionInv cfg r.session ∧
  (r.status = uRPC_STATUS_WAITING_DATA → r.session.byteCount ≠ 0) ∧
  headerStores r.events = headerStores ev


/-- Session of `crcConfig` one byte before the end of the frame `sampleFrame`: the
header checked (its `crc.header` field set to zero), the payload byte `01`
stored. -/
def lastSampleByteSession : Session :=
  paySession crcConfig [16, 0, 0, 0, 0, 0, 0, 0, 0, 0, 146, 66, 204, 182] [1] [0]

/-- The result of `uRpcHandle` in `lastSampleByteSession` with `lastPayloadByteEnv`
and the echo handler: the response transmitted is the frame `sampleFrame`. -/
def sampleResponseResult : Result :=
  { status := 0
    session := { header := [16, 0, 0, 0, 0, 0, 0, 0, 0, 0, 146, 66, 204, 182],
                 buffer := some [1, 2], byteCount := 0 }
    events := [Event.receive 2, Event.storePayload 1 2,
      Event.checkPayloadCrc 3066839698 3066839698, Event.mallocResponse true,
      Event.call 0 (some [1, 2]) 2 (List.replicate 64 0) 64,
      Event.transmitHeader 0 16, Event.transmitHeader 1 0, Event.transmitHeader 2 0,
      Event.transmitHeader 3 0, Event.transmitHeader 4 0, Event.transmitHeader 5 0,
      Event.transmitHeader 6 209, Event.transmitHeader 7 187, Event.transmitHeader 8 19,
      Event.transmitHeader 9 150, Event.transmitHeader 10 146, Event.transmitHeader 11 66,
      Event.transmitHeader 12 204, Event.transmitHeader 13 182,
      Event.transmitPayload 0 1, Event.transmitPayload 1 2, Event.freeResponse] }


/-! ## Runs over well-sized frames -/

/-- The events that move a byte: taking it from the transport, storing it into the
request header, storing it into the request buffer. -/
def Event.transfer? : Event → Option Event
  | .receive b => some (.receive b)
  | .storeHeader i b => some (.storeHeader i b)
  | .storePayload i b => some (.storePayload i b)
  | _ => none

/-- The byte-moving events, in order. -/
def transfers (evs : List Event) : List Event := evs.filterMap Event.transfer?

/-- The condition on the input of one call: if the byte `env.rx` received by this
call completes the header (the counter is `sizeof(uRpcHeader) - 1` at entry),
the completed header declares a size `s` with
`sizeof(uRpcHeader) <= s < 2 ^ 32 - 1`. -/
def declaresFrameSize (cfg : Config) (s : Session) (env : Env) : Prop :=
  s.byteCount + 1 = sizeofHeader cfg →
    sizeofHeader cfg ≤ headerSize (s.header.set s.byteCount env.rx) ∧
    headerSize (s.header.set s.byteCount env.rx) < 2 ^ 32 - 1

instance (cfg : Config) (s : Session) (env : Env) : Decidable (declaresFrameSize cfg s env) :=
  inferInstanceAs (Decidable (s.byteCount + 1 = sizeofHeader cfg →
    sizeofHeader cfg ≤ headerSize (s.header.set s.byteCount env.rx) ∧
    headerSize (s.header.set s.byteCount env.rx) < 2 ^ 32 - 1))

/-- A run of calls of `uRpcHandle` from the empty session in which every completed
header declares a size as in `declaresFrameSize`: the surroundings of the
calls, their results, and the session the run ends in.  Handlers table and
handlers count may differ from call to call. -/
inductive SizedRun (cfg : Config) : List Env → List Result → Session → Prop
  | start : SizedRun cfg [] [] (emptySession cfg)
  | call (t : Nat → uRPC_PROCEDURE) (c : Nat) (env : Env) (envs : List Env)
      (rs : List Result) (s : Session) (r : Result) :
      SizedRun cfg envs rs s → declaresFrameSize cfg s env →
      uRpcHandle cfg t c env s = some r → SizedRun cfg (envs ++ [env]) (rs ++ [r]) r.session

/-- Does every call of the run of `uRpcHandle` over `envs` from the session `s`
have a defined result and meet `declaresFrameSize`? -/
def sizedCalls (cfg : Config) (handlersTable : Nat → uRPC_PROCEDURE) (handlersCount : Nat) :
    Session → List Env → Bool
  | _, [] => true
  | s, env :: envs =>
    decide (declaresFrameSize cfg s env) &&
      match uRpcHandle cfg handlersTable handlersCount env s with
      | none => false
      | some r => sizedCalls cfg handlersTable handlersCount r.session envs

/-- The invariant of the session in runs over well-sized frames: either the counter
is below `sizeof(uRpcHeader)`, or it is above it and at most the declared
size, the declared size is below `2 ^ 32 - 1`, and the request buffer is live
and holds `size - sizeof(uRpcHeader)` bytes. -/
def SizedInv (cfg : Config) (s : Session) : Prop :=
  s.byteCount < sizeofHeader cfg ∨
  (sizeofHeader cfg < s.byteCount ∧ s.byteCount ≤ headerSize s.header ∧
   headerSize s.header < 2 ^ 32 - 1 ∧
   ∃ buf, s.buffer = some buf ∧ buf.length = headerSize s.header - sizeofHeader cfg)

/-- The store a call makes of the byte it receives: into the request header at the
offset the counter gives while the counter is below `sizeof(uRpcHeader)`, into
the request buffer at index `uRpcByteCount - sizeof(uRpcHeader) - 1` after. -/
def storeOf (cfg : Config) (s : Session) (env : Env) : Event :=
  if s.byteCount < sizeofHeader cfg then Event.storeHeader s.byteCount env.rx
  else Event.storePayload (s.byteCount - sizeofHeader cfg - 1) env.rx

/-- The surroundings of the first seven calls of a run on a frame of size 8 for
`plainConfig`: the header `08 00 00 00 00 00` and the payload byte `01`. -/
def sampleSizedEnvs : List Env := feed zeroMemory [8, 0, 0, 0, 0, 0, 1]

/-- The results of the calls of `sampleSizedEnvs`: five header bytes stored, the
header completed and the request buffer allocated, one payload byte stored. -/
def sampleSizedResults : List Result :=
  headerRun plainConfig [] [8, 0, 0, 0, 0] ++
    { status := uRPC_STATUS_WAITING_DATA
      session := paySession plainConfig [8, 0, 0, 0, 0, 0] [] [0, 0]
      events := [Event.receive 0, Event.storeHeader 5 0, Event.mallocRequest 2 true] } ::
    payloadRun plainConfig [8, 0, 0, 0, 0, 0] [] [0, 0] [1]


/-- A request frame for `crcConfig` whose payload is itself a request frame: size
28, code 0, both checksums right, payload `sampleEmptyFrame`. -/
def nestedFrame : List Byte :=
  [28, 0, 0, 0, 0, 0, 14, 94, 64, 124, 78, 62, 153, 28] ++ sampleEmptyFrame


theorem crcBit_eq_step (c : Nat) : crcBit c = crc32Step c := by
  unfold crcBit crc32Step UINT
  rw [Nat.and_one_is_mod]
  rcases Nat.mod_two_eq_zero_or_one c with h | h
  · simp [h]
  · simp [h]; rfl

theorem crcBits_eq_iterate (n c : Nat) : crcBits n c = crc32Step^[n] c := by
  induction n generalizing c with
  | zero => rfl
  | succ n ih => simp [crcBits, ih, crcBit_eq_step]

theorem crcBit_lt (c : Nat) (h : c < 2 ^ 32) : crcBit c < 2 ^ 32 := by
  rw [crcBit_eq_step]
  unfold crc32Step
  apply Nat.xor_lt_two_pow
  · rw [Nat.shiftRight_eq_div_pow]; omega
  · split <;> norm_num

theorem crcBits_lt (n c : Nat) (h : c < 2 ^ 32) : crcBits n c < 2 ^ 32 := by
  induction n generalizing c with
  | zero => exact h
  | succ n ih => exact ih _ (crcBit_lt c h)

theorem charToUInt_lt (sg : Bool) (b : Byte) : charToUInt sg b < 2 ^ 32 := by
  unfold charToUInt
  have := b.isLt
  split <;> omega

theorem crcByte_lt (sg : Bool) (c : Nat) (b : Byte) (h : c < 2 ^ 32) : crcByte sg c b < 2 ^ 32 :=
  crcBits_lt 8 _ (Nat.xor_lt_two_pow h (charToUInt_lt sg b))

theorem foldl_crcByte_lt (sg : Bool) (d : List Byte) (c : Nat) (h : c < 2 ^ 32) :
    d.foldl (crcByte sg) c < 2 ^ 32 := by
  induction d generalizing c with
  | nil => exact h
  | cons b d ih => exact ih _ (crcByte_lt sg c b h)

theorem complement_eq_xor (x : Nat) (h : x < 2 ^ 32) : 2 ^ 32 - 1 - x = x ^^^ 0xFFFFFFFF := by
  apply Nat.eq_of_testBit_eq
  intro i
  have h1 : 2 ^ 32 - 1 - x = 2 ^ 32 - (x + 1) := by omega
  rw [h1, Nat.testBit_two_pow_sub_succ h, Nat.testBit_xor]
  have h2 : (0xFFFFFFFF : Nat) = 2 ^ 32 - 1 := by norm_num
  rw [h2, Nat.testBit_two_pow_sub_one]
  by_cases hi : i < 32
  · simp [hi]
  · have : x.testBit i = false := by
      apply Nat.testBit_lt_two_pow
      exact lt_of_lt_of_le h (Nat.pow_le_pow_right (by norm_num) (by omega))
    simp [hi, this]

theorem calculateCrc_eq_reference (cfg : Config) (hs : cfg.charSigned = false) (d : List Byte) :
    calculateCrc cfg d = crc32Reference d := by
  unfold calculateCrc crc32Reference UINT
  have key : ∀ (d : List Byte) (c : Nat), c < 2 ^ 32 →
      d.foldl (fun c b => (crc32Step^[8] (c ^^^ b.val)) % 2 ^ 32) c
        = d.foldl (crcByte cfg.charSigned) c := by
    intro d
    induction d with
    | nil => intro c _; rfl
    | cons b d ih =>
      intro c hc
      have hb : crcByte cfg.charSigned c b < 2 ^ 32 := crcByte_lt _ c b hc
      have e : crc32Step^[8] (c ^^^ b.val) = crcByte cfg.charSigned c b := by
        simp [crcByte, crcBits_eq_iterate, charToUInt, hs]
      simp only [List.foldl_cons]
      rw [e, Nat.mod_eq_of_lt hb]
      exact ih _ hb
  have hlt := foldl_crcByte_lt cfg.charSigned d 0xFFFFFFFF (by norm_num)
  rw [key d _ (by norm_num), complement_eq_xor _ hlt]
  rw [Nat.mod_eq_of_lt]
  exact Nat.xor_lt_two_pow hlt (by norm_num)


theorem crcBit_injective (c d : Nat) (hc : c < 2 ^ 32) (hd : d < 2 ^ 32)
    (h : crcBit c = crcBit d) : c = d := by
  rw [crcBit_eq_step, crcBit_eq_step] at h
  unfold crc32Step at h
  simp only [Nat.shiftRight_eq_div_pow, pow_one] at h
  have hc2 : c / 2 < 2 ^ 31 := by omega
  have hd2 : d / 2 < 2 ^ 31 := by omega
  have tc : (c / 2).testBit 31 = false := Nat.testBit_lt_two_pow hc2
  have td : (d / 2).testBit 31 = false := Nat.testBit_lt_two_pow hd2
  have tp : (0xEDB88320 : Nat).testBit 31 = true := by decide
  rcases Nat.mod_two_eq_zero_or_one c with h1 | h1 <;>
    rcases Nat.mod_two_eq_zero_or_one d with h2 | h2
  · simp [h1, h2] at h; omega
  · simp [h1, h2] at h
    have := congrArg (fun x => Nat.testBit x 31) h
    simp [Nat.testBit_xor, tc, td, tp] at this
  · simp [h1, h2] at h
    have := congrArg (fun x => Nat.testBit x 31) h
    simp [Nat.testBit_xor, tc, td, tp] at this
  · simp [h1, h2] at h
    omega

theorem crcBits_injective (n c d : Nat) (hc : c < 2 ^ 32) (hd : d < 2 ^ 32)
    (h : crcBits n c = crcBits n d) : c = d := by
  induction n generalizing c d with
  | zero => exact h
  | succ n ih =>
    exact crcBit_injective c d hc hd (ih _ _ (crcBit_lt c hc) (crcBit_lt d hd) h)

theorem charToUInt_injective (sg : Bool) (a b : Byte) (h : charToUInt sg a = charToUInt sg b) :
    a = b := by
  unfold charToUInt at h
  have ha := a.isLt
  have hb := b.isLt
  apply Fin.ext
  split at h <;> split at h <;> omega

theorem foldl_crcByte_injective (sg : Bool) (d : List Byte) (c e : Nat) (hc : c < 2 ^ 32)
    (he : e < 2 ^ 32) (h : d.foldl (crcByte sg) c = d.foldl (crcByte sg) e) : c = e := by
  induction d generalizing c e with
  | nil => exact h
  | cons b d ih =>
    have h1 := ih _ _ (crcByte_lt sg c b hc) (crcByte_lt sg e b he) h
    have h2 := crcBits_injective 8 _ _ (Nat.xor_lt_two_pow hc (charToUInt_lt sg b))
      (Nat.xor_lt_two_pow he (charToUInt_lt sg b)) h1
    exact Nat.xor_left_injective h2

/-- Two inputs that differ in exactly one byte have different checksums. -/
theorem calculateCrc_ne_of_one_byte (cfg : Config) (pre suf : List Byte) (a b : Byte)
    (hab : a ≠ b) : calculateCrc cfg (pre ++ a :: suf) ≠ calculateCrc cfg (pre ++ b :: suf) := by
  intro h
  unfold calculateCrc UINT at h
  have l1 := foldl_crcByte_lt cfg.charSigned (pre ++ a :: suf) 0xFFFFFFFF (by norm_num)
  have l2 := foldl_crcByte_lt cfg.charSigned (pre ++ b :: suf) 0xFFFFFFFF (by norm_num)
  have h' : List.foldl (crcByte cfg.charSigned) 0xFFFFFFFF (pre ++ a :: suf)
      = List.foldl (crcByte cfg.charSigned) 0xFFFFFFFF (pre ++ b :: suf) := by omega
  simp only [List.foldl_append, List.foldl_cons] at h'
  have hp := foldl_crcByte_lt cfg.charSigned pre 0xFFFFFFFF (by norm_num)
  have h1 := foldl_crcByte_injective _ suf _ _ (crcByte_lt _ _ a hp) (crcByte_lt _ _ b hp) h'
  have h2 := crcBits_injective 8 _ _ (Nat.xor_lt_two_pow hp (charToUInt_lt _ a))
      (Nat.xor_lt_two_pow hp (charToUInt_lt _ b)) h1
  exact hab (charToUInt_injective _ a b (Nat.xor_right_injective h2))

theorem sizeofHeader_cases (cfg : Config) : sizeofHeader cfg = 6 ∨ sizeofHeader cfg = 14 := by
  unfold sizeofHeader; split <;> simp

theorem set_replicate_tail (pre : List Byte) (n : Nat) (b : Byte) (h : pre.length < n) :
    (pre ++ List.replicate (n - pre.length) (0 : Byte)).set pre.length b
      = (pre ++ [b]) ++ List.replicate (n - (pre ++ [b]).length) 0 := by
  have e : n - pre.length = (n - (pre.length + 1)) + 1 := by omega
  rw [List.set_append_right _ _ (le_refl _), e, List.replicate_succ]
  simp

theorem receiveHeader_wait (cfg : Config) (t : Nat → uRPC_PROCEDURE) (c : Nat) (env : Env)
    (pre : List Byte) (ev : List Event) (h : pre.length + 1 < sizeofHeader cfg) :
    receiveHeader cfg t c env (hdrSession cfg pre) ev
      = some { status := uRPC_STATUS_WAITING_DATA
               session := hdrSession cfg (pre ++ [env.rx])
               events := ev ++ [Event.receive env.rx, Event.storeHeader pre.length env.rx] } := by
  have hH := sizeofHeader_cases cfg
  have h1 : pre.length < sizeofHeader cfg := by omega
  have h2 : (pre.length + 1) % UINT = pre.length + 1 := by
    apply Nat.mod_eq_of_lt; unfold UINT; omega
  unfold receiveHeader
  simp only [hdrSession, h1, le_of_lt h1, h2, h, if_true, set_replicate_tail pre _ env.rx h1]
  simp

theorem receiveHeader_complete (cfg : Config) (t : Nat → uRPC_PROCEDURE) (c : Nat) (env : Env)
    (pre : List Byte) (ev : List Event) (h : pre.length + 1 = sizeofHeader cfg) :
    receiveHeader cfg t c env (hdrSession cfg pre) ev
      = checkHeader cfg t c env
          { header := pre ++ [env.rx], buffer := none, byteCount := sizeofHeader cfg }
          (ev ++ [Event.receive env.rx, Event.storeHeader pre.length env.rx]) := by
  have hH := sizeofHeader_cases cfg
  have h1 : pre.length < sizeofHeader cfg := by omega
  have h2 : (pre.length + 1) % UINT = pre.length + 1 := by
    apply Nat.mod_eq_of_lt; unfold UINT; omega
  unfold receiveHeader
  simp only [hdrSession, h1, le_of_lt h1, h2, if_true, set_replicate_tail pre _ env.rx h1]
  simp [h]


theorem prependEvents_nil (r : Result) : prependEvents [] r = r := by
  cases r; simp [prependEvents]

theorem prependEvents_append (a b : List Event) (r : Result) :
    prependEvents (a ++ b) r = prependEvents a (prependEvents b r) := by
  simp [prependEvents]

theorem respond_events (cfg : Config) (t : Nat → uRPC_PROCEDURE) (env : Env) (s : Session)
    (ev : List Event) : respond cfg t env s ev = prependEvents ev (respond cfg t env s []) := by
  unfold respond prependEvents
  split <;> simp

theorem validateCommand_events (cfg : Config) (t : Nat → uRPC_PROCEDURE) (c : Nat) (env : Env)
    (s : Session) (ev : List Event) :
    validateCommand cfg t c env s ev = prependEvents ev (validateCommand cfg t c env s []) := by
  unfold validateCommand
  split
  · simp [prependEvents]
  · exact respond_events cfg t env s ev

theorem prependEvents_comp (a b : List Event) :
    prependEvents a ∘ prependEvents b = prependEvents (a ++ b) := by
  funext r; simp [prependEvents]

theorem checkPayload_events (cfg : Config) (t : Nat → uRPC_PROCEDURE) (c : Nat) (env : Env)
    (s : Session) (ev : List Event) :
    checkPayload cfg t c env s ev = (checkPayload cfg t c env s []).map (prependEvents ev) := by
  unfold checkPayload
  cases s.buffer with
  | none =>
    simp only
    split
    · rfl
    · simp only [Option.map_some']
      rw [validateCommand_events]
  | some buf =>
    simp only [List.nil_append]
    split
    · split
      · split
        · simp [prependEvents]
        · simp only [Option.map_some']
          rw [validateCommand_events cfg t c env s (ev ++ _),
            validateCommand_events cfg t c env s [_], prependEvents_append]
      · rfl
    · simp only [Option.map_some']
      rw [validateCommand_events]

theorem receivePayload_events (cfg : Config) (t : Nat → uRPC_PROCEDURE) (c : Nat) (env : Env)
    (s : Session) (ev : List Event) :
    receivePayload cfg t c env s ev
      = (receivePayload cfg t c env s []).map (prependEvents ev) := by
  unfold receivePayload
  cases s.buffer with
  | none =>
    simp only
    split
    · split
      · split <;> simp [prependEvents]
      · split
        · rfl
        · exact checkPayload_events cfg t c env _ ev
    · simp only [Option.map_some']
      rw [validateCommand_events]
  | some buf =>
    simp only
    split
    · split
      · split <;> simp [prependEvents]
      · split
        · split
          · split
            · simp [prependEvents]
            · rw [checkPayload_events cfg t c env _ (ev ++ _),
                checkPayload_events cfg t c env _ ([] ++ _)]
              simp [Option.map_map, prependEvents_comp]
          · rfl
        · exact checkPayload_events cfg t c env _ ev
    · simp only [Option.map_some']
      rw [validateCommand_events]

theorem checkHeader_events (cfg : Config) (t : Nat → uRPC_PROCEDURE) (c : Nat) (env : Env)
    (s : Session) (ev : List Event) :
    checkHeader cfg t c env s ev = (checkHeader cfg t c env s []).map (prependEvents ev) := by
  unfold checkHeader
  simp only
  split
  · split
    · simp [prependEvents]
    · rw [receivePayload_events cfg t c env _ (ev ++ _),
        receivePayload_events cfg t c env _ ([] ++ _)]
      simp [Option.map_map, prependEvents_comp]
  · exact receivePayload_events cfg t c env s ev

theorem receiveHeader_events (cfg : Config) (t : Nat → uRPC_PROCEDURE) (c : Nat) (env : Env)
    (s : Session) (ev : List Event) :
    receiveHeader cfg t c env s ev
      = (receiveHeader cfg t c env s []).map (prependEvents ev) := by
  unfold receiveHeader
  simp only
  split
  · split
    · split
      · simp [prependEvents]
      · rw [checkHeader_events cfg t c env _ (ev ++ _),
          checkHeader_events cfg t c env _ ([] ++ _)]
        simp [Option.map_map, prependEvents_comp]
    · rfl
  · exact checkHeader_events cfg t c env s ev

/-- A call in a session whose counter is zero behaves as a call in the empty
session, after freeing the request buffer if one is live. -/
theorem uRpcHandle_of_zero (cfg : Config) (t : Nat → uRPC_PROCEDURE) (c : Nat) (env : Env)
    (s : Session) (h : s.byteCount = 0) :
    uRpcHandle cfg t c env s
      = (uRpcHandle cfg t c env (emptySession cfg)).map
          (prependEvents (if s.buffer.isSome then [Event.free] else [])) := by
  unfold uRpcHandle
  simp only [h, if_true, emptySession, uRpcInitialize, Option.isSome_none]
  rw [receiveHeader_events]
  simp [prependEvents_nil]

theorem uRpcHandle_hdrSession (cfg : Config) (t : Nat → uRPC_PROCEDURE) (c : Nat) (env : Env)
    (pre : List Byte) :
    uRpcHandle cfg t c env (hdrSession cfg pre)
      = receiveHeader cfg t c env (hdrSession cfg pre) [] := by
  unfold uRpcHandle
  split
  · rename_i h
    have : pre = [] := by
      simpa [hdrSession] using h
    subst this
    simp [uRpcInitialize, hdrSession]
  · rfl

theorem runCalls_header (cfg : Config) (t : Nat → uRPC_PROCEDURE) (c : Nat)
    (envs : List Env) (pre : List Byte) (h : pre.length + envs.length < sizeofHeader cfg) :
    runCalls cfg t c (hdrSession cfg pre) envs
      = some (headerRun cfg pre (envs.map (·.rx))) := by
  induction envs generalizing pre with
  | nil => rfl
  | cons e envs ih =>
    simp only [List.length_cons] at h
    have h1 : pre.length + 1 < sizeofHeader cfg := by omega
    simp only [runCalls, uRpcHandle_hdrSession, receiveHeader_wait cfg t c e pre [] h1,
      List.nil_append, List.map_cons, headerRun]
    rw [ih (pre ++ [e.rx]) (by simp; omega)]

theorem lastSession_headerRun (cfg : Config) (pre bs : List Byte) :
    lastSession (hdrSession cfg pre) (headerRun cfg pre bs) = hdrSession cfg (pre ++ bs) := by
  induction bs generalizing pre with
  | nil => simp [headerRun, lastSession]
  | cons b bs ih =>
    simp only [headerRun, lastSession]
    rw [ih (pre ++ [b])]
    simp

theorem statuses_headerRun (cfg : Config) (pre bs : List Byte) :
    statuses (headerRun cfg pre bs) = List.replicate bs.length uRPC_STATUS_WAITING_DATA := by
  induction bs generalizing pre with
  | nil => rfl
  | cons b bs ih =>
    simp only [headerRun, statuses, List.map_cons, List.length_cons, List.replicate_succ]
    exact congrArg _ (ih _)


theorem sizeSub_eq (a b : Nat) (hb : b ≤ a) (ha : a < SIZE_T) : sizeSub a b = a - b := by
  unfold sizeSub
  have hb' : b < SIZE_T := lt_of_le_of_lt hb ha
  rw [Nat.mod_eq_of_lt ha, Nat.mod_eq_of_lt hb']
  have : a + SIZE_T - b = (a - b) + SIZE_T := by omega
  rw [this, Nat.add_mod_right, Nat.mod_eq_of_lt]
  omega

theorem fromBytes_lt (l : List Byte) : fromBytes l < 256 ^ l.length := by
  induction l with
  | nil => simp [fromBytes]
  | cons b l ih =>
    have := b.isLt
    simp only [fromBytes, List.length_cons, pow_succ]
    omega

theorem headerSize_lt (h : List Byte) : headerSize h < UINT := by
  unfold headerSize UINT
  have h1 := fromBytes_lt (h.take 4)
  have h2 : (h.take 4).length ≤ 4 := by simp
  calc fromBytes (h.take 4) < 256 ^ (h.take 4).length := h1
    _ ≤ 256 ^ 4 := Nat.pow_le_pow_right (by norm_num) h2
    _ = 2 ^ 32 := by norm_num

theorem headerSize_checked (cfg : Config) (hdr : List Byte) (h : hdr.length = sizeofHeader cfg) :
    headerSize (checkedHeader cfg hdr) = headerSize hdr := by
  unfold checkedHeader
  split
  · rename_i hc
    have h14 : hdr.length = 14 := by simpa [sizeofHeader, hc] using h
    unfold headerSize setCrcHeader
    rw [List.append_assoc, List.take_append_of_le_length (by simp [h14]), List.take_take]
    simp
  · rfl

theorem headerCode_checked (cfg : Config) (hdr : List Byte) (h : hdr.length = sizeofHeader cfg) :
    headerCode (checkedHeader cfg hdr) = headerCode hdr := by
  unfold checkedHeader
  split
  · rename_i hc
    have h14 : hdr.length = 14 := by simpa [sizeofHeader, hc] using h
    unfold headerCode setCrcHeader
    rw [List.append_assoc, List.drop_append_of_le_length (by simp [h14]),
      List.take_append_of_le_length (by simp [h14]), List.drop_take, List.take_take]
    simp
  · rfl

theorem headerCrcPayload_checked (cfg : Config) (hdr : List Byte)
    (h : hdr.length = sizeofHeader cfg) :
    headerCrcPayload (checkedHeader cfg hdr) = headerCrcPayload hdr := by
  unfold checkedHeader
  split
  · rename_i hc
    have h14 : hdr.length = 14 := by simpa [sizeofHeader, hc] using h
    unfold headerCrcPayload setCrcHeader
    have e : (List.take 6 hdr ++ toBytes 4 0).length = 10 := by simp [toBytes, h14]
    rw [List.drop_append_eq_append_drop, e]
    simp [List.drop_eq_nil_of_le, e]
  · rfl


theorem checkHeader_bad (cfg : Config) (t : Nat → uRPC_PROCEDURE) (c : Nat) (env : Env)
    (hdr : List Byte) (buf : Option (List Byte)) (ev : List Event)
    (hc : cfg.crcChecksum = true)
    (hbad : headerCrcHeader hdr ≠ calculateCrc cfg (setCrcHeader hdr 0)) :
    checkHeader cfg t c env
        { header := hdr, buffer := buf, byteCount := sizeofHeader cfg } ev
      = some { status := uRPC_STATUS_WRONG_CRC
               session := { header := setCrcHeader hdr 0, buffer := buf, byteCount := 0 }
               events := ev ++ headerCheckEvents cfg hdr } := by
  unfold checkHeader
  simp [hc, headerCheckEvents, Ne.symm hbad]

theorem checkHeader_ok (cfg : Config) (t : Nat → uRPC_PROCEDURE) (c : Nat) (env : Env)
    (hdr : List Byte) (buf : Option (List Byte)) (ev : List Event)
    (hok : headerCrcOk cfg hdr) :
    checkHeader cfg t c env
        { header := hdr, buffer := buf, byteCount := sizeofHeader cfg } ev
      = receivePayload cfg t c env
          { header := checkedHeader cfg hdr, buffer := buf, byteCount := sizeofHeader cfg }
          (ev ++ headerCheckEvents cfg hdr) := by
  unfold checkHeader headerCheckEvents checkedHeader
  by_cases hc : cfg.crcChecksum = true
  · simp [hc, (hok hc).symm]
  · simp [hc]

theorem receivePayload_none (cfg : Config) (t : Nat → uRPC_PROCEDURE) (c : Nat) (env : Env)
    (s : Session) (ev : List Event) (h : headerSize s.header = sizeofHeader cfg) :
    receivePayload cfg t c env s ev = some (validateCommand cfg t c env s ev) := by
  unfold receivePayload
  have : sizeSub (sizeofHeader cfg) (sizeofHeader cfg) = 0 := by
    rcases sizeofHeader_cases cfg with e | e <;> simp [e, sizeSub, SIZE_T]
  simp [h, this]

theorem receivePayload_malloc (cfg : Config) (t : Nat → uRPC_PROCEDURE) (c : Nat) (env : Env)
    (hdr : List Byte) (buf : Option (List Byte)) (ev : List Event)
    (h : headerSize hdr ≠ sizeofHeader cfg) :
    receivePayload cfg t c env
        { header := hdr, buffer := buf, byteCount := sizeofHeader cfg } ev
      = if env.mallocOk then
          some { status := uRPC_STATUS_WAITING_DATA
                 session := paySession cfg hdr []
                   (List.replicate (sizeSub (headerSize hdr) (sizeofHeader cfg)) 0)
                 events := ev ++ [Event.mallocRequest
                   (sizeSub (headerSize hdr) (sizeofHeader cfg)) true] }
        else
          some { status := uRPC_STATUS_ERROR_MALLOC
                 session := { header := hdr, buffer := none, byteCount := 0 }
                 events := ev ++ [Event.mallocRequest
                   (sizeSub (headerSize hdr) (sizeofHeader cfg)) false] } := by
  have hs := headerSize_lt hdr
  have hpos : 0 < sizeSub (headerSize hdr) (sizeofHeader cfg) := by
    unfold sizeSub SIZE_T
    unfold UINT at hs
    rcases sizeofHeader_cases cfg with e | e <;> rw [e] at h ⊢ <;> omega
  have h1 : (sizeofHeader cfg + 1) % UINT = sizeofHeader cfg + 1 := by
    rcases sizeofHeader_cases cfg with e | e <;> simp [e, UINT]
  unfold receivePayload paySession
  simp [hpos, h1]


theorem set_append_tail (pre suf : List Byte) (b : Byte) (h : suf ≠ []) :
    (pre ++ suf).set pre.length b = (pre ++ [b]) ++ suf.tail := by
  cases suf with
  | nil => exact absurd rfl h
  | cons x suf => rw [List.set_append_right _ _ (le_refl _)]; simp

theorem receiveHeader_payload (cfg : Config) (t : Nat → uRPC_PROCEDURE) (c : Nat) (env : Env)
    (hdr pre suf : List Byte)
    (hsz : headerSize hdr = sizeofHeader cfg + pre.length + suf.length)
    (hlt : headerSize hdr < UINT - 1) (hsuf : suf ≠ []) :
    receiveHeader cfg t c env (paySession cfg hdr pre suf) []
      = if 2 ≤ suf.length then
          some { status := uRPC_STATUS_WAITING_DATA
                 session := paySession cfg hdr (pre ++ [env.rx]) suf.tail
                 events := [Event.receive env.rx, Event.storePayload pre.length env.rx] }
        else
          checkPayload cfg t c env
            { header := hdr, buffer := some (pre ++ [env.rx]),
              byteCount := sizeofHeader cfg + 1 + pre.length + 1 }
            [Event.receive env.rx, Event.storePayload pre.length env.rx] := by
  have hH := sizeofHeader_cases cfg
  have hl : 0 < suf.length := List.length_pos.mpr hsuf
  have hU : UINT = 4294967296 := by norm_num [UINT]
  have hS : SIZE_T = 18446744073709551616 := by norm_num [SIZE_T]
  have e1 : sizeSub (headerSize hdr) (sizeofHeader cfg) = pre.length + suf.length := by
    rw [sizeSub_eq _ _ (by omega) (by omega)]; omega
  have e2 : sizeSub (sizeSub (sizeofHeader cfg + 1 + pre.length) (sizeofHeader cfg)) 1
      = pre.length := by
    rw [sizeSub_eq (sizeofHeader cfg + 1 + pre.length) _ (by omega) (by omega),
      sizeSub_eq _ _ (by omega) (by omega)]
    omega
  have e3 : (headerSize hdr + 1) % UINT = headerSize hdr + 1 :=
    Nat.mod_eq_of_lt (by omega)
  have e4 : (sizeofHeader cfg + 1 + pre.length + 1) % UINT
      = sizeofHeader cfg + 1 + pre.length + 1 := Nat.mod_eq_of_lt (by omega)
  have n1 : ¬ (sizeofHeader cfg + 1 + pre.length ≤ sizeofHeader cfg) := by omega
  have n2 : ¬ (sizeofHeader cfg + 1 + pre.length = sizeofHeader cfg) := by omega
  have n3 : sizeofHeader cfg + 1 + pre.length ≤ headerSize hdr + 1 := by omega
  have n4 : pre.length < (pre ++ suf).length := by simp; omega
  unfold receiveHeader checkHeader receivePayload paySession
  simp only [n1, n2, e1, e2, e3, e4, n3, n4, and_false, if_false, if_true,
    set_append_tail pre suf env.rx hsuf, List.nil_append]
  have p : 0 < pre.length + suf.length := by omega
  simp only [p, if_true]
  by_cases h2 : 2 ≤ suf.length
  · have : sizeofHeader cfg + 1 + pre.length + 1 < headerSize hdr + 1 := by omega
    simp [this, h2]
    omega
  · have : ¬ (sizeofHeader cfg + 1 + pre.length + 1 < headerSize hdr + 1) := by omega
    have ht : suf.tail = [] := by
      apply List.eq_nil_of_length_eq_zero
      simp; omega
    simp [this, h2, ht]

theorem uRpcHandle_paySession (cfg : Config) (t : Nat → uRPC_PROCEDURE) (c : Nat) (env : Env)
    (hdr pre suf : List Byte) :
    uRpcHandle cfg t c env (paySession cfg hdr pre suf)
      = receiveHeader cfg t c env (paySession cfg hdr pre suf) [] := by
  unfold uRpcHandle
  have : (paySession cfg hdr pre suf).byteCount ≠ 0 := by simp [paySession]
  simp [this]

theorem runCalls_payload (cfg : Config) (t : Nat → uRPC_PROCEDURE) (c : Nat)
    (envs : List Env) (hdr pre suf : List Byte)
    (hsz : headerSize hdr = sizeofHeader cfg + pre.length + suf.length)
    (hlt : headerSize hdr < UINT - 1) (h : envs.length < suf.length) :
    runCalls cfg t c (paySession cfg hdr pre suf) envs
      = some (payloadRun cfg hdr pre suf (envs.map (·.rx))) := by
  induction envs generalizing pre suf with
  | nil => rfl
  | cons e envs ih =>
    simp only [List.length_cons] at h
    have hsuf : suf ≠ [] := by intro h0; simp [h0] at h
    have h2 : 2 ≤ suf.length := by omega
    simp only [runCalls, uRpcHandle_paySession,
      receiveHeader_payload cfg t c e hdr pre suf hsz hlt hsuf, h2, if_true, List.map_cons,
      payloadRun]
    have hl : suf.tail.length = suf.length - 1 := by simp
    rw [ih (pre ++ [e.rx]) suf.tail (by simp [hl]; omega) (by omega)]

theorem lastSession_payloadRun (cfg : Config) (hdr pre suf bs : List Byte) :
    lastSession (paySession cfg hdr pre suf) (payloadRun cfg hdr pre suf bs)
      = paySession cfg hdr (pre ++ bs) (suf.drop bs.length) := by
  induction bs generalizing pre suf with
  | nil => simp [payloadRun, lastSession]
  | cons b bs ih =>
    simp only [payloadRun, lastSession]
    rw [ih (pre ++ [b]) suf.tail]
    simp

theorem statuses_payloadRun (cfg : Config) (hdr pre suf bs : List Byte) :
    statuses (payloadRun cfg hdr pre suf bs)
      = List.replicate bs.length uRPC_STATUS_WAITING_DATA := by
  induction bs generalizing pre suf with
  | nil => rfl
  | cons b bs ih =>
    simp only [payloadRun, statuses, List.map_cons, List.length_cons, List.replicate_succ]
    exact congrArg _ (ih _ _)


theorem runCalls_cons (cfg : Config) (t : Nat → uRPC_PROCEDURE) (c : Nat) (s : Session)
    (e : Env) (es : List Env) :
    runCalls cfg t c s (e :: es)
      = (uRpcHandle cfg t c e s).bind fun r =>
          (runCalls cfg t c r.session es).map fun rs => r :: rs := by
  simp only [runCalls]
  cases uRpcHandle cfg t c e s with
  | none => rfl
  | some r =>
    simp only [Option.some_bind]
    cases runCalls cfg t c r.session es <;> rfl

theorem runCalls_append (cfg : Config) (t : Nat → uRPC_PROCEDURE) (c : Nat) (s : Session)
    (a b : List Env) :
    runCalls cfg t c s (a ++ b)
      = (runCalls cfg t c s a).bind fun ra =>
          (runCalls cfg t c (lastSession s ra) b).map fun rb => ra ++ rb := by
  induction a generalizing s with
  | nil => simp [runCalls, lastSession]
  | cons e a ih =>
    rw [List.cons_append, runCalls_cons, runCalls_cons]
    cases uRpcHandle cfg t c e s with
    | none => rfl
    | some r =>
      simp only [Option.some_bind]
      rw [ih]
      cases runCalls cfg t c r.session a with
      | none => rfl
      | some ra =>
        simp only [Option.some_bind, Option.map_some', lastSession, Option.map_map]
        rfl

theorem emptySession_eq (cfg : Config) : emptySession cfg = hdrSession cfg [] := rfl

/-- The calls that receive a whole header: the first `sizeof(uRpcHeader) - 1` of them
wait, the last one goes on to the header check. -/
theorem runCalls_headerComplete (cfg : Config) (t : Nat → uRPC_PROCEDURE) (c : Nat)
    (envs0 : List Env) (e : Env) (rest : List Env)
    (hlen : envs0.length + 1 = sizeofHeader cfg) :
    runCalls cfg t c (emptySession cfg) (envs0 ++ e :: rest)
      = (checkHeader cfg t c e
          { header := envs0.map (·.rx) ++ [e.rx], buffer := none,
            byteCount := sizeofHeader cfg }
          [Event.receive e.rx, Event.storeHeader envs0.length e.rx]).bind fun r =>
        (runCalls cfg t c r.session rest).map fun rs =>
          headerRun cfg [] (envs0.map (·.rx)) ++ r :: rs := by
  rw [runCalls_append, emptySession_eq,
    runCalls_header cfg t c envs0 [] (by simp; omega)]
  simp only [Option.some_bind, lastSession_headerRun, List.nil_append]
  rw [runCalls_cons, uRpcHandle_hdrSession,
    receiveHeader_complete cfg t c e _ [] (by simpa using hlen)]
  simp only [List.nil_append, List.length_map]
  cases checkHeader cfg t c e
      { header := envs0.map (·.rx) ++ [e.rx], buffer := none, byteCount := sizeofHeader cfg }
      [Event.receive e.rx, Event.storeHeader envs0.length e.rx] with
  | none => rfl
  | some r =>
    simp only [Option.some_bind, Option.map_map]
    rfl


/-- The calls that receive a whole payload: all but the last wait, the last one
goes on to the payload check. -/
theorem runCalls_payloadComplete (cfg : Config) (t : Nat → uRPC_PROCEDURE) (c : Nat)
    (hdr : List Byte) (envsP0 : List Env) (eP : Env)
    (hsz : headerSize hdr = sizeofHeader cfg + envsP0.length + 1)
    (hlt : headerSize hdr < UINT - 1) :
    runCalls cfg t c (paySession cfg hdr [] (List.replicate (envsP0.length + 1) 0))
        (envsP0 ++ [eP])
      = (checkPayload cfg t c eP
          { header := hdr, buffer := some (envsP0.map (·.rx) ++ [eP.rx]),
            byteCount := sizeofHeader cfg + 1 + envsP0.length + 1 }
          [Event.receive eP.rx, Event.storePayload envsP0.length eP.rx]).map fun r =>
        payloadRun cfg hdr [] (List.replicate (envsP0.length + 1) 0) (envsP0.map (·.rx))
          ++ [r] := by
  rw [runCalls_append, runCalls_payload cfg t c envsP0 hdr [] _ (by simpa using by omega) hlt
    (by simp)]
  simp only [Option.some_bind, lastSession_payloadRun, List.nil_append, List.length_map]
  rw [runCalls_cons, uRpcHandle_paySession,
    receiveHeader_payload cfg t c eP hdr _ _ (by simp; omega) hlt (by simp)]
  have h1 : ¬ (2 ≤ (List.drop envsP0.length
      (List.replicate (envsP0.length + 1) (0 : Byte))).length) := by simp
  simp only [h1, if_false, List.length_map]
  cases checkPayload cfg t c eP
      { header := hdr, buffer := some (envsP0.map (·.rx) ++ [eP.rx]),
        byteCount := sizeofHeader cfg + 1 + envsP0.length + 1 }
      [Event.receive eP.rx, Event.storePayload envsP0.length eP.rx] with
  | none => rfl
  | some r => simp [runCalls]

theorem checkPayload_ok (cfg : Config) (t : Nat → uRPC_PROCEDURE) (c : Nat) (env : Env)
    (hdr P : List Byte) (bc : Nat) (ev : List Event)
    (hsz : headerSize hdr = sizeofHeader cfg + P.length)
    (hok : payloadCrcOk cfg hdr P) :
    checkPayload cfg t c env { header := hdr, buffer := some P, byteCount := bc } ev
      = some (validateCommand cfg t c env { header := hdr, buffer := some P, byteCount := bc }
          (ev ++ payloadCheckEvents cfg hdr P)) := by
  have hs := headerSize_lt hdr
  have hU : UINT = 4294967296 := by norm_num [UINT]
  have hS : SIZE_T = 18446744073709551616 := by norm_num [SIZE_T]
  have e1 : sizeSub (headerSize hdr) (sizeofHeader cfg) % UINT = P.length := by
    rw [sizeSub_eq _ _ (by omega) (by omega), Nat.mod_eq_of_lt (by omega)]; omega
  unfold checkPayload payloadCheckEvents
  by_cases hc : cfg.crcChecksum = true
  · simp [hc, e1, (hok hc).symm]
  · simp [hc]

theorem checkPayload_bad (cfg : Config) (t : Nat → uRPC_PROCEDURE) (c : Nat) (env : Env)
    (hdr P : List Byte) (bc : Nat) (ev : List Event)
    (hsz : headerSize hdr = sizeofHeader cfg + P.length)
    (hc : cfg.crcChecksum = true)
    (hbad : headerCrcPayload hdr ≠ calculateCrc cfg P) :
    checkPayload cfg t c env { header := hdr, buffer := some P, byteCount := bc } ev
      = some { status := uRPC_STATUS_WRONG_CRC
               session := { header := hdr, buffer := some P, byteCount := 0 }
               events := ev ++ payloadCheckEvents cfg hdr P } := by
  have hs := headerSize_lt hdr
  have hU : UINT = 4294967296 := by norm_num [UINT]
  have hS : SIZE_T = 18446744073709551616 := by norm_num [SIZE_T]
  have e1 : sizeSub (headerSize hdr) (sizeofHeader cfg) % UINT = P.length := by
    rw [sizeSub_eq _ _ (by omega) (by omega), Nat.mod_eq_of_lt (by omega)]; omega
  unfold checkPayload payloadCheckEvents
  simp [hc, e1, Ne.symm hbad]


theorem allEvents_append (a b : List Result) :
    allEvents (a ++ b) = allEvents a ++ allEvents b := by
  induction a with
  | nil => rfl
  | cons r a ih => simp [allEvents, ih]

theorem allEvents_singleton (r : Result) : allEvents [r] = r.events := by
  simp [allEvents]

theorem statuses_append (a b : List Result) : statuses (a ++ b) = statuses a ++ statuses b := by
  simp [statuses]

theorem received_append (a b : List Event) : received (a ++ b) = received a ++ received b := by
  simp [received]

theorem invocations_append (a b : List Event) :
    invocations (a ++ b) = invocations a ++ invocations b := by
  simp [invocations]

theorem transmitted_append (a b : List Event) :
    transmitted (a ++ b) = transmitted a ++ transmitted b := by
  simp [transmitted]

theorem calls_append (a b : List Event) : calls (a ++ b) = calls a ++ calls b := by
  simp [calls]

/-- Events of the calls that only store bytes: a `receive` and a store per byte. -/
theorem allEvents_headerRun (cfg : Config) (pre bs : List Byte) :
    received (allEvents (headerRun cfg pre bs)) = bs ∧
    invocations (allEvents (headerRun cfg pre bs)) = [] ∧
    transmitted (allEvents (headerRun cfg pre bs)) = [] ∧
    calls (allEvents (headerRun cfg pre bs)) = [] ∧
    (∀ ev ∈ allEvents (headerRun cfg pre bs),
      (∃ b, ev = Event.receive b) ∨
      (∃ i b, i < pre.length + bs.length ∧ ev = Event.storeHeader i b)) := by
  induction bs generalizing pre with
  | nil => simp [headerRun, allEvents, received, invocations, transmitted, calls]
  | cons b bs ih =>
    obtain ⟨h1, h2, h3, h4, h5⟩ := ih (pre ++ [b])
    refine ⟨?_, ?_, ?_, ?_, ?_⟩
    · simp only [headerRun, allEvents, received_append, h1]
      simp [received, Event.rxByte?]
    · simp only [headerRun, allEvents, invocations_append, h2]
      simp [invocations, Event.invocation?]
    · simp only [headerRun, allEvents, transmitted_append, h3]
      simp [transmitted, Event.txByte?]
    · simp only [headerRun, allEvents, calls_append, h4]
      simp [calls, Event.isCall]
    · intro ev hev
      simp only [headerRun, allEvents, List.mem_append, List.mem_cons,
        List.mem_singleton, List.not_mem_nil, or_false] at hev
      rcases hev with (h | h) | h
      · exact Or.inl ⟨b, h⟩
      · exact Or.inr ⟨_, b, by simp, h⟩
      · rcases h5 ev h with h | ⟨i, x, hi, h⟩
        · exact Or.inl h
        · exact Or.inr ⟨i, x, by simp at hi ⊢; omega, h⟩

theorem allEvents_payloadRun (cfg : Config) (hdr pre suf bs : List Byte) :
    received (allEvents (payloadRun cfg hdr pre suf bs)) = bs ∧
    invocations (allEvents (payloadRun cfg hdr pre suf bs)) = [] ∧
    transmitted (allEvents (payloadRun cfg hdr pre suf bs)) = [] ∧
    calls (allEvents (payloadRun cfg hdr pre suf bs)) = [] := by
  induction bs generalizing pre suf with
  | nil => simp [payloadRun, allEvents, received, invocations, transmitted, calls]
  | cons b bs ih =>
    obtain ⟨h1, h2, h3, h4⟩ := ih (pre ++ [b]) suf.tail
    refine ⟨?_, ?_, ?_, ?_⟩
    · simp only [payloadRun, allEvents, received_append, h1]
      simp [received, Event.rxByte?]
    · simp only [payloadRun, allEvents, invocations_append, h2]
      simp [invocations, Event.invocation?]
    · simp only [payloadRun, allEvents, transmitted_append, h3]
      simp [transmitted, Event.txByte?]
    · simp only [payloadRun, allEvents, calls_append, h4]
      simp [calls, Event.isCall]

theorem free_not_mem_payloadRun (cfg : Config) (hdr pre suf bs : List Byte) :
    Event.free ∉ allEvents (payloadRun cfg hdr pre suf bs) := by
  induction bs generalizing pre suf with
  | nil => simp [payloadRun, allEvents]
  | cons b bs ih =>
    simp only [payloadRun, allEvents, List.mem_append, List.mem_cons, List.mem_singleton,
      List.not_mem_nil, or_false]
    rintro ((h | h) | h)
    · cases h
    · cases h
    · exact ih _ _ h

theorem headerCheckEvents_facts (cfg : Config) (hdr : List Byte) :
    received (headerCheckEvents cfg hdr) = [] ∧
    invocations (headerCheckEvents cfg hdr) = [] ∧
    transmitted (headerCheckEvents cfg hdr) = [] ∧
    calls (headerCheckEvents cfg hdr) = [] := by
  unfold headerCheckEvents
  split <;> simp [received, invocations, transmitted, calls, Event.rxByte?,
    Event.invocation?, Event.txByte?, Event.isCall]

theorem payloadCheckEvents_facts (cfg : Config) (hdr P : List Byte) :
    received (payloadCheckEvents cfg hdr P) = [] ∧
    invocations (payloadCheckEvents cfg hdr P) = [] ∧
    transmitted (payloadCheckEvents cfg hdr P) = [] ∧
    calls (payloadCheckEvents cfg hdr P) = [] := by
  unfold payloadCheckEvents
  split <;> simp [received, invocations, transmitted, calls, Event.rxByte?,
    Event.invocation?, Event.txByte?, Event.isCall]

theorem transmitLoop_facts (cfg : Config) (env : Env) (hdr out : List Byte) (size : Nat) :
    received (transmitLoop cfg env hdr out size) = [] ∧
    invocations (transmitLoop cfg env hdr out size) = [] ∧
    calls (transmitLoop cfg env hdr out size) = [] := by
  unfold transmitLoop received invocations calls
  refine ⟨?_, ?_, ?_⟩
  · rw [List.filterMap_eq_nil_iff]
    intro ev hev
    obtain ⟨i, -, rfl⟩ := List.mem_map.mp hev
    split <;> rfl
  · rw [List.filterMap_eq_nil_iff]
    intro ev hev
    obtain ⟨i, -, rfl⟩ := List.mem_map.mp hev
    split <;> rfl
  · rw [List.filter_eq_nil_iff]
    intro ev hev
    obtain ⟨i, -, rfl⟩ := List.mem_map.mp hev
    split <;> simp [Event.isCall]


theorem requestAllocations_append (a b : List Event) :
    requestAllocations (a ++ b) = requestAllocations a ++ requestAllocations b := by
  simp [requestAllocations, List.filterMap_append]

theorem payloadStores_append (a b : List Event) :
    payloadStores (a ++ b) = payloadStores a ++ payloadStores b := by
  simp [payloadStores, List.filterMap_append]

theorem length_headerRun (cfg : Config) (pre bs : List Byte) :
    (headerRun cfg pre bs).length = bs.length := by
  induction bs generalizing pre with
  | nil => rfl
  | cons b bs ih => simp [headerRun, ih]

theorem length_payloadRun (cfg : Config) (hdr pre suf bs : List Byte) :
    (payloadRun cfg hdr pre suf bs).length = bs.length := by
  induction bs generalizing pre suf with
  | nil => rfl
  | cons b bs ih => simp [payloadRun, ih]

/-- The calls of the header phase neither allocate nor store into the request
buffer. -/
theorem stores_headerRun (cfg : Config) (pre bs : List Byte) :
    requestAllocations (allEvents (headerRun cfg pre bs)) = [] ∧
    payloadStores (allEvents (headerRun cfg pre bs)) = [] := by
  induction bs generalizing pre with
  | nil => simp [headerRun, allEvents, requestAllocations, payloadStores]
  | cons b bs ih =>
    obtain ⟨h1, h2⟩ := ih (pre ++ [b])
    refine ⟨?_, ?_⟩
    · simp only [headerRun, allEvents, requestAllocations_append, h1]
      simp [requestAllocations, Event.allocation?]
    · simp only [headerRun, allEvents, payloadStores_append, h2]
      simp [payloadStores, Event.payloadStore?]

theorem stores_headerCheckEvents (cfg : Config) (hdr : List Byte) :
    requestAllocations (headerCheckEvents cfg hdr) = [] ∧
    payloadStores (headerCheckEvents cfg hdr) = [] := by
  unfold headerCheckEvents
  split <;> simp [requestAllocations, payloadStores, Event.allocation?, Event.payloadStore?]

/-- The calls of the payload phase do not allocate, and each stores the byte it
receives at the next index of the request buffer. -/
theorem stores_payloadRun (cfg : Config) (hdr pre suf bs : List Byte) :
    requestAllocations (allEvents (payloadRun cfg hdr pre suf bs)) = [] ∧
    (payloadRun cfg hdr pre suf bs).map (fun r => payloadStores r.events)
      = (bs.enumFrom pre.length).map (fun p => [p]) := by
  induction bs generalizing pre suf with
  | nil => simp [payloadRun, allEvents, requestAllocations]
  | cons b bs ih =>
    obtain ⟨h1, h2⟩ := ih (pre ++ [b]) suf.tail
    refine ⟨?_, ?_⟩
    · simp only [payloadRun, allEvents, requestAllocations_append, h1]
      simp [requestAllocations, Event.allocation?]
    · simp only [payloadRun, List.map_cons, h2, List.enumFrom_cons]
      simp [payloadStores, Event.payloadStore?]


theorem validateCommand_byteCount (cfg : Config) (t : Nat → uRPC_PROCEDURE) (c : Nat)
    (env : Env) (hdr : List Byte) (buf : Option (List Byte)) (bc : Nat) (ev : List Event) :
    validateCommand cfg t c env { header := hdr, buffer := buf, byteCount := bc } ev
      = validateCommand cfg t c env { header := hdr, buffer := buf, byteCount := 0 } ev := by
  unfold validateCommand respond
  rfl

theorem eq_nil_or_snoc {α : Type} (l : List α) : l = [] ∨ ∃ L b, l = L ++ [b] := by
  rcases List.eq_nil_or_concat l with h | ⟨L, b, h⟩
  · exact Or.inl h
  · exact Or.inr ⟨L, b, by rw [h, List.concat_eq_append]⟩

/-- Splitting the environments of a frame into those of the header bytes, the last
of them singled out, and those of the payload bytes. -/
theorem split_header_envs (n : Nat) (envs : List Env) (hn : 0 < n) (h : n ≤ envs.length) :
    ∃ envs0 eH envsP, envs = envs0 ++ eH :: envsP ∧ envs0.length + 1 = n := by
  have h1 : (envs.take n).length = n := by simp [h]
  rcases eq_nil_or_snoc (envs.take n) with h0 | ⟨envs0, eH, h0⟩
  · rw [h0] at h1; simp at h1; omega
  · refine ⟨envs0, eH, envs.drop n, ?_, ?_⟩
    · have := (List.take_append_drop n envs).symm
      rw [h0] at this
      simpa using this
    · rw [h0] at h1; simpa using h1

/-- The run of a frame with a payload up to the payload check: every call but the
last waits, and the last call reaches `checkPayload` with the header as
received (after the header check) and the whole payload in the request
buffer. -/
theorem runCalls_frame_payload (cfg : Config) (F : List Byte) (envs : List Env)
    (hrx : envs.map (·.rx) = F)
    (halloc : ∀ e ∈ envs.take (sizeofHeader cfg), e.mallocOk = true)
    (hH : sizeofHeader cfg < F.length)
    (hsize : headerSize (F.take (sizeofHeader cfg)) = F.length)
    (hlt : F.length < 2 ^ 32 - 1)
    (hcrcH : headerCrcOk cfg (F.take (sizeofHeader cfg))) :
    ∃ ws eLast evLast bc,
      envs.getLast? = some eLast ∧
      (∀ (t : Nat → uRPC_PROCEDURE) (c : Nat), runCalls cfg t c (emptySession cfg) envs
        = (checkPayload cfg t c eLast
            { header := checkedHeader cfg (F.take (sizeofHeader cfg)),
              buffer := some (F.drop (sizeofHeader cfg)), byteCount := bc } evLast).map
          (fun r => ws ++ [r])) ∧
      statuses ws = List.replicate (F.length - 1) uRPC_STATUS_WAITING_DATA ∧
      received (allEvents ws ++ evLast) = F ∧
      invocations (allEvents ws ++ evLast) = [] ∧
      transmitted (allEvents ws ++ evLast) = [] ∧
      calls (allEvents ws ++ evLast) = [] ∧
      Event.free ∉ allEvents ws ++ evLast ∧
      ∃ wsH rH wsP, ws = wsH ++ rH :: wsP ∧ wsH.length + 1 = sizeofHeader cfg ∧
        requestAllocations (allEvents wsH) = [] ∧ payloadStores (allEvents wsH) = [] ∧
        requestAllocations rH.events = [(F.length - sizeofHeader cfg, true)] ∧
        payloadStores rH.events = [] ∧
        requestAllocations (allEvents wsP ++ evLast) = [] ∧
        wsP.map (fun r => payloadStores r.events) ++ [payloadStores evLast]
          = ((F.drop (sizeofHeader cfg)).enum).map (fun p => [p]) := by
  have hHc := sizeofHeader_cases cfg
  obtain ⟨envs0, eH, envsP, henvs, hlen0⟩ :=
    split_header_envs (sizeofHeader cfg) envs (by omega)
      (by rw [← hrx] at hH; simp at hH; omega)
  subst henvs
  have hF : F = (envs0.map (·.rx) ++ [eH.rx]) ++ envsP.map (·.rx) := by
    rw [← hrx]; simp
  have hhdr : F.take (sizeofHeader cfg) = envs0.map (·.rx) ++ [eH.rx] := by
    rw [hF, List.take_append_of_le_length (by simp; omega), List.take_of_length_le (by simp; omega)]
  have hpay : F.drop (sizeofHeader cfg) = envsP.map (·.rx) := by
    rw [hF, List.drop_append_of_le_length (by simp; omega),
      List.drop_of_length_le (by simp; omega), List.nil_append]
  have hFl : F.length = sizeofHeader cfg + envsP.length := by
    rw [hF]; simp; omega
  have hhl : (F.take (sizeofHeader cfg)).length = sizeofHeader cfg := by
    rw [hhdr]; simp; omega
  have hm : eH.mallocOk = true := by
    apply halloc eH
    rw [List.take_append_eq_append_take, List.take_of_length_le (by omega)]
    have : sizeofHeader cfg - envs0.length = 1 := by omega
    simp [this]
  rw [hhdr] at hsize hcrcH hhl
  rw [hhdr, hpay]
  generalize hdrdef : envs0.map (·.rx) ++ [eH.rx] = hdr at *
  have hU : UINT = 4294967296 := by norm_num [UINT]
  rcases eq_nil_or_snoc envsP with hP | ⟨envsP0, eP, hP⟩
  · subst hP; simp at hFl; omega
  subst hP
  simp only [List.length_append, List.length_singleton] at hFl
  have hsz' : headerSize (checkedHeader cfg hdr) = sizeofHeader cfg + envsP0.length + 1 := by
    rw [headerSize_checked cfg hdr hhl]; omega
  have hn : sizeSub (headerSize (checkedHeader cfg hdr)) (sizeofHeader cfg)
      = envsP0.length + 1 := by
    rw [sizeSub_eq _ _ (by omega) (by rw [hsz']; norm_num [SIZE_T]; omega)]; omega
  obtain ⟨h1, h2, h3, h4, h5⟩ := allEvents_headerRun cfg [] (envs0.map (·.rx))
  obtain ⟨k1, k2, k3, k4⟩ := headerCheckEvents_facts cfg hdr
  obtain ⟨p1, p2, p3, p4⟩ := allEvents_payloadRun cfg (checkedHeader cfg hdr) []
    (List.replicate (envsP0.length + 1) 0) (envsP0.map (·.rx))
  refine ⟨headerRun cfg [] (envs0.map (·.rx)) ++
      { status := uRPC_STATUS_WAITING_DATA
        session := paySession cfg (checkedHeader cfg hdr) []
          (List.replicate (envsP0.length + 1) 0)
        events := [Event.receive eH.rx, Event.storeHeader envs0.length eH.rx] ++
          headerCheckEvents cfg hdr ++ [Event.mallocRequest (envsP0.length + 1) true] } ::
      payloadRun cfg (checkedHeader cfg hdr) [] (List.replicate (envsP0.length + 1) 0)
        (envsP0.map (·.rx)),
    eP, [Event.receive eP.rx, Event.storePayload envsP0.length eP.rx],
    sizeofHeader cfg + 1 + envsP0.length + 1, ?_, ?_, ?_, ?_, ?_, ?_, ?_, ?_, ?_⟩
  · rw [List.getLast?_eq_some_iff]
    exact ⟨envs0 ++ eH :: envsP0, by simp⟩
  · intro t c
    rw [runCalls_headerComplete cfg t c envs0 eH _ hlen0, hdrdef,
      checkHeader_ok cfg t c eH hdr none _ hcrcH,
      receivePayload_malloc cfg t c eH _ none _ (by rw [hsz']; omega)]
    simp only [hm, if_true, Option.some_bind, hn]
    rw [runCalls_payloadComplete cfg t c _ envsP0 eP hsz' (by rw [hsz', hU]; omega)]
    simp [Option.map_map, Function.comp_def]
  · have hc : ∀ (r : Result) (rs : List Result),
        statuses (r :: rs) = r.status :: statuses rs := fun _ _ => rfl
    simp only [statuses_append, hc, statuses_headerRun, statuses_payloadRun,
      List.length_map]
    rw [hFl]
    have e : sizeofHeader cfg + (envsP0.length + 1) - 1
        = envs0.length + (1 + envsP0.length) := by omega
    rw [e, List.replicate_add, List.replicate_add]
    simp
  · simp only [allEvents_append, allEvents, received_append, h1, k1, p1]
    rw [hF, ← hdrdef]
    simp [received, Event.rxByte?]
  · simp only [allEvents_append, allEvents, invocations_append, h2, k2, p2]
    simp [invocations, Event.invocation?]
  · simp only [allEvents_append, allEvents, transmitted_append, h3, k3, p3]
    simp [transmitted, Event.txByte?]
  · simp only [allEvents_append, allEvents, calls_append, h4, k4, p4]
    simp [calls, Event.isCall]
  · have hA : Event.free ∉ allEvents (headerRun cfg [] (envs0.map (·.rx))) := fun h => by
      rcases h5 _ h with ⟨b, hb⟩ | ⟨i, b, -, hb⟩ <;> cases hb
    have hB : Event.free ∉ headerCheckEvents cfg hdr := by
      unfold headerCheckEvents
      split <;> simp
    have hC := free_not_mem_payloadRun cfg (checkedHeader cfg hdr) []
      (List.replicate (envsP0.length + 1) 0) (envsP0.map (·.rx))
    simp [allEvents_append, allEvents, hA, hB, hC]
  · obtain ⟨a1, a2⟩ := stores_headerRun cfg [] (envs0.map (·.rx))
    obtain ⟨b1, b2⟩ := stores_headerCheckEvents cfg hdr
    obtain ⟨c1, c2⟩ := stores_payloadRun cfg (checkedHeader cfg hdr) []
      (List.replicate (envsP0.length + 1) 0) (envsP0.map (·.rx))
    refine ⟨_, _, _, rfl, ?_, a1, a2, ?_, ?_, ?_, ?_⟩
    · rw [length_headerRun]; simpa using hlen0
    · simp only [requestAllocations_append, b1]
      have : F.length - sizeofHeader cfg = envsP0.length + 1 := by omega
      simp [requestAllocations, Event.allocation?, this]
    · simp only [payloadStores_append, b2]
      simp [payloadStores, Event.payloadStore?]
    · simp only [requestAllocations_append, c1]
      simp [requestAllocations, Event.allocation?]
    · rw [c2, List.enum, List.map_append, List.enumFrom_append]
      simp [payloadStores, Event.payloadStore?]

/-- The run of a well-formed frame up to command validation: every call but the
last waits, and the last call reaches `validateCommand` with the header as
received (after the header check) and the payload in the request buffer. -/
theorem runCalls_frame (cfg : Config) (F : List Byte) (envs : List Env)
    (hrx : envs.map (·.rx) = F)
    (halloc : sizeofHeader cfg < F.length →
      ∀ e ∈ envs.take (sizeofHeader cfg), e.mallocOk = true)
    (hH : sizeofHeader cfg ≤ F.length)
    (hsize : headerSize (F.take (sizeofHeader cfg)) = F.length)
    (hlt : F.length < 2 ^ 32 - 1)
    (hcrcH : headerCrcOk cfg (F.take (sizeofHeader cfg)))
    (hcrcP : sizeofHeader cfg < F.length →
      payloadCrcOk cfg (F.take (sizeofHeader cfg)) (F.drop (sizeofHeader cfg))) :
    ∃ ws eLast evLast buf,
      envs.getLast? = some eLast ∧
      (∀ (t : Nat → uRPC_PROCEDURE) (c : Nat), runCalls cfg t c (emptySession cfg) envs
        = some (ws ++ [validateCommand cfg t c eLast
            { header := checkedHeader cfg (F.take (sizeofHeader cfg)), buffer := buf,
              byteCount := 0 } evLast])) ∧
      statuses ws = List.replicate (F.length - 1) uRPC_STATUS_WAITING_DATA ∧
      received (allEvents ws ++ evLast) = F ∧
      invocations (allEvents ws ++ evLast) = [] ∧
      transmitted (allEvents ws ++ evLast) = [] ∧
      calls (allEvents ws ++ evLast) = [] ∧
      buf.getD [] = F.drop (sizeofHeader cfg) ∧
      (F.length = sizeofHeader cfg → buf = none ∧
        ∀ ev ∈ allEvents ws ++ evLast, (∃ b, ev = Event.receive b) ∨
          (∃ i b, ev = Event.storeHeader i b) ∨ (∃ x y, ev = Event.checkHeaderCrc x y)) := by
  have hHc := sizeofHeader_cases cfg
  have hhl : (F.take (sizeofHeader cfg)).length = sizeofHeader cfg := by simp [hH]
  rcases Nat.eq_or_lt_of_le hH with hEq | hLt
  · -- no payload
    obtain ⟨envs0, eH, envsP, henvs, hlen0⟩ :=
      split_header_envs (sizeofHeader cfg) envs (by omega)
        (by rw [← hrx] at hH; simpa using hH)
    have hP : envsP = [] := by
      have : envs.length = sizeofHeader cfg := by rw [← hrx] at hEq; simp at hEq; omega
      rw [henvs] at this
      simp at this
      apply List.eq_nil_of_length_eq_zero
      omega
    subst hP
    subst henvs
    have hF : F = envs0.map (·.rx) ++ [eH.rx] := by rw [← hrx]; simp
    have hhdr : F.take (sizeofHeader cfg) = F := List.take_of_length_le (by omega)
    have hpay : F.drop (sizeofHeader cfg) = [] := List.drop_of_length_le (by omega)
    rw [hhdr] at hsize hcrcH hhl
    rw [hhdr, hpay]
    obtain ⟨h1, h2, h3, h4, h5⟩ := allEvents_headerRun cfg [] (envs0.map (·.rx))
    obtain ⟨k1, k2, k3, k4⟩ := headerCheckEvents_facts cfg F
    refine ⟨headerRun cfg [] (envs0.map (·.rx)), eH,
      [Event.receive eH.rx, Event.storeHeader envs0.length eH.rx] ++ headerCheckEvents cfg F,
      none, List.getLast?_concat _, ?_, ?_, ?_, ?_, ?_, ?_, by simp, ?_⟩
    · intro t c
      rw [runCalls_headerComplete cfg t c envs0 eH [] hlen0, ← hF,
        checkHeader_ok cfg t c eH F none _ hcrcH,
        receivePayload_none cfg t c eH _ _
          (by simp only; rw [headerSize_checked cfg F hhl]; omega)]
      simp only [Option.some_bind, runCalls, Option.map_some']
      rw [validateCommand_byteCount]
    · rw [statuses_headerRun]; simp; omega
    · rw [received_append, received_append, h1, k1]
      conv_rhs => rw [hF]
      simp [received, Event.rxByte?]
    · rw [invocations_append, invocations_append, h2, k2]
      simp [invocations, Event.invocation?]
    · rw [transmitted_append, transmitted_append, h3, k3]
      simp [transmitted, Event.txByte?]
    · rw [calls_append, calls_append, h4, k4]
      simp [calls, Event.isCall]
    · intro _
      refine ⟨rfl, ?_⟩
      intro ev hev
      simp only [List.mem_append, List.mem_cons, List.mem_singleton, List.not_mem_nil,
        or_false] at hev
      rcases hev with h | (h | h) | h
      · rcases h5 ev h with h | ⟨i, b, -, h⟩
        · exact Or.inl h
        · exact Or.inr (Or.inl ⟨i, b, h⟩)
      · exact Or.inl ⟨_, h⟩
      · exact Or.inr (Or.inl ⟨_, _, h⟩)
      · unfold headerCheckEvents at h
        split at h
        · simp only [List.mem_singleton] at h
          exact Or.inr (Or.inr ⟨_, _, h⟩)
        · simp at h
  · -- a payload
    obtain ⟨ws, eLast, evLast, bc, hmem, hrun, hst, hrec, hinv, htx, hcalls, -⟩ :=
      runCalls_frame_payload cfg F envs hrx (halloc hLt) hLt hsize hlt hcrcH
    have hsz' : headerSize (checkedHeader cfg (F.take (sizeofHeader cfg)))
        = sizeofHeader cfg + (F.drop (sizeofHeader cfg)).length := by
      rw [headerSize_checked cfg _ hhl, hsize]; simp; omega
    have hcrcP' : payloadCrcOk cfg (checkedHeader cfg (F.take (sizeofHeader cfg)))
        (F.drop (sizeofHeader cfg)) := by
      intro hc
      rw [headerCrcPayload_checked cfg _ hhl]
      exact hcrcP hLt hc
    obtain ⟨q1, q2, q3, q4⟩ := payloadCheckEvents_facts cfg
      (checkedHeader cfg (F.take (sizeofHeader cfg))) (F.drop (sizeofHeader cfg))
    refine ⟨ws, eLast, evLast ++ payloadCheckEvents cfg
        (checkedHeader cfg (F.take (sizeofHeader cfg))) (F.drop (sizeofHeader cfg)),
      some (F.drop (sizeofHeader cfg)), hmem, ?_, hst, ?_, ?_, ?_, ?_,
      rfl, fun h => by omega⟩
    · intro t c
      rw [hrun t c, checkPayload_ok cfg t c eLast _ _ _ _ hsz' hcrcP', Option.map_some',
        validateCommand_byteCount]
    · rw [← List.append_assoc, received_append, hrec, q1, List.append_nil]
    · rw [← List.append_assoc, invocations_append, hinv, q2, List.append_nil]
    · rw [← List.append_assoc, transmitted_append, htx, q3, List.append_nil]
    · rw [← List.append_assoc, calls_append, hcalls, q4, List.append_nil]


theorem passive_append {a b : List Event} (ha : ∀ e ∈ a, e.isPassive = true)
    (hb : ∀ e ∈ b, e.isPassive = true) : ∀ e ∈ a ++ b, e.isPassive = true := by
  intro e he
  rcases List.mem_append.mp he with h | h
  · exact ha e h
  · exact hb e h

theorem checkPayload_shape (cfg : Config) (t : Nat → uRPC_PROCEDURE) (c : Nat) (env : Env)
    (s : Session) (ev : List Event) (r : Result) (hev : ∀ e ∈ ev, e.isPassive = true)
    (h : checkPayload cfg t c env s ev = some r) : Shape cfg t c env r := by
  unfold checkPayload at h
  split at h
  · cases hb : s.buffer with
    | none => simp [hb] at h
    | some buf =>
      simp only [hb] at h
      split at h
      · split at h
        · cases h
          exact ⟨_, passive_append hev (by simp [Event.isPassive]), Or.inr (Or.inl ⟨rfl, rfl, rfl⟩)⟩
        · cases h
          refine ⟨ev ++ [Event.checkPayloadCrc _ _], ?_,
            Or.inr (Or.inr (Or.inr (Or.inr ⟨s, rfl⟩)))⟩
          exact passive_append hev (by simp [Event.isPassive])
      · cases h
  · cases h
    exact ⟨ev, hev, Or.inr (Or.inr (Or.inr (Or.inr ⟨s, rfl⟩)))⟩

theorem receivePayload_shape (cfg : Config) (t : Nat → uRPC_PROCEDURE) (c : Nat) (env : Env)
    (s : Session) (ev : List Event) (r : Result) (hev : ∀ e ∈ ev, e.isPassive = true)
    (h : receivePayload cfg t c env s ev = some r) : Shape cfg t c env r := by
  unfold receivePayload at h
  simp only at h
  split at h
  · split at h
    · split at h
      · rename_i hm
        cases h
        exact ⟨ev, hev, Or.inr (Or.inr (Or.inl ⟨_, rfl, hm, rfl⟩))⟩
      · rename_i hm
        cases h
        exact ⟨ev, hev, Or.inr (Or.inr (Or.inr (Or.inl ⟨_, rfl, by simpa using hm, rfl, rfl⟩)))⟩
    · split at h
      · cases hb : s.buffer with
        | none => simp [hb] at h
        | some buf =>
          simp only [hb] at h
          split at h
          · split at h
            · cases h
              exact ⟨_, passive_append hev (by simp [Event.isPassive]), Or.inl ⟨rfl, rfl⟩⟩
            · exact checkPayload_shape cfg t c env _ _ r
                (passive_append hev (by simp [Event.isPassive])) h
          · cases h
      · exact checkPayload_shape cfg t c env _ _ r hev h
  · cases h
    exact ⟨ev, hev, Or.inr (Or.inr (Or.inr (Or.inr ⟨s, rfl⟩)))⟩

theorem checkHeader_shape (cfg : Config) (t : Nat → uRPC_PROCEDURE) (c : Nat) (env : Env)
    (s : Session) (ev : List Event) (r : Result) (hev : ∀ e ∈ ev, e.isPassive = true)
    (h : checkHeader cfg t c env s ev = some r) : Shape cfg t c env r := by
  unfold checkHeader at h
  simp only at h
  split at h
  · split at h
    · cases h
      exact ⟨_, passive_append hev (by simp [Event.isPassive]), Or.inr (Or.inl ⟨rfl, rfl, rfl⟩)⟩
    · exact receivePayload_shape cfg t c env _ _ r
        (passive_append hev (by simp [Event.isPassive])) h
  · exact receivePayload_shape cfg t c env _ _ r hev h

theorem receiveHeader_shape (cfg : Config) (t : Nat → uRPC_PROCEDURE) (c : Nat) (env : Env)
    (s : Session) (ev : List Event) (r : Result) (hev : ∀ e ∈ ev, e.isPassive = true)
    (h : receiveHeader cfg t c env s ev = some r) : Shape cfg t c env r := by
  unfold receiveHeader at h
  simp only at h
  split at h
  · split at h
    · split at h
      · cases h
        exact ⟨_, passive_append hev (by simp [Event.isPassive]), Or.inl ⟨rfl, rfl⟩⟩
      · exact checkHeader_shape cfg t c env _ _ r
          (passive_append hev (by simp [Event.isPassive])) h
    · cases h
  · exact checkHeader_shape cfg t c env _ _ r hev h

/-- Every result of `uRpcHandle` has one of the forms of `Shape`. -/
theorem uRpcHandle_shape (cfg : Config) (t : Nat → uRPC_PROCEDURE) (c : Nat) (env : Env)
    (s : Session) (r : Result) (h : uRpcHandle cfg t c env s = some r) :
    Shape cfg t c env r := by
  unfold uRpcHandle at h
  split at h
  · refine receiveHeader_shape cfg t c env _ _ r ?_ h
    unfold uRpcInitialize
    simp only
    split <;> simp [Event.isPassive]
  · exact receiveHeader_shape cfg t c env _ _ r (by simp) h

theorem passive_facts (ev : List Event) (h : ∀ e ∈ ev, e.isPassive = true) :
    transmitted ev = [] ∧ calls ev = [] ∧ invocations ev = [] ∧
    (∀ n b, Event.mallocRequest n b ∉ ev) ∧ (∀ b, Event.mallocResponse b ∉ ev) := by
  refine ⟨?_, ?_, ?_, ?_, ?_⟩
  · unfold transmitted
    rw [List.filterMap_eq_nil_iff]
    intro e he
    have := h e he
    cases e <;> simp_all [Event.isPassive, Event.txByte?]
  · unfold calls
    rw [List.filter_eq_nil_iff]
    intro e he
    have := h e he
    cases e <;> simp_all [Event.isPassive, Event.isCall]
  · unfold invocations
    rw [List.filterMap_eq_nil_iff]
    intro e he
    have := h e he
    cases e <;> simp_all [Event.isPassive, Event.invocation?]
  · intro n b hm
    have := h _ hm
    simp [Event.isPassive] at this
  · intro b hm
    have := h _ hm
    simp [Event.isPassive] at this


theorem lastSession_snoc (s : Session) (ws : List Result) (r : Result) :
    lastSession s (ws ++ [r]) = r.session := by
  induction ws generalizing s with
  | nil => rfl
  | cons w ws ih => exact ih w.session

/-- A call in a session whose counter is zero starts a new frame: the header is
cleared, a live request buffer is freed, and the byte received becomes byte 0
of the header. -/
theorem uRpcHandle_fresh (cfg : Config) (t : Nat → uRPC_PROCEDURE) (c : Nat) (env : Env)
    (s : Session) (h : s.byteCount = 0) :
    uRpcHandle cfg t c env s
      = some { status := uRPC_STATUS_WAITING_DATA
               session := hdrSession cfg [env.rx]
               events := (if s.buffer.isSome then [Event.free] else []) ++
                 [Event.receive env.rx, Event.storeHeader 0 env.rx] } := by
  have hH := sizeofHeader_cases cfg
  rw [uRpcHandle_of_zero cfg t c env s h, emptySession_eq, uRpcHandle_hdrSession,
    receiveHeader_wait cfg t c env [] [] (by simp; omega)]
  simp [prependEvents]

theorem headerChecks_headerRun (cfg : Config) (pre bs : List Byte) :
    headerChecks (allEvents (headerRun cfg pre bs)) = [] := by
  unfold headerChecks
  rw [List.filter_eq_nil_iff]
  intro ev hev
  rcases (allEvents_headerRun cfg pre bs).2.2.2.2 ev hev with ⟨b, rfl⟩ | ⟨i, b, -, rfl⟩ <;>
    simp [Event.isHeaderCheck]

/-- The run of a header whose checksum does not match. -/
theorem run_header_mismatch (cfg : Config) (t : Nat → uRPC_PROCEDURE) (c : Nat)
    (hdr : List Byte) (envs : List Env) (eNext : Env)
    (hc : cfg.crcChecksum = true)
    (hrx : envs.map (·.rx) = hdr)
    (hlen : hdr.length = 14)
    (hbad : headerCrcHeader hdr ≠ calculateCrc cfg (setCrcHeader hdr 0)) :
    ∃ rs, runCalls cfg t c (emptySession cfg) envs = some rs ∧
      statuses rs = List.replicate 13 uRPC_STATUS_WAITING_DATA ++ [uRPC_STATUS_WRONG_CRC] ∧
      (lastSession (emptySession cfg) rs).byteCount = 0 ∧
      received (allEvents rs) = hdr ∧
      (∀ ev ∈ allEvents rs, (∃ b, ev = Event.receive b) ∨
        (∃ i b, i < 14 ∧ ev = Event.storeHeader i b) ∨ (∃ x y, ev = Event.checkHeaderCrc x y)) ∧
      headerChecks (allEvents (rs.take 13)) = [] ∧
      headerChecks (allEvents (rs.drop 13))
        = [Event.checkHeaderCrc (calculateCrc cfg (setCrcHeader hdr 0)) (headerCrcHeader hdr)] ∧
      uRpcHandle cfg t c eNext (lastSession (emptySession cfg) rs)
        = some { status := uRPC_STATUS_WAITING_DATA
                 session := hdrSession cfg [eNext.rx]
                 events := [Event.receive eNext.rx, Event.storeHeader 0 eNext.rx] } := by
  have hH : sizeofHeader cfg = 14 := by simp [sizeofHeader, hc]
  obtain ⟨envs0, eH, envsP, henvs, hlen0⟩ :=
    split_header_envs 14 envs (by omega) (by rw [← hrx] at hlen; simp at hlen; omega)
  have hP : envsP = [] := by
    have : envs.length = 14 := by rw [← hrx] at hlen; simpa using hlen
    rw [henvs] at this
    simp at this
    apply List.eq_nil_of_length_eq_zero
    omega
  subst hP
  subst henvs
  have hhdr : hdr = envs0.map (·.rx) ++ [eH.rx] := by rw [← hrx]; simp
  have hrun : runCalls cfg t c (emptySession cfg) (envs0 ++ [eH])
      = some (headerRun cfg [] (envs0.map (·.rx)) ++
          [{ status := uRPC_STATUS_WRONG_CRC
             session := { header := setCrcHeader hdr 0, buffer := none, byteCount := 0 }
             events := [Event.receive eH.rx, Event.storeHeader envs0.length eH.rx] ++
               headerCheckEvents cfg hdr }]) := by
    rw [runCalls_headerComplete cfg t c envs0 eH [] (by omega), ← hhdr,
      checkHeader_bad cfg t c eH hdr none _ hc hbad]
    simp [runCalls]
  have hl13 : (headerRun cfg [] (envs0.map (·.rx))).length = 13 := by
    have := congrArg List.length (statuses_headerRun cfg [] (envs0.map (·.rx)))
    simp [statuses] at this
    omega
  have hce : headerCheckEvents cfg hdr
      = [Event.checkHeaderCrc (calculateCrc cfg (setCrcHeader hdr 0)) (headerCrcHeader hdr)] := by
    simp [headerCheckEvents, hc]
  refine ⟨_, hrun, ?_, ?_, ?_, ?_, ?_, ?_, ?_⟩
  · rw [statuses_append, statuses_headerRun]
    simp only [List.length_map]
    have : envs0.length = 13 := by omega
    rw [this]; rfl
  · rw [lastSession_snoc]
  · rw [allEvents_append, allEvents_singleton, received_append,
      (allEvents_headerRun cfg [] _).1, hce, hhdr]
    simp [received, Event.rxByte?]
  · intro ev hev
    rw [allEvents_append, allEvents_singleton, hce] at hev
    simp only [List.mem_append, List.mem_cons, List.mem_singleton, List.not_mem_nil,
      or_false] at hev
    rcases hev with h | (h | h) | h
    · rcases (allEvents_headerRun cfg [] _).2.2.2.2 ev h with h | ⟨i, b, hi, h⟩
      · exact Or.inl h
      · exact Or.inr (Or.inl ⟨i, b, by simp at hi; omega, h⟩)
    · exact Or.inl ⟨_, h⟩
    · exact Or.inr (Or.inl ⟨_, _, by omega, h⟩)
    · exact Or.inr (Or.inr ⟨_, _, h⟩)
  · rw [List.take_append_of_le_length (by omega), List.take_of_length_le (by omega)]
    exact headerChecks_headerRun cfg [] _
  · rw [List.drop_append_of_le_length (by omega), List.drop_of_length_le (by omega),
      List.nil_append, allEvents_singleton, hce]
    simp [headerChecks, Event.isHeaderCheck]
  · rw [lastSession_snoc, uRpcHandle_fresh cfg t c eNext _ rfl]
    simp


/-- The run of a frame whose payload checksum does not match. -/
theorem run_payload_mismatch (cfg : Config) (t : Nat → uRPC_PROCEDURE) (c : Nat)
    (F : List Byte) (envs : List Env) (eNext : Env)
    (hc : cfg.crcChecksum = true)
    (hrx : envs.map (·.rx) = F)
    (halloc : ∀ e ∈ envs.take (sizeofHeader cfg), e.mallocOk = true)
    (hH : sizeofHeader cfg < F.length)
    (hsize : headerSize (F.take (sizeofHeader cfg)) = F.length)
    (hlt : F.length < 2 ^ 32 - 1)
    (hcrcH : headerCrcOk cfg (F.take (sizeofHeader cfg)))
    (hbad : headerCrcPayload (F.take (sizeofHeader cfg))
      ≠ calculateCrc cfg (F.drop (sizeofHeader cfg))) :
    ∃ rs, runCalls cfg t c (emptySession cfg) envs = some rs ∧
      statuses rs = List.replicate (F.length - 1) uRPC_STATUS_WAITING_DATA
        ++ [uRPC_STATUS_WRONG_CRC] ∧
      (lastSession (emptySession cfg) rs).byteCount = 0 ∧
      calls (allEvents rs) = [] ∧
      transmitted (allEvents rs) = [] ∧
      Event.free ∉ allEvents rs ∧
      (lastSession (emptySession cfg) rs).buffer = some (F.drop (sizeofHeader cfg)) ∧
      uRpcHandle cfg t c eNext (lastSession (emptySession cfg) rs)
        = some { status := uRPC_STATUS_WAITING_DATA
                 session := hdrSession cfg [eNext.rx]
                 events := [Event.free, Event.receive eNext.rx,
                   Event.storeHeader 0 eNext.rx] } := by
  obtain ⟨ws, eLast, evLast, bc, -, hrun, hst, -, -, htx, hcalls, hfree, -⟩ :=
    runCalls_frame_payload cfg F envs hrx halloc hH hsize hlt hcrcH
  replace hrun := hrun t c
  have hhl : (F.take (sizeofHeader cfg)).length = sizeofHeader cfg := by simp; omega
  have hsz' : headerSize (checkedHeader cfg (F.take (sizeofHeader cfg)))
      = sizeofHeader cfg + (F.drop (sizeofHeader cfg)).length := by
    rw [headerSize_checked cfg _ hhl, hsize]; simp; omega
  have hbad' : headerCrcPayload (checkedHeader cfg (F.take (sizeofHeader cfg)))
      ≠ calculateCrc cfg (F.drop (sizeofHeader cfg)) := by
    rw [headerCrcPayload_checked cfg _ hhl]; exact hbad
  obtain ⟨-, -, q3, q4⟩ := payloadCheckEvents_facts cfg
    (checkedHeader cfg (F.take (sizeofHeader cfg))) (F.drop (sizeofHeader cfg))
  have hq : Event.free ∉ payloadCheckEvents cfg
      (checkedHeader cfg (F.take (sizeofHeader cfg))) (F.drop (sizeofHeader cfg)) := by
    unfold payloadCheckEvents
    split <;> simp
  rw [checkPayload_bad cfg t c eLast _ _ _ _ hsz' hc hbad', Option.map_some'] at hrun
  refine ⟨_, hrun, ?_, ?_, ?_, ?_, ?_, ?_, ?_⟩
  · rw [statuses_append, hst]; rfl
  · rw [lastSession_snoc]
  · rw [allEvents_append, allEvents_singleton, ← List.append_assoc, calls_append, hcalls, q4]
    rfl
  · rw [allEvents_append, allEvents_singleton, ← List.append_assoc, transmitted_append, htx,
      q3]
    rfl
  · rw [allEvents_append, allEvents_singleton, ← List.append_assoc, List.mem_append]
    rintro (h | h)
    · exact hfree h
    · exact hq h
  · rw [lastSession_snoc]
  · rw [lastSession_snoc, uRpcHandle_fresh cfg t c eNext _ rfl]
    simp

theorem respond_success (cfg : Config) (t : Nat → uRPC_PROCEDURE) (env : Env) (s : Session)
    (ev : List Event) (hm : env.mallocOk = true) :
    (respond cfg t env s ev).status = uRPC_STATUS_SUCCESS ∧
    (respond cfg t env s ev).session.byteCount = 0 ∧
    received (respond cfg t env s ev).events = received ev ∧
    invocations (respond cfg t env s ev).events = invocations ev ++
      [(headerCode s.header,
        (s.buffer.getD []).take (sizeSub (headerSize s.header) (sizeofHeader cfg) % UINT),
        sizeSub (headerSize s.header) (sizeofHeader cfg) % UINT)] := by
  unfold respond
  simp only [hm, if_true]
  refine ⟨trivial, trivial, ?_, ?_⟩
  · simp only [received_append, (transmitLoop_facts cfg env _ _ _).1]
    simp [received, Event.rxByte?]
  · simp only [invocations_append, (transmitLoop_facts cfg env _ _ _).2.1]
    simp [invocations, Event.invocation?]

theorem transmitLoop_isResponse (cfg : Config) (env : Env) (hdr out : List Byte) (size : Nat) :
    ∀ ev ∈ transmitLoop cfg env hdr out size, ev.isResponse = true := by
  intro ev hev
  unfold transmitLoop at hev
  obtain ⟨i, -, rfl⟩ := List.mem_map.mp hev
  split <;> rfl

/-- Events of the command-validation stage: those handed in, followed by events of
the response stage only. -/
theorem validateCommand_events_mem (cfg : Config) (t : Nat → uRPC_PROCEDURE) (c : Nat)
    (env : Env) (σ : Session) (evs : List Event) :
    ∀ ev ∈ (validateCommand cfg t c env σ evs).events, ev ∈ evs ∨ ev.isResponse = true := by
  intro ev hev
  unfold validateCommand at hev
  split at hev
  · exact Or.inl hev
  · unfold respond at hev
    split at hev
    · simp only [List.mem_append, List.mem_cons, List.mem_singleton, List.not_mem_nil,
        or_false] at hev
      rcases hev with ((h | h | h) | h) | h
      · exact Or.inl h
      · exact Or.inr (by rw [h]; rfl)
      · exact Or.inr (by rw [h]; rfl)
      · exact Or.inr (transmitLoop_isResponse cfg env _ _ _ ev h)
      · exact Or.inr (by rw [h]; rfl)
    · simp only [List.mem_append, List.mem_singleton] at hev
      rcases hev with h | h
      · exact Or.inl h
      · exact Or.inr (by rw [h]; rfl)


theorem fromBytes_toBytes (w n : Nat) : fromBytes (toBytes w n) = n % 256 ^ w := by
  induction w generalizing n with
  | zero => simp [toBytes, fromBytes, Nat.mod_one]
  | succ w ih =>
    simp only [toBytes, fromBytes, ih, Fin.ofNat, Fin.val_mk]
    rw [pow_succ, Nat.mul_comm (256 ^ w) 256, Nat.mod_mul]
    omega

theorem toBytes_length (w n : Nat) : (toBytes w n).length = w := by
  induction w generalizing n with
  | zero => rfl
  | succ w ih => simp [toBytes, ih]

theorem responseHeaderBytes_facts (cfg : Config) (size code x y : Nat) :
    (responseHeaderBytes cfg size code x y).length = sizeofHeader cfg ∧
    headerSize (responseHeaderBytes cfg size code x y) = size % UINT ∧
    headerCode (responseHeaderBytes cfg size code x y) = code % USHORT := by
  unfold responseHeaderBytes headerSize headerCode sizeofHeader
  refine ⟨?_, ?_, ?_⟩
  · split <;> simp [toBytes_length]
  · rw [List.append_assoc, List.take_append_of_le_length (by simp [toBytes_length]),
      List.take_of_length_le (by simp [toBytes_length]), fromBytes_toBytes]
    norm_num [UINT]
  · rw [List.append_assoc, List.drop_append_of_le_length (by simp [toBytes_length]),
      List.drop_of_length_le (by simp [toBytes_length]), List.nil_append,
      List.take_append_of_le_length (by simp [toBytes_length]),
      List.take_of_length_le (by simp [toBytes_length]), fromBytes_toBytes]
    norm_num [USHORT]

theorem fitBuffer_length (out : List Byte) :
    (fitBuffer out).length = uRPC_OUT_BUFFER_SIZE_BYTES := by
  unfold fitBuffer
  simp

/-- The bytes the transmit loop hands to `transmitByte` when the declared size
stays within the header plus the response buffer. -/
theorem transmitted_transmitLoop (cfg : Config) (env : Env) (hdr out : List Byte) (n : Nat)
    (hh : hdr.length = sizeofHeader cfg) (hn : n ≤ out.length)
    (ho : out.length ≤ uRPC_OUT_BUFFER_SIZE_BYTES) :
    transmitted (transmitLoop cfg env hdr out (sizeofHeader cfg + n)) = hdr ++ out.take n := by
  have hHc := sizeofHeader_cases cfg
  have h64 : uRPC_OUT_BUFFER_SIZE_BYTES = 64 := rfl
  unfold transmitted transmitLoop
  rw [List.filterMap_map]
  have e : (Event.txByte? ∘ fun i =>
      if i < sizeofHeader cfg then Event.transmitHeader i (hdr.getD i 0)
      else Event.transmitPayload (sizeSub i (sizeofHeader cfg))
        (loadResponse env out (sizeSub i (sizeofHeader cfg))))
      = some ∘ fun i => (if i < sizeofHeader cfg then hdr.getD i 0
          else loadResponse env out (sizeSub i (sizeofHeader cfg))) := by
    funext i
    simp only [Function.comp]
    split <;> rfl
  rw [e, List.filterMap_eq_map]
  apply List.ext_getElem
  · simp [hh, hn]
  · intro i h1 h2
    simp only [List.length_map, List.length_range] at h1
    simp only [List.getElem_map, List.getElem_range]
    by_cases hi : i < sizeofHeader cfg
    · rw [if_pos hi, List.getElem_append_left (by omega), List.getD_eq_getElem _ _ (by omega)]
    · rw [if_neg hi, List.getElem_append_right (by omega)]
      have hs : sizeSub i (sizeofHeader cfg) = i - sizeofHeader cfg :=
        sizeSub_eq _ _ (by omega) (by norm_num [SIZE_T]; omega)
      have hlt : i - sizeofHeader cfg < out.length := by omega
      simp only [hs, loadResponse, hlt, dif_pos, List.getElem_take, hh, List.get_eq_getElem]


theorem calculateCrc_ne_of_set (cfg : Config) (m : List Byte) (i : Nat) (x : Byte)
    (hi : i < m.length) (hx : x ≠ m.get ⟨i, hi⟩) :
    calculateCrc cfg (m.set i x) ≠ calculateCrc cfg m := by
  have e1 : m.set i x = m.take i ++ x :: m.drop (i + 1) := List.set_eq_take_cons_drop x hi
  have e2 : m = m.take i ++ m.get ⟨i, hi⟩ :: m.drop (i + 1) := by
    rw [List.get_eq_getElem, List.getElem_cons_drop, List.take_append_drop]
  rw [e1]
  nth_rewrite 3 [e2]
  exact calculateCrc_ne_of_one_byte cfg _ _ _ _ hx

theorem list_of_length_14 (l : List Byte) (h : l.length = 14) :
    ∃ b0 b1 b2 b3 b4 b5 b6 b7 b8 b9 b10 b11 b12 b13,
      l = [b0, b1, b2, b3, b4, b5, b6, b7, b8, b9, b10, b11, b12, b13] := by
  rcases l with _ | ⟨b0, _ | ⟨b1, _ | ⟨b2, _ | ⟨b3, _ | ⟨b4, _ | ⟨b5, _ | ⟨b6, _ | ⟨b7,
    _ | ⟨b8, _ | ⟨b9, _ | ⟨b10, _ | ⟨b11, _ | ⟨b12, _ | ⟨b13, _ | ⟨b14, l⟩⟩⟩⟩⟩⟩⟩⟩⟩⟩⟩⟩⟩⟩⟩ <;>
    first
    | exact ⟨_, _, _, _, _, _, _, _, _, _, _, _, _, _, rfl⟩
    | (simp at h)

/-- Changing one byte of a header with a valid header checksum makes the header
check fail. -/
theorem corrupt_header_bad (cfg : Config) (hdr : List Byte) (i : Nat) (x : Byte)
    (hlen : hdr.length = 14) (hi : i < 14) (hx : x ≠ hdr.getD i 0)
    (hok : headerCrcHeader hdr = calculateCrc cfg (setCrcHeader hdr 0)) :
    headerCrcHeader (hdr.set i x) ≠ calculateCrc cfg (setCrcHeader (hdr.set i x) 0) := by
  obtain ⟨b0, b1, b2, b3, b4, b5, b6, b7, b8, b9, b10, b11, b12, b13, rfl⟩ :=
    list_of_length_14 hdr hlen
  have hv : ∀ a b : Byte, a ≠ b → a.val ≠ b.val := fun a b h h' => h (Fin.ext h')
  interval_cases i
  all_goals
    simp only [List.set, headerCrcHeader, setCrcHeader, List.take, List.drop, toBytes,
      List.cons_append, List.nil_append, List.getD_cons_zero, List.getD_cons_succ] at hok hx ⊢
  all_goals first
    | (rw [hok]
       exact (calculateCrc_ne_of_set cfg _ 0 x (by simp) (by simpa using hx)).symm)
    | (rw [hok]
       exact (calculateCrc_ne_of_set cfg _ 1 x (by simp) (by simpa using hx)).symm)
    | (rw [hok]
       exact (calculateCrc_ne_of_set cfg _ 2 x (by simp) (by simpa using hx)).symm)
    | (rw [hok]
       exact (calculateCrc_ne_of_set cfg _ 3 x (by simp) (by simpa using hx)).symm)
    | (rw [hok]
       exact (calculateCrc_ne_of_set cfg _ 4 x (by simp) (by simpa using hx)).symm)
    | (rw [hok]
       exact (calculateCrc_ne_of_set cfg _ 5 x (by simp) (by simpa using hx)).symm)
    | (rw [hok]
       exact (calculateCrc_ne_of_set cfg _ 10 x (by simp) (by simpa using hx)).symm)
    | (rw [hok]
       exact (calculateCrc_ne_of_set cfg _ 11 x (by simp) (by simpa using hx)).symm)
    | (rw [hok]
       exact (calculateCrc_ne_of_set cfg _ 12 x (by simp) (by simpa using hx)).symm)
    | (rw [hok]
       exact (calculateCrc_ne_of_set cfg _ 13 x (by simp) (by simpa using hx)).symm)
    | (rw [← hok]
       have := hv _ _ hx
       have h6 := b6.isLt
       have h7 := b7.isLt
       have h8 := b8.isLt
       have h9 := b9.isLt
       have hxl := x.isLt
       simp only [fromBytes]
       omega)

theorem flipBit_ne (b : Byte) (k : Fin 8) : flipBit b k ≠ b := by
  intro h
  have hb := b.isLt
  have hk : 2 ^ k.val < 2 ^ 8 := Nat.pow_lt_pow_right (by norm_num) k.isLt
  have hx : b.val ^^^ 2 ^ k.val < 2 ^ 8 := Nat.xor_lt_two_pow (by omega) hk
  have hv := congrArg Fin.val h
  simp only [flipBit, Fin.ofNat, Fin.val_mk] at hv
  rw [Nat.mod_eq_of_lt (by omega)] at hv
  have h0 : b.val ^^^ (b.val ^^^ 2 ^ k.val) = b.val ^^^ b.val := by rw [hv]
  rw [← Nat.xor_assoc, Nat.xor_self, Nat.zero_xor] at h0
  have : 0 < 2 ^ k.val := Nat.pos_pow_of_pos _ (by norm_num)
  omega


theorem validateCommand_byteCount_zero (cfg : Config) (t : Nat → uRPC_PROCEDURE) (c : Nat)
    (env : Env) (σ : Session) (ev : List Event) :
    (validateCommand cfg t c env σ ev).session.byteCount = 0 := by
  unfold validateCommand respond
  split
  · rfl
  · simp only
    split <;> rfl

/-- A call that returns a status other than `uRPC_STATUS_WAITING_DATA` leaves the
byte counter at zero. -/
theorem byteCount_zero_of_terminal (cfg : Config) (t : Nat → uRPC_PROCEDURE) (c : Nat)
    (env : Env) (s : Session) (r : Result) (h : uRpcHandle cfg t c env s = some r)
    (hst : r.status ≠ uRPC_STATUS_WAITING_DATA) : r.session.byteCount = 0 := by
  obtain ⟨ev, -, hcase⟩ := uRpcHandle_shape cfg t c env s r h
  rcases hcase with ⟨hs, -⟩ | ⟨-, hb, -⟩ | ⟨n, hs, -, -⟩ | ⟨n, -, -, hb, -⟩ | ⟨σ, rfl⟩
  · exact absurd hs hst
  · exact hb
  · exact absurd hs hst
  · exact hb
  · exact validateCommand_byteCount_zero cfg t c env σ ev

/-- From a session whose byte counter is zero a run is observed exactly as from the
empty session. -/
theorem runCalls_observe_of_zero (cfg : Config) (t : Nat → uRPC_PROCEDURE) (c : Nat)
    (s : Session) (h : s.byteCount = 0) (envs : List Env) :
    (runCalls cfg t c s envs).map (List.map observe)
      = (runCalls cfg t c (emptySession cfg) envs).map (List.map observe) := by
  cases envs with
  | nil => rfl
  | cons e es =>
    rw [runCalls_cons, runCalls_cons, uRpcHandle_of_zero cfg t c e s h]
    cases uRpcHandle cfg t c e (emptySession cfg) with
    | none => rfl
    | some r =>
      simp only [Option.map_some', Option.some_bind]
      have hs : (prependEvents (if s.buffer.isSome then [Event.free] else []) r).session
          = r.session := rfl
      have ho : observe (prependEvents (if s.buffer.isSome then [Event.free] else []) r)
          = observe r := by
        unfold observe prependEvents
        split <;> simp [calls, transmitted, Event.isCall, Event.txByte?]
      rw [hs]
      cases runCalls cfg t c r.session es with
      | none => rfl
      | some rs => simp [ho]


theorem filterMap_validateCommand {α : Type} (f : Event → Option α)
    (hf : ∀ e : Event, e.isResponse = true → f e = none)
    (cfg : Config) (t : Nat → uRPC_PROCEDURE) (c : Nat) (env : Env) (σ : Session)
    (ev : List Event) :
    (validateCommand cfg t c env σ ev).events.filterMap f = ev.filterMap f := by
  rw [validateCommand_events]
  have h : (validateCommand cfg t c env σ []).events.filterMap f = [] := by
    rw [List.filterMap_eq_nil_iff]
    intro e he
    rcases validateCommand_events_mem cfg t c env σ [] e he with h | h
    · simp at h
    · exact hf e h
  simp [prependEvents, h]

theorem validateCommand_status (cfg : Config) (t : Nat → uRPC_PROCEDURE) (c : Nat) (env : Env)
    (σ : Session) (ev : List Event) :
    (validateCommand cfg t c env σ ev).status = uRPC_STATUS_UNKNOWN_CMD ∨
    (validateCommand cfg t c env σ ev).status = uRPC_STATUS_SUCCESS ∨
    (validateCommand cfg t c env σ ev).status = uRPC_STATUS_ERROR_MALLOC := by
  unfold validateCommand respond
  split
  · exact Or.inl rfl
  · simp only
    split
    · exact Or.inr (Or.inl rfl)
    · exact Or.inr (Or.inr rfl)

/-- With the request buffer live and long enough, the payload check has a result:
a terminal one, whose new events are the check and events of the response
stage. -/
theorem checkPayload_total (cfg : Config) (t : Nat → uRPC_PROCEDURE) (c : Nat) (env : Env)
    (s : Session) (ev : List Event) (buf : List Byte) (hb : s.buffer = some buf)
    (hl : sizeSub (headerSize s.header) (sizeofHeader cfg) % UINT ≤ buf.length) :
    ∃ r, checkPayload cfg t c env s ev = some r ∧ r.session.byteCount = 0 ∧
      (r.status = uRPC_STATUS_WRONG_CRC ∨ r.status = uRPC_STATUS_UNKNOWN_CMD ∨
        r.status = uRPC_STATUS_SUCCESS ∨ r.status = uRPC_STATUS_ERROR_MALLOC) ∧
      ∀ {α : Type} (f : Event → Option α), (∀ e : Event, e.isResponse = true → f e = none) →
        (∀ x y, f (Event.checkPayloadCrc x y) = none) →
        r.events.filterMap f = ev.filterMap f := by
  unfold checkPayload
  rw [hb]
  simp only
  split
  · split
    · refine ⟨_, rfl, rfl, Or.inl rfl, ?_⟩
      intro α f _ h2
      simp [List.filterMap_append, h2]
    · refine ⟨_, rfl, validateCommand_byteCount_zero cfg t c env s _,
        Or.inr (validateCommand_status cfg t c env s _), ?_⟩
      intro α f h1 h2
      rw [filterMap_validateCommand f h1]
      simp [List.filterMap_append, h2]
  · refine ⟨_, rfl, validateCommand_byteCount_zero cfg t c env s _,
      Or.inr (validateCommand_status cfg t c env s _), ?_⟩
    intro α f h1 _
    exact filterMap_validateCommand f h1 cfg t c env s ev

theorem headerStore_isResponse (e : Event) (h : e.isResponse = true) :
    Event.headerStore? e = none := by
  cases e <;> simp_all [Event.isResponse, Event.headerStore?]

theorem headerStores_append (a b : List Event) :
    headerStores (a ++ b) = headerStores a ++ headerStores b := by
  simp [headerStores, List.filterMap_append]

theorem sizeSub_pos (a b : Nat) (ha : a < 2 ^ 32) (hb : b < 2 ^ 32) (h : a ≠ b) :
    0 < sizeSub a b := by
  unfold sizeSub SIZE_T
  omega

theorem stepOk_of_zero (cfg : Config) (ev : List Event) (r : Result)
    (h0 : r.session.byteCount = 0) (hst : r.status ≠ uRPC_STATUS_WAITING_DATA)
    (hev : headerStores r.events = headerStores ev) : StepOk cfg ev r := by
  refine ⟨Or.inl ?_, fun h => absurd h hst, hev⟩
  rw [h0]
  rcases sizeofHeader_cases cfg with e | e <;> omega

theorem stepOk_checkPayload (cfg : Config) (t : Nat → uRPC_PROCEDURE) (c : Nat) (env : Env)
    (s : Session) (ev : List Event) (buf : List Byte) (hb : s.buffer = some buf)
    (hl : sizeSub (headerSize s.header) (sizeofHeader cfg) % UINT ≤ buf.length) :
    ∃ r, checkPayload cfg t c env s ev = some r ∧ StepOk cfg ev r := by
  obtain ⟨r, hr, h0, hst, hf⟩ := checkPayload_total cfg t c env s ev buf hb hl
  refine ⟨r, hr, stepOk_of_zero cfg ev r h0 ?_ ?_⟩
  · rcases hst with h | h | h | h <;> rw [h] <;> decide
  · exact hf Event.headerStore? headerStore_isResponse (fun _ _ => rfl)

/-- The payload stage on the call that completes the header: it has a result that
keeps the invariant. -/
theorem stepOk_receivePayload_header (cfg : Config) (t : Nat → uRPC_PROCEDURE) (c : Nat)
    (env : Env) (hdr : List Byte) (buf : Option (List Byte)) (ev : List Event) :
    ∃ r, receivePayload cfg t c env
        { header := hdr, buffer := buf, byteCount := sizeofHeader cfg } ev = some r ∧
      StepOk cfg ev r := by
  have hHc := sizeofHeader_cases cfg
  by_cases hsz : headerSize hdr = sizeofHeader cfg
  · rw [receivePayload_none cfg t c env _ ev hsz]
    refine ⟨_, rfl, stepOk_of_zero cfg ev _ (validateCommand_byteCount_zero cfg t c env _ ev)
      ?_ ?_⟩
    · rcases validateCommand_status cfg t c env
        { header := hdr, buffer := buf, byteCount := sizeofHeader cfg } ev with h | h | h <;>
        rw [h] <;> decide
    · exact filterMap_validateCommand Event.headerStore? headerStore_isResponse cfg t c env _ ev
  · rw [receivePayload_malloc cfg t c env hdr buf ev hsz]
    have hpos : 0 < sizeSub (headerSize hdr) (sizeofHeader cfg) :=
      sizeSub_pos _ _ (headerSize_lt hdr) (by omega) hsz
    split
    · refine ⟨_, rfl, Or.inr ⟨?_, Or.inl ?_, _, rfl, ?_, ?_⟩, ?_, ?_⟩
      · simp [paySession]
      · simp [paySession]
      · simp [paySession]
      · simpa [paySession] using hpos
      · intro _; simp [paySession]
      · simp [headerStores_append, headerStores, Event.headerStore?]
    · refine ⟨_, rfl, stepOk_of_zero cfg ev _ rfl ?_ ?_⟩
      · simp [uRPC_STATUS_ERROR_MALLOC, uRPC_STATUS_WAITING_DATA]
      · simp [headerStores_append, headerStores, Event.headerStore?]

/-- The payload stage on a later call, in a session that satisfies the invariant:
it has a result that keeps the invariant. -/
theorem stepOk_receivePayload_payload (cfg : Config) (t : Nat → uRPC_PROCEDURE) (c : Nat)
    (env : Env) (s : Session) (ev : List Event) (buf : List Byte)
    (hbc : sizeofHeader cfg < s.byteCount)
    (hlim : s.byteCount = sizeofHeader cfg + 1 ∨ s.byteCount < (headerSize s.header + 1) % UINT)
    (hb : s.buffer = some buf)
    (hlen : buf.length = sizeSub (headerSize s.header) (sizeofHeader cfg))
    (hpos : 0 < buf.length) :
    ∃ r, receivePayload cfg t c env s ev = some r ∧ StepOk cfg ev r := by
  have hHc := sizeofHeader_cases cfg
  have hU : UINT = 4294967296 := by norm_num [UINT]
  have hS : SIZE_T = 18446744073709551616 := by norm_num [SIZE_T]
  have hsl := headerSize_lt s.header
  have hmodle : sizeSub (headerSize s.header) (sizeofHeader cfg) % UINT ≤ buf.length := by
    rw [hlen]; exact Nat.mod_le _ _
  unfold receivePayload
  simp only
  rw [if_pos (by rw [← hlen]; exact hpos), if_neg (by omega)]
  split
  · rename_i hle
    rw [hb]
    simp only
    have hbcU : s.byteCount < UINT - 1 := by
      rcases hlim with h | h
      · omega
      · have := Nat.mod_lt (headerSize s.header + 1) (by omega : 0 < UINT)
        omega
    have hidx : sizeSub (sizeSub s.byteCount (sizeofHeader cfg)) 1
        = s.byteCount - sizeofHeader cfg - 1 := by
      rw [sizeSub_eq s.byteCount (sizeofHeader cfg) (by omega) (by omega),
        sizeSub_eq _ _ (by omega) (by omega)]
    have hin : sizeSub (sizeSub s.byteCount (sizeofHeader cfg)) 1 < buf.length := by
      rw [hidx]
      rcases hlim with h | h
      · omega
      · have h1 : (headerSize s.header + 1) % UINT = headerSize s.header + 1 := by
          apply Nat.mod_eq_of_lt
          by_contra hc
          have : headerSize s.header + 1 = UINT := by omega
          rw [this, Nat.mod_self] at h
          omega
        rw [h1] at h
        rw [hlen, sizeSub_eq _ _ (by omega) (by omega)]
        omega
    rw [if_pos hin]
    have hnext : (s.byteCount + 1) % UINT = s.byteCount + 1 := Nat.mod_eq_of_lt (by omega)
    split
    · rename_i hw
      simp only [hnext] at hw
      refine ⟨_, rfl, Or.inr ⟨?_, Or.inr ?_, _, rfl, ?_, ?_⟩, ?_, ?_⟩
      · simp only [hnext]; omega
      · simp only [hnext]; exact hw
      · simpa using hlen
      · simpa using hpos
      · intro _; simp only [hnext]; omega
      · simp [headerStores_append, headerStores, Event.headerStore?]
    · obtain ⟨r, hr, hok⟩ := stepOk_checkPayload cfg t c env
        { s with buffer := some (buf.set (sizeSub (sizeSub s.byteCount (sizeofHeader cfg)) 1)
            env.rx), byteCount := (s.byteCount + 1) % UINT }
        (ev ++ [Event.receive env.rx,
          Event.storePayload (sizeSub (sizeSub s.byteCount (sizeofHeader cfg)) 1) env.rx])
        _ rfl (by simpa using hmodle)
      refine ⟨r, hr, hok.1, hok.2.1, ?_⟩
      rw [hok.2.2]
      simp [headerStores_append, headerStores, Event.headerStore?]
  · exact stepOk_checkPayload cfg t c env s ev buf hb hmodle

/-- The header check and what follows it, on the call that completes the header. -/
theorem stepOk_checkHeader_header (cfg : Config) (t : Nat → uRPC_PROCEDURE) (c : Nat)
    (env : Env) (hdr : List Byte) (buf : Option (List Byte)) (ev : List Event) :
    ∃ r, checkHeader cfg t c env
        { header := hdr, buffer := buf, byteCount := sizeofHeader cfg } ev = some r ∧
      StepOk cfg ev r := by
  unfold checkHeader
  simp only
  split
  · split
    · refine ⟨_, rfl, stepOk_of_zero cfg ev _ rfl ?_ ?_⟩
      · simp [uRPC_STATUS_WRONG_CRC, uRPC_STATUS_WAITING_DATA]
      · simp [headerStores_append, headerStores, Event.headerStore?]
    · obtain ⟨r, hr, hok⟩ := stepOk_receivePayload_header cfg t c env (setCrcHeader hdr 0) buf
        (ev ++ [Event.checkHeaderCrc (calculateCrc cfg (setCrcHeader hdr 0))
          (headerCrcHeader hdr)])
      refine ⟨r, hr, hok.1, hok.2.1, ?_⟩
      rw [hok.2.2]
      simp [headerStores_append, headerStores, Event.headerStore?]
  · exact stepOk_receivePayload_header cfg t c env hdr buf ev

/-- The header stage in a session whose counter is below `sizeof(uRpcHeader)`: it
has a result that keeps the invariant, and it stores the received byte at the
offset the counter gives. -/
theorem stepOk_receiveHeader (cfg : Config) (t : Nat → uRPC_PROCEDURE) (c : Nat)
    (env : Env) (s : Session) (ev : List Event) (h : s.byteCount < sizeofHeader cfg) :
    ∃ r, receiveHeader cfg t c env s ev = some r ∧
      StepOk cfg (ev ++ [Event.receive env.rx, Event.storeHeader s.byteCount env.rx]) r := by
  have hHc := sizeofHeader_cases cfg
  have hU : UINT = 4294967296 := by norm_num [UINT]
  have hnext : (s.byteCount + 1) % UINT = s.byteCount + 1 := Nat.mod_eq_of_lt (by omega)
  unfold receiveHeader
  simp only
  rw [if_pos (le_of_lt h), if_pos h, hnext]
  split
  · rename_i hw
    exact ⟨_, rfl, Or.inl hw, fun _ => by simp, rfl⟩
  · rename_i hw
    have he : s.byteCount + 1 = sizeofHeader cfg := by omega
    rw [he]
    exact stepOk_checkHeader_header cfg t c env _ _ _

/-- One call of `uRpcHandle` in a session that satisfies the invariant: the call
has a result, the result keeps the invariant, `uRPC_STATUS_WAITING_DATA` comes
with a non-zero counter, and the only store into the request header is the one
at the offset the counter gives, made when that offset is inside the header. -/
theorem uRpcHandle_inv (cfg : Config) (t : Nat → uRPC_PROCEDURE) (c : Nat) (env : Env)
    (s : Session) (hs : SessionInv cfg s) :
    ∃ r, uRpcHandle cfg t c env s = some r ∧ SessionInv cfg r.session ∧
      (r.status = uRPC_STATUS_WAITING_DATA → r.session.byteCount ≠ 0) ∧
      headerStores r.events
        = if s.byteCount < sizeofHeader cfg then [(s.byteCount, env.rx)] else [] := by
  have hHc := sizeofHeader_cases cfg
  unfold uRpcHandle
  split
  · rename_i h0
    have hlt : s.byteCount < sizeofHeader cfg := by omega
    obtain ⟨r, hr, h1, h2, h3⟩ := stepOk_receiveHeader cfg t c env (uRpcInitialize cfg s).1
      (uRpcInitialize cfg s).2 (by simp [uRpcInitialize]; omega)
    refine ⟨r, hr, h1, h2, ?_⟩
    rw [h3, if_pos hlt, h0]
    unfold uRpcInitialize
    simp only
    split <;> simp [headerStores, Event.headerStore?]
  · rename_i h0
    rcases hs with hlt | ⟨hgt, hlim, buf, hb, hlen, hpos⟩
    · obtain ⟨r, hr, h1, h2, h3⟩ := stepOk_receiveHeader cfg t c env s [] hlt
      refine ⟨r, hr, h1, h2, ?_⟩
      rw [h3, if_pos hlt]
      simp [headerStores, Event.headerStore?]
    · have e1 : receiveHeader cfg t c env s [] = receivePayload cfg t c env s [] := by
        unfold receiveHeader checkHeader
        simp only
        rw [if_neg (by omega), if_neg (by omega)]
      rw [e1, if_neg (by omega)]
      obtain ⟨r, hr, h1, h2, h3⟩ := stepOk_receivePayload_payload cfg t c env s [] buf hgt hlim
        hb hlen hpos
      exact ⟨r, hr, h1, h2, by rw [h3]; rfl⟩

/-- Every reachable session satisfies the invariant. -/
theorem sessionInv_of_reachable (cfg : Config) (s : Session) (h : Reachable cfg s) :
    SessionInv cfg s := by
  induction h with
  | empty =>
    left
    rcases sizeofHeader_cases cfg with e | e <;> simp [emptySession, e]
  | step t c env s r _ hr ih =>
    obtain ⟨r1, hr1, h1, -, -⟩ := uRpcHandle_inv cfg t c env s ih
    rw [hr] at hr1
    cases hr1
    exact h1

/-- The status of every result of `uRpcHandle` is one of the five values of
`uRPC.h`. -/
theorem status_mem_statusValues (cfg : Config) (t : Nat → uRPC_PROCEDURE) (c : Nat)
    (env : Env) (s : Session) (r : Result) (h : uRpcHandle cfg t c env s = some r) :
    r.status ∈ statusValues := by
  obtain ⟨ev, -, hcase⟩ := uRpcHandle_shape cfg t c env s r h
  rcases hcase with ⟨hs, -⟩ | ⟨hs, -, -⟩ | ⟨n, hs, -, -⟩ | ⟨n, hs, -, -, -⟩ | ⟨σ, rfl⟩
  · rw [hs]; simp [statusValues]
  · rw [hs]; simp [statusValues]
  · rw [hs]; simp [statusValues]
  · rw [hs]; simp [statusValues]
  · rcases validateCommand_status cfg t c env σ ev with h | h | h <;>
      rw [h] <;> simp [statusValues]

/-- The session a run from a reachable session ends in is reachable. -/
theorem reachable_lastSession (cfg : Config) (t : Nat → uRPC_PROCEDURE) (c : Nat)
    (envs : List Env) (s : Session) (rs : List Result) (hs : Reachable cfg s)
    (h : runCalls cfg t c s envs = some rs) : Reachable cfg (lastSession s rs) := by
  induction envs generalizing s rs with
  | nil =>
    simp only [runCalls, Option.some.injEq] at h
    subst h
    exact hs
  | cons e es ih =>
    rw [runCalls_cons] at h
    cases hr : uRpcHandle cfg t c e s with
    | none => rw [hr] at h; simp at h
    | some r =>
      rw [hr, Option.some_bind] at h
      cases hrs : runCalls cfg t c r.session es with
      | none => rw [hrs] at h; simp at h
      | some rs1 =>
        rw [hrs] at h
        simp only [Option.map_some', Option.some.injEq] at h
        subst h
        exact ih r.session rs1 (Reachable.step t c e s r hs hr) hrs


theorem status_values :
    uRPC_STATUS_WAITING_DATA ≠ uRPC_STATUS_SUCCESS ∧
    uRPC_STATUS_WRONG_CRC ≠ uRPC_STATUS_SUCCESS ∧
    uRPC_STATUS_UNKNOWN_CMD ≠ uRPC_STATUS_SUCCESS ∧
    uRPC_STATUS_ERROR_MALLOC ≠ uRPC_STATUS_SUCCESS := by decide

theorem transmitted_success_events (cfg : Config) (env : Env) (ev : List Event)
    (e1 e2 : Event) (hdr out : List Byte) (n : Nat)
    (hev : ∀ e ∈ ev, e.isPassive = true)
    (h1 : e1.txByte? = none) (h2 : e2.txByte? = none)
    (hh : hdr.length = sizeofHeader cfg) (hn : n ≤ uRPC_OUT_BUFFER_SIZE_BYTES) :
    transmitted (ev ++ [Event.mallocResponse true, e1] ++
        transmitLoop cfg env hdr (fitBuffer out) (sizeofHeader cfg + n) ++ [e2])
      = hdr ++ (fitBuffer out).take n := by
  obtain ⟨p1, -, -, -, -⟩ := passive_facts ev hev
  have hT := transmitted_transmitLoop cfg env hdr (fitBuffer out) n hh
    (le_of_le_of_eq hn (fitBuffer_length _).symm) (le_of_eq (fitBuffer_length _))
  have a1 : transmitted [Event.mallocResponse true, e1] = [] := by
    have : Event.txByte? (Event.mallocResponse true) = none := rfl
    simp only [transmitted, List.filterMap_cons, h1, this, List.filterMap_nil]
  have a2 : transmitted [e2] = [] := by
    simp only [transmitted, List.filterMap_cons, h2, List.filterMap_nil]
  simp only [transmitted_append, p1, hT, a1, a2, List.nil_append, List.append_nil]

/-- Response framing of the command-validation stage. -/
theorem validateCommand_framing (cfg : Config) (t : Nat → uRPC_PROCEDURE) (c : Nat) (env : Env)
    (σ : Session) (ev : List Event) (hev : ∀ e ∈ ev, e.isPassive = true) :
    ((validateCommand cfg t c env σ ev).status ≠ uRPC_STATUS_SUCCESS →
      transmitted (validateCommand cfg t c env σ ev).events = []) ∧
    ((validateCommand cfg t c env σ ev).status = uRPC_STATUS_SUCCESS →
      ∃ code inBuffer request,
        calls (validateCommand cfg t c env σ ev).events
          = [Event.call code inBuffer request
              (List.replicate uRPC_OUT_BUFFER_SIZE_BYTES 0) uRPC_OUT_BUFFER_SIZE_BYTES] ∧
        ∀ hr, hr = t code inBuffer request
            (List.replicate uRPC_OUT_BUFFER_SIZE_BYTES 0) uRPC_OUT_BUFFER_SIZE_BYTES →
          hr.response % UINT ≤ uRPC_OUT_BUFFER_SIZE_BYTES →
          ∃ hdr, hdr.length = sizeofHeader cfg ∧
            headerSize hdr = sizeofHeader cfg + hr.response % UINT ∧
            headerCode hdr = hr.code % USHORT ∧
            transmitted (validateCommand cfg t c env σ ev).events
              = hdr ++ (fitBuffer hr.outBuffer).take (hr.response % UINT) ∧
            (transmitted (validateCommand cfg t c env σ ev).events).length
              = sizeofHeader cfg + hr.response % UINT) := by
  obtain ⟨p1, p2, -, -, -⟩ := passive_facts ev hev
  obtain ⟨s1, s2, s3, s4⟩ := status_values
  have hHc := sizeofHeader_cases cfg
  unfold validateCommand
  split
  · exact ⟨fun _ => p1, fun h => absurd h s3⟩
  · unfold respond
    split
    · simp only
      refine ⟨fun h => absurd rfl h, fun _ => ⟨headerCode σ.header, σ.buffer,
        sizeSub (headerSize σ.header) (sizeofHeader cfg) % UINT, ?_, ?_⟩⟩
      · simp only [calls_append, p2, (transmitLoop_facts cfg env _ _ _).2.2]
        simp [calls, Event.isCall]
      · intro hr hhr hle
        rw [← hhr]
        have h64 : uRPC_OUT_BUFFER_SIZE_BYTES = 64 := rfl
        have hU : UINT = 4294967296 := by norm_num [UINT]
        have hsz : (sizeofHeader cfg + hr.response % UINT) % UINT
            = sizeofHeader cfg + hr.response % UINT := Nat.mod_eq_of_lt (by omega)
        rw [hsz]
        generalize hx : calculateCrc cfg _ = x
        generalize hy : (if 0 < hr.response % UINT then _ else 0) = y at hx ⊢
        obtain ⟨f1, f2, f3⟩ := responseHeaderBytes_facts cfg
          (sizeofHeader cfg + hr.response % UINT) (hr.code % USHORT) x y
        have hT := transmitted_success_events cfg env ev
          (Event.call (headerCode σ.header) σ.buffer
            (sizeSub (headerSize σ.header) (sizeofHeader cfg) % UINT)
            (List.replicate uRPC_OUT_BUFFER_SIZE_BYTES 0) uRPC_OUT_BUFFER_SIZE_BYTES)
          Event.freeResponse _ hr.outBuffer (hr.response % UINT) hev rfl rfl f1 hle
        refine ⟨_, f1, ?_, ?_, hT, ?_⟩
        · rw [f2]; exact hsz
        · rw [f3]; exact Nat.mod_mod _ _
        · rw [hT, List.length_append, f1, List.length_take, fitBuffer_length]
          omega
    · refine ⟨fun _ => ?_, fun h => absurd h s4⟩
      simp only [transmitted_append, p1]
      simp [transmitted, Event.txByte?]

/-- C2 (amended): response framing.  No byte is transmitted on a call that returns
a status other than `uRPC_STATUS_SUCCESS`.  On a call that returns
`uRPC_STATUS_SUCCESS` the handler has been invoked once, on a zero-filled
64-byte output buffer with capacity 64, and when the length `r` it wrote back
honours that capacity (`r <= 64`) the bytes transmitted are the
`sizeof(uRpcHeader)` bytes of a header whose size field is
`sizeof(uRpcHeader) + r` and whose code field is the handler's return value,
followed by the first `r` bytes of the output buffer: `sizeof(uRpcHeader) + r`
bytes in all. -/
theorem response_framing (cfg : Config) (t : Nat → uRPC_PROCEDURE) (c : Nat) (env : Env)
    (s : Session) (r : Result) (h : uRpcHandle cfg t c env s = some r) :
    (r.status ≠ uRPC_STATUS_SUCCESS → transmitted r.events = []) ∧
    (r.status = uRPC_STATUS_SUCCESS →
      ∃ code inBuffer request,
        calls r.events
          = [Event.call code inBuffer request
              (List.replicate uRPC_OUT_BUFFER_SIZE_BYTES 0) uRPC_OUT_BUFFER_SIZE_BYTES] ∧
        ∀ hr, hr = t code inBuffer request
            (List.replicate uRPC_OUT_BUFFER_SIZE_BYTES 0) uRPC_OUT_BUFFER_SIZE_BYTES →
          hr.response % UINT ≤ uRPC_OUT_BUFFER_SIZE_BYTES →
          ∃ hdr, hdr.length = sizeofHeader cfg ∧
            headerSize hdr = sizeofHeader cfg + hr.response % UINT ∧
            headerCode hdr = hr.code % USHORT ∧
            transmitted r.events = hdr ++ (fitBuffer hr.outBuffer).take (hr.response % UINT) ∧
            (transmitted r.events).length = sizeofHeader cfg + hr.response % UINT) := by
  obtain ⟨s1, s2, s3, s4⟩ := status_values
  obtain ⟨ev, hev, hcase⟩ := uRpcHandle_shape cfg t c env s r h
  obtain ⟨p1, -, -, -, -⟩ := passive_facts ev hev
  rcases hcase with ⟨hs, he⟩ | ⟨hs, -, he⟩ | ⟨n, hs, -, he⟩ | ⟨n, hs, -, -, he⟩ | ⟨σ, rfl⟩
  · exact ⟨fun _ => by rw [he]; exact p1, fun h => absurd (hs.symm.trans h) s1⟩
  · exact ⟨fun _ => by rw [he]; exact p1, fun h => absurd (hs.symm.trans h) s2⟩
  · refine ⟨fun _ => ?_, fun h => absurd (hs.symm.trans h) s1⟩
    rw [he, transmitted_append, p1]; simp [transmitted, Event.txByte?]
  · refine ⟨fun _ => ?_, fun h => absurd (hs.symm.trans h) s4⟩
    rw [he, transmitted_append, p1]; simp [transmitted, Event.txByte?]
  · exact validateCommand_framing cfg t c env σ ev hev


set_option maxRecDepth 100000 in
theorem response_framing_witness :
    uRpcHandle plainConfig echoTable 1 lastPayloadByteEnv lastPayloadByteSession
        = some lastPayloadByteResult ∧
    lastPayloadByteResult.status = uRPC_STATUS_SUCCESS ∧
    transmitted lastPayloadByteResult.events = [8, 0, 0, 0, 0, 0, 1, 2] ∧
    ((lastPayloadByteResult.status ≠ uRPC_STATUS_SUCCESS →
        transmitted lastPayloadByteResult.events = []) ∧
     (lastPayloadByteResult.status = uRPC_STATUS_SUCCESS →
      ∃ code inBuffer request,
        calls lastPayloadByteResult.events
          = [Event.call code inBuffer request
              (List.replicate uRPC_OUT_BUFFER_SIZE_BYTES 0) uRPC_OUT_BUFFER_SIZE_BYTES] ∧
        ∀ hr, hr = echoTable code inBuffer request
            (List.replicate uRPC_OUT_BUFFER_SIZE_BYTES 0) uRPC_OUT_BUFFER_SIZE_BYTES →
          hr.response % UINT ≤ uRPC_OUT_BUFFER_SIZE_BYTES →
          ∃ hdr, hdr.length = sizeofHeader plainConfig ∧
            headerSize hdr = sizeofHeader plainConfig + hr.response % UINT ∧
            headerCode hdr = hr.code % USHORT ∧
            transmitted lastPayloadByteResult.events
              = hdr ++ (fitBuffer hr.outBuffer).take (hr.response % UINT) ∧
            (transmitted lastPayloadByteResult.events).length
              = sizeofHeader plainConfig + hr.response % UINT)) :=
  ⟨by decide, by decide, by decide,
    response_framing plainConfig echoTable 1 lastPayloadByteEnv lastPayloadByteSession
      lastPayloadByteResult (by decide)⟩

set_option maxRecDepth 100000 in
/-- C2, as stated, fails.  (a) A handler that writes back `r = 0xFFFFFFFF`: the size
field wraps to `(6 + r) mod 2^32 = 5`, the call returns `uRPC_STATUS_SUCCESS`
and transmits 5 bytes, not `6 + r`.  (b) A handler that writes back `r = 65`:
the call returns `uRPC_STATUS_SUCCESS` and the 65th payload byte transmitted is
read at index 64, past the 64-byte output buffer (here the byte `AA` that
follows it), so the payload sent is not the first `r` bytes of the buffer. -/
theorem response_framing_counterexample :
    ((uRpcHandle plainConfig (fun _ => wrapHandler) 1 sampleEnv lastHeaderByteSession).map
        (fun r => (r.status, transmitted r.events))
      = some (uRPC_STATUS_SUCCESS, [5, 0, 0, 0, 0]) ∧
     (wrapHandler none 0 (List.replicate 64 0) 64).response = 4294967295 ∧
     ([5, 0, 0, 0, 0] : List Byte).length
        ≠ sizeofHeader plainConfig + (wrapHandler none 0 (List.replicate 64 0) 64).response) ∧
    ((uRpcHandle plainConfig (fun _ => overHandler) 1 sampleEnv lastHeaderByteSession).map
        (fun r => (r.status, (transmitted r.events).drop 6,
          decide (Event.transmitPayload 64 0xAA ∈ r.events)))
      = some (uRPC_STATUS_SUCCESS, List.replicate 64 0 ++ [0xAA], true) ∧
     (overHandler none 0 (List.replicate 64 0) 64).response = 65 ∧
     (fitBuffer (overHandler none 0 (List.replicate 64 0) 64).outBuffer).take 65
        = List.replicate 64 0) := by
  decide


/-- The handler invocation of the response stage. -/
theorem calls_respond (cfg : Config) (t : Nat → uRPC_PROCEDURE) (env : Env) (σ : Session)
    (ev : List Event) (hm : env.mallocOk = true) :
    calls (respond cfg t env σ ev).events = calls ev ++
      [Event.call (headerCode σ.header) σ.buffer
        (sizeSub (headerSize σ.header) (sizeofHeader cfg) % UINT)
        (List.replicate uRPC_OUT_BUFFER_SIZE_BYTES 0) uRPC_OUT_BUFFER_SIZE_BYTES] := by
  unfold respond
  simp only [hm, if_true]
  simp only [calls_append, (transmitLoop_facts cfg env _ _ _).2.2]
  simp [calls, Event.isCall]

/-- The response stage reads the handlers table at the index of the request code
only. -/
theorem respond_congr_table (cfg : Config) (t t2 : Nat → uRPC_PROCEDURE) (env : Env)
    (σ : Session) (ev : List Event) (h : t2 (headerCode σ.header) = t (headerCode σ.header)) :
    respond cfg t2 env σ ev = respond cfg t env σ ev := by
  unfold respond
  simp only [h]

theorem validateCommand_congr_table (cfg : Config) (t t2 : Nat → uRPC_PROCEDURE) (c : Nat)
    (env : Env) (σ : Session) (ev : List Event)
    (h : t2 (headerCode σ.header) = t (headerCode σ.header)) :
    validateCommand cfg t2 c env σ ev = validateCommand cfg t c env σ ev := by
  unfold validateCommand
  rw [respond_congr_table cfg t t2 env σ ev h]

/-- A call that returns `uRPC_STATUS_SUCCESS` is one that reached the response
stage with the response buffer allocated. -/
theorem success_form (cfg : Config) (t : Nat → uRPC_PROCEDURE) (c : Nat) (env : Env)
    (s : Session) (r : Result) (h : uRpcHandle cfg t c env s = some r)
    (hs : r.status = uRPC_STATUS_SUCCESS) :
    ∃ ev σ, (∀ e ∈ ev, e.isPassive = true) ∧ env.mallocOk = true ∧
      r = respond cfg t env σ ev := by
  obtain ⟨s1, s2, s3, s4⟩ := status_values
  obtain ⟨ev, hev, hcase⟩ := uRpcHandle_shape cfg t c env s r h
  rcases hcase with ⟨hw, -⟩ | ⟨hw, -, -⟩ | ⟨n, hw, -, -⟩ | ⟨n, hw, -, -, -⟩ | ⟨σ, rfl⟩
  · exact absurd (hw.symm.trans hs) s1
  · exact absurd (hw.symm.trans hs) s2
  · exact absurd (hw.symm.trans hs) s1
  · exact absurd (hw.symm.trans hs) s4
  · unfold validateCommand at hs ⊢
    split at hs
    · exact absurd hs s3
    · rename_i hcode
      rw [if_neg hcode]
      refine ⟨ev, σ, hev, ?_, rfl⟩
      by_contra hm
      unfold respond at hs
      rw [if_neg hm] at hs
      exact absurd hs s4

theorem calculateCrc_lt (cfg : Config) (d : List Byte) : calculateCrc cfg d < 2 ^ 32 := by
  unfold calculateCrc UINT
  omega

theorem calculateCrc_nil (cfg : Config) : calculateCrc cfg [] = 0 := by
  unfold calculateCrc UINT
  simp

/-- Reading the first `n` bytes of the response buffer, `n` within the buffer. -/
theorem map_loadResponse (env : Env) (out : List Byte) (n : Nat) (hn : n ≤ out.length) :
    (List.range n).map (loadResponse env out) = out.take n := by
  apply List.ext_getElem
  · simp [hn]
  · intro i h1 h2
    simp only [List.length_map, List.length_range] at h1
    have hlt : i < out.length := by omega
    simp only [List.getElem_map, List.getElem_range, loadResponse, hlt, dif_pos,
      List.getElem_take, List.get_eq_getElem]

/-- The checksum fields of a response header, with `uRPC_CRC_CHECKSUM`. -/
theorem responseHeaderBytes_crc (cfg : Config) (size code x y : Nat)
    (hc : cfg.crcChecksum = true) :
    headerCrcHeader (responseHeaderBytes cfg size code x y) = x % 2 ^ 32 ∧
    headerCrcPayload (responseHeaderBytes cfg size code x y) = y % 2 ^ 32 ∧
    setCrcHeader (responseHeaderBytes cfg size code x y) 0
      = responseHeaderBytes cfg size code 0 y := by
  have e : ∀ z, responseHeaderBytes cfg size code z y
      = (toBytes 4 size ++ toBytes 2 code) ++ (toBytes 4 z ++ toBytes 4 y) := by
    intro z; simp [responseHeaderBytes, hc]
  have l6 : (toBytes 4 size ++ toBytes 2 code).length = 6 := by simp [toBytes_length]
  have l10 : ((toBytes 4 size ++ toBytes 2 code) ++ toBytes 4 x).length = 10 := by
    simp [toBytes_length]
  have e10 : (toBytes 4 size ++ toBytes 2 code) ++ (toBytes 4 x ++ toBytes 4 y)
      = ((toBytes 4 size ++ toBytes 2 code) ++ toBytes 4 x) ++ toBytes 4 y := by
    simp [List.append_assoc]
  have p32 : (256 : Nat) ^ 4 = 2 ^ 32 := by norm_num
  refine ⟨?_, ?_, ?_⟩
  · unfold headerCrcHeader
    rw [e x, List.drop_left' l6, List.take_left' (toBytes_length 4 x), fromBytes_toBytes, p32]
  · unfold headerCrcPayload
    rw [e x, e10, List.drop_left' l10, List.take_of_length_le (by simp [toBytes_length]),
      fromBytes_toBytes, p32]
  · unfold setCrcHeader
    rw [e x, List.take_left' l6, e10, List.drop_left' l10, e 0]
    simp [List.append_assoc]

/-- The bytes transmitted by the response stage when the length the handler wrote
back is within the capacity: the response header, its checksums computed as in
lines 174-184 of `uRPC.c`, and the first bytes of the response buffer. -/
theorem transmitted_respond (cfg : Config) (t : Nat → uRPC_PROCEDURE) (env : Env)
    (σ : Session) (ev : List Event) (hev : ∀ e ∈ ev, e.isPassive = true)
    (hm : env.mallocOk = true) (hr : HandlerResult) (P : Nat)
    (hhr : hr = t (headerCode σ.header) σ.buffer
      (sizeSub (headerSize σ.header) (sizeofHeader cfg) % UINT)
      (List.replicate uRPC_OUT_BUFFER_SIZE_BYTES 0) uRPC_OUT_BUFFER_SIZE_BYTES)
    (hle : hr.response % UINT ≤ uRPC_OUT_BUFFER_SIZE_BYTES)
    (hP : P = if 0 < hr.response % UINT
      then calculateCrc cfg ((fitBuffer hr.outBuffer).take (hr.response % UINT)) else 0) :
    transmitted (respond cfg t env σ ev).events
      = responseHeaderBytes cfg (sizeofHeader cfg + hr.response % UINT) (hr.code % USHORT)
          (calculateCrc cfg (responseHeaderBytes cfg (sizeofHeader cfg + hr.response % UINT)
            (hr.code % USHORT) 0 P)) P
        ++ (fitBuffer hr.outBuffer).take (hr.response % UINT) := by
  have hHc := sizeofHeader_cases cfg
  have h64 : uRPC_OUT_BUFFER_SIZE_BYTES = 64 := rfl
  have hU : UINT = 4294967296 := by norm_num [UINT]
  have hsz : (sizeofHeader cfg + hr.response % UINT) % UINT
      = sizeofHeader cfg + hr.response % UINT := Nat.mod_eq_of_lt (by omega)
  have hmap : (List.range (hr.response % UINT)).map (loadResponse env (fitBuffer hr.outBuffer))
      = (fitBuffer hr.outBuffer).take (hr.response % UINT) :=
    map_loadResponse env _ _ (le_of_le_of_eq hle (fitBuffer_length _).symm)
  unfold respond
  simp only [hm, if_true]
  rw [← hhr, hsz, hmap, ← hP]
  obtain ⟨f1, -, -⟩ := responseHeaderBytes_facts cfg
    (sizeofHeader cfg + hr.response % UINT) (hr.code % USHORT)
    (calculateCrc cfg (responseHeaderBytes cfg (sizeofHeader cfg + hr.response % UINT)
      (hr.code % USHORT) 0 P)) P
  exact transmitted_success_events cfg env ev _ Event.freeResponse _ hr.outBuffer
    (hr.response % UINT) hev rfl rfl f1 hle


/-- The response of the command-validation stage for a known code with the response
buffer allocated, after events `pre ++ ev` that transmitted nothing: when the
length `r` the handler at index `code` wrote back is within the capacity, the
bytes transmitted are a header with size `sizeof(uRpcHeader) + r` and the
handler's return value as code, followed by the first `r` bytes the handler
left in the output buffer. -/
theorem frame_response (cfg : Config) (t : Nat → uRPC_PROCEDURE) (c : Nat) (env : Env)
    (σ : Session) (pre ev : List Event)
    (hm : env.mallocOk = true) (hcode : headerCode σ.header < c)
    (htx : transmitted (pre ++ ev) = []) (hr : HandlerResult)
    (hhr : hr = t (headerCode σ.header) σ.buffer
      (sizeSub (headerSize σ.header) (sizeofHeader cfg) % UINT)
      (List.replicate uRPC_OUT_BUFFER_SIZE_BYTES 0) uRPC_OUT_BUFFER_SIZE_BYTES)
    (hle : hr.response % UINT ≤ uRPC_OUT_BUFFER_SIZE_BYTES) :
    ∃ hdr, hdr.length = sizeofHeader cfg ∧
      headerSize hdr = sizeofHeader cfg + hr.response % UINT ∧
      headerCode hdr = hr.code % USHORT ∧
      transmitted (pre ++ (validateCommand cfg t c env σ ev).events)
        = hdr ++ (fitBuffer hr.outBuffer).take (hr.response % UINT) := by
  have hHc := sizeofHeader_cases cfg
  have h64 : uRPC_OUT_BUFFER_SIZE_BYTES = 64 := rfl
  have hU : UINT = 4294967296 := by norm_num [UINT]
  have hv : validateCommand cfg t c env σ ev
      = prependEvents ev (respond cfg t env σ []) := by
    rw [← respond_events]
    unfold validateCommand
    rw [if_neg (by omega)]
  have hT := transmitted_respond cfg t env σ [] (by simp) hm hr _ hhr hle rfl
  obtain ⟨f1, f2, f3⟩ := responseHeaderBytes_facts cfg
    (sizeofHeader cfg + hr.response % UINT) (hr.code % USHORT)
    (calculateCrc cfg (responseHeaderBytes cfg (sizeofHeader cfg + hr.response % UINT)
      (hr.code % USHORT) 0
      (if 0 < hr.response % UINT
        then calculateCrc cfg ((fitBuffer hr.outBuffer).take (hr.response % UINT)) else 0)))
    (if 0 < hr.response % UINT
      then calculateCrc cfg ((fitBuffer hr.outBuffer).take (hr.response % UINT)) else 0)
  refine ⟨_, f1, ?_, ?_, ?_⟩
  · rw [f2]; exact Nat.mod_eq_of_lt (by omega)
  · rw [f3]; exact Nat.mod_mod _ _
  · rw [hv]
    simp only [prependEvents]
    rw [← List.append_assoc, transmitted_append, htx, List.nil_append, hT]

/-- The run of a header that declares a size below `sizeof(uRpcHeader)`: the
difference `size - sizeof(uRpcHeader)` wraps to a positive `size_t` value, so
the call that completes the header asks for a request buffer of that size and
waits (allocation granted) or returns `uRPC_STATUS_ERROR_MALLOC` (allocation
refused); no handler is invoked and nothing is transmitted. -/
theorem run_undersized (cfg : Config) (t : Nat → uRPC_PROCEDURE) (c : Nat)
    (envs0 : List Env) (e : Env)
    (hlen : envs0.length + 1 = sizeofHeader cfg)
    (hcrc : headerCrcOk cfg (envs0.map (·.rx) ++ [e.rx]))
    (hsz : headerSize (envs0.map (·.rx) ++ [e.rx]) < sizeofHeader cfg) :
    ∃ rs, runCalls cfg t c (emptySession cfg) (envs0 ++ [e]) = some rs ∧
      statuses rs = List.replicate (sizeofHeader cfg - 1) uRPC_STATUS_WAITING_DATA ++
        [if e.mallocOk then uRPC_STATUS_WAITING_DATA else uRPC_STATUS_ERROR_MALLOC] ∧
      received (allEvents rs) = envs0.map (·.rx) ++ [e.rx] ∧
      requestAllocations (allEvents rs)
        = [(2 ^ 64 - (sizeofHeader cfg - headerSize (envs0.map (·.rx) ++ [e.rx])),
            e.mallocOk)] ∧
      calls (allEvents rs) = [] ∧
      transmitted (allEvents rs) = [] := by
  have hHc := sizeofHeader_cases cfg
  have hhl : (envs0.map (·.rx) ++ [e.rx]).length = sizeofHeader cfg := by simp [hlen]
  have hsz' : headerSize (checkedHeader cfg (envs0.map (·.rx) ++ [e.rx]))
      = headerSize (envs0.map (·.rx) ++ [e.rx]) := headerSize_checked cfg _ hhl
  have hsub : sizeSub (headerSize (checkedHeader cfg (envs0.map (·.rx) ++ [e.rx])))
      (sizeofHeader cfg)
      = 2 ^ 64 - (sizeofHeader cfg - headerSize (envs0.map (·.rx) ++ [e.rx])) := by
    rw [hsz']
    unfold sizeSub SIZE_T
    rw [Nat.mod_eq_of_lt (by omega), Nat.mod_eq_of_lt (by omega), Nat.mod_eq_of_lt (by omega)]
    omega
  obtain ⟨k1, k2, k3, k4⟩ := headerCheckEvents_facts cfg (envs0.map (·.rx) ++ [e.rx])
  obtain ⟨b1, -⟩ := stores_headerCheckEvents cfg (envs0.map (·.rx) ++ [e.rx])
  obtain ⟨h1, -, h3, h4, -⟩ := allEvents_headerRun cfg [] (envs0.map (·.rx))
  obtain ⟨a1, -⟩ := stores_headerRun cfg [] (envs0.map (·.rx))
  have hrun := runCalls_headerComplete cfg t c envs0 e [] hlen
  rw [checkHeader_ok cfg t c e _ none _ hcrc,
    receivePayload_malloc cfg t c e _ none _ (by rw [hsz']; omega), hsub] at hrun
  have hn : (envs0.map (·.rx)).length = sizeofHeader cfg - 1 := by simp; omega
  by_cases hm : e.mallocOk = true
  · rw [if_pos hm] at hrun
    simp only [Option.some_bind, runCalls, Option.map_some'] at hrun
    refine ⟨_, hrun, ?_, ?_, ?_, ?_, ?_⟩
    · rw [statuses_append, statuses_headerRun, hn, if_pos hm]; rfl
    · simp only [allEvents_append, allEvents_singleton, received_append, h1, k1]
      simp [received, Event.rxByte?]
    · simp only [allEvents_append, allEvents_singleton, requestAllocations_append, a1, b1]
      simp [requestAllocations, Event.allocation?, hm]
    · simp only [allEvents_append, allEvents_singleton, calls_append, h4, k4]
      simp [calls, Event.isCall]
    · simp only [allEvents_append, allEvents_singleton, transmitted_append, h3, k3]
      simp [transmitted, Event.txByte?]
  · rw [if_neg hm] at hrun
    simp only [Option.some_bind, runCalls, Option.map_some'] at hrun
    have hm' : e.mallocOk = false := by simpa using hm
    refine ⟨_, hrun, ?_, ?_, ?_, ?_, ?_⟩
    · rw [statuses_append, statuses_headerRun, hn, if_neg hm]; rfl
    · simp only [allEvents_append, allEvents_singleton, received_append, h1, k1]
      simp [received, Event.rxByte?]
    · simp only [allEvents_append, allEvents_singleton, requestAllocations_append, a1, b1]
      simp [requestAllocations, Event.allocation?, hm']
    · simp only [allEvents_append, allEvents_singleton, calls_append, h4, k4]
      simp [calls, Event.isCall]
    · simp only [allEvents_append, allEvents_singleton, transmitted_append, h3, k3]
      simp [transmitted, Event.txByte?]


/-- C1: byte-at-a-time decoding equals block decoding.  For a frame `F` whose
header declares `size = |F|` with `sizeof(uRpcHeader) <= size < 2^32 - 1`, a known
command code and (with integrity checking) correct checksums, fed one byte per
call from the empty session with allocations succeeding: the first `size - 1`
calls return `uRPC_STATUS_WAITING_DATA`, the last returns `uRPC_STATUS_SUCCESS`,
exactly the bytes of `F` are received, and the handler is invoked exactly once,
with the code, payload and payload length of the block decoding of `F`.  The
invocation is that of the table entry at the decoded code on the decoded
payload (a `NULL` buffer when the payload is empty): when the length `r` it
writes back is at most 64, the bytes transmitted are a header with size
`sizeof(uRpcHeader) + r` and the entry's return value as code, followed by the
first `r` bytes the entry left in the output buffer. -/
theorem byte_at_a_time_equals_block (cfg : Config) (t : Nat → uRPC_PROCEDURE) (c : Nat)
    (F : List Byte) (envs : List Env)
    (hrx : envs.map (·.rx) = F)
    (halloc : ∀ e ∈ envs, e.mallocOk = true)
    (hH : sizeofHeader cfg ≤ F.length)
    (hsize : headerSize (F.take (sizeofHeader cfg)) = F.length)
    (hlt : F.length < 2 ^ 32 - 1)
    (hcode : headerCode (F.take (sizeofHeader cfg)) < c)
    (hcrcH : headerCrcOk cfg (F.take (sizeofHeader cfg)))
    (hcrcP : payloadCrcOk cfg (F.take (sizeofHeader cfg)) (F.drop (sizeofHeader cfg))) :
    ∃ rs, runCalls cfg t c (emptySession cfg) envs = some rs ∧
      statuses rs = List.replicate (F.length - 1) uRPC_STATUS_WAITING_DATA
        ++ [uRPC_STATUS_SUCCESS] ∧
      received (allEvents rs) = F ∧
      invocations (allEvents rs) = [decodeBlock cfg F] ∧
      ∀ hr, hr = t (decodeBlock cfg F).1
          (if F.length = sizeofHeader cfg then none else some (decodeBlock cfg F).2.1)
          (decodeBlock cfg F).2.2
          (List.replicate uRPC_OUT_BUFFER_SIZE_BYTES 0) uRPC_OUT_BUFFER_SIZE_BYTES →
        hr.response % UINT ≤ uRPC_OUT_BUFFER_SIZE_BYTES →
        ∃ hdr, hdr.length = sizeofHeader cfg ∧
          headerSize hdr = sizeofHeader cfg + hr.response % UINT ∧
          headerCode hdr = hr.code % USHORT ∧
          transmitted (allEvents rs)
            = hdr ++ (fitBuffer hr.outBuffer).take (hr.response % UINT) := by
  obtain ⟨ws, eLast, evLast, buf, hmem, hrun, hst, hrec, hinv, htx, -, hbuf, hnone⟩ :=
    runCalls_frame cfg F envs hrx
      (fun _ e he => halloc e (List.mem_of_mem_take he)) hH hsize hlt hcrcH (fun _ => hcrcP)
  replace hrun := hrun t c
  have hhl : (F.take (sizeofHeader cfg)).length = sizeofHeader cfg := by simp [hH]
  have hm := halloc eLast (List.mem_of_getLast?_eq_some hmem)
  have hv : validateCommand cfg t c eLast
      { header := checkedHeader cfg (F.take (sizeofHeader cfg)), buffer := buf,
        byteCount := 0 } evLast
      = respond cfg t eLast
      { header := checkedHeader cfg (F.take (sizeofHeader cfg)), buffer := buf,
        byteCount := 0 } evLast := by
    unfold validateCommand
    simp only [headerCode_checked cfg _ hhl]
    rw [if_neg (by omega)]
  have hrun0 := hrun
  rw [hv] at hrun
  obtain ⟨r1, -, r3, r4⟩ := respond_success cfg t eLast
      { header := checkedHeader cfg (F.take (sizeofHeader cfg)), buffer := buf,
        byteCount := 0 } evLast hm
  have hrs : sizeSub (headerSize (F.take (sizeofHeader cfg))) (sizeofHeader cfg) % UINT
      = F.length - sizeofHeader cfg := by
    have hU : UINT = 4294967296 := by norm_num [UINT]
    rw [hsize, sizeSub_eq _ _ hH (by norm_num [SIZE_T]; omega), Nat.mod_eq_of_lt (by omega)]
  have hb : buf = if F.length = sizeofHeader cfg then none
      else some (F.drop (sizeofHeader cfg)) := by
    split
    · rename_i he
      exact (hnone he).1
    · rename_i hne
      cases buf with
      | none =>
        have h0 := congrArg List.length hbuf
        simp at h0
        omega
      | some b => simpa using hbuf
  have hdec : decodeBlock cfg F = (headerCode (F.take (sizeofHeader cfg)),
      F.drop (sizeofHeader cfg), F.length - sizeofHeader cfg) := by
    have ht : (F.drop (sizeofHeader cfg)).take (F.length - sizeofHeader cfg)
        = F.drop (sizeofHeader cfg) :=
      List.take_of_length_le (by rw [List.length_drop])
    simp only [decodeBlock, hsize, ht]
  refine ⟨_, hrun, ?_, ?_, ?_, ?_⟩
  · rw [statuses_append, hst]
    simp [statuses, r1]
  · rw [allEvents_append, allEvents_singleton, received_append, r3, ← received_append, hrec]
  · rw [allEvents_append, allEvents_singleton, invocations_append, r4,
      ← List.append_assoc, ← invocations_append, hinv]
    simp only [headerCode_checked cfg _ hhl, headerSize_checked cfg _ hhl, hrs, hbuf,
      List.nil_append, decodeBlock]
    rw [hsize]
  · intro hr hhr hle
    rw [← hv, allEvents_append, allEvents_singleton]
    refine frame_response cfg t c eLast _ (allEvents ws) evLast hm
      (by simp only [headerCode_checked cfg _ hhl]; exact hcode) htx hr ?_ hle
    simp only [headerCode_checked cfg _ hhl, headerSize_checked cfg _ hhl, hrs]
    rw [hhr, hdec, hb]


set_option maxRecDepth 100000 in
theorem byte_at_a_time_equals_block_witness :
    ∃ rs, runCalls crcConfig echoTable 1 (emptySession crcConfig)
        (feed zeroMemory sampleFrame) = some rs ∧
      statuses rs = List.replicate (sampleFrame.length - 1) uRPC_STATUS_WAITING_DATA
        ++ [uRPC_STATUS_SUCCESS] ∧
      received (allEvents rs) = sampleFrame ∧
      invocations (allEvents rs) = [decodeBlock crcConfig sampleFrame] ∧
      ∀ hr, hr = echoTable (decodeBlock crcConfig sampleFrame).1
          (if sampleFrame.length = sizeofHeader crcConfig then none
            else some (decodeBlock crcConfig sampleFrame).2.1)
          (decodeBlock crcConfig sampleFrame).2.2
          (List.replicate uRPC_OUT_BUFFER_SIZE_BYTES 0) uRPC_OUT_BUFFER_SIZE_BYTES →
        hr.response % UINT ≤ uRPC_OUT_BUFFER_SIZE_BYTES →
        ∃ hdr, hdr.length = sizeofHeader crcConfig ∧
          headerSize hdr = sizeofHeader crcConfig + hr.response % UINT ∧
          headerCode hdr = hr.code % USHORT ∧
          transmitted (allEvents rs)
            = hdr ++ (fitBuffer hr.outBuffer).take (hr.response % UINT) :=
  byte_at_a_time_equals_block crcConfig echoTable 1 sampleFrame (feed zeroMemory sampleFrame)
    (by decide) (by decide) (by decide) (by decide) (by decide) (by decide)
    (fun _ => by decide) (fun _ => by decide)

example : decodeBlock crcConfig sampleFrame = (0, [1, 2], 2) := by decide

/-- Unknown command, for frames that declare at least the header.  For a frame `F`
whose header declares `size = |F|` with
`sizeof(uRpcHeader) <= size < 2^32 - 1`, that passes the integrity checks (when
enabled) and whose code is not below `handlersCount`, fed one byte per call
from the empty session with the request-buffer allocation succeeding: every
call but the last waits, the call that consumes the last byte of the frame
returns `uRPC_STATUS_UNKNOWN_CMD`, all bytes of `F` have been received by then,
no handler is invoked, no byte is transmitted, and the byte counter is left
at zero. -/
theorem unknown_command (cfg : Config) (t : Nat → uRPC_PROCEDURE) (c : Nat)
    (F : List Byte) (envs : List Env)
    (hrx : envs.map (·.rx) = F)
    (halloc : ∀ e ∈ envs.take (sizeofHeader cfg), e.mallocOk = true)
    (hH : sizeofHeader cfg ≤ F.length)
    (hsize : headerSize (F.take (sizeofHeader cfg)) = F.length)
    (hlt : F.length < 2 ^ 32 - 1)
    (hcode : c ≤ headerCode (F.take (sizeofHeader cfg)))
    (hcrcH : headerCrcOk cfg (F.take (sizeofHeader cfg)))
    (hcrcP : payloadCrcOk cfg (F.take (sizeofHeader cfg)) (F.drop (sizeofHeader cfg))) :
    ∃ rs, runCalls cfg t c (emptySession cfg) envs = some rs ∧
      statuses rs = List.replicate (F.length - 1) uRPC_STATUS_WAITING_DATA
        ++ [uRPC_STATUS_UNKNOWN_CMD] ∧
      received (allEvents rs) = F ∧
      calls (allEvents rs) = [] ∧
      transmitted (allEvents rs) = [] ∧
      (lastSession (emptySession cfg) rs).byteCount = 0 := by
  obtain ⟨ws, eLast, evLast, buf, -, hrun, hst, hrec, -, htx, hcalls, -, -⟩ :=
    runCalls_frame cfg F envs hrx (fun _ => halloc) hH hsize hlt hcrcH (fun _ => hcrcP)
  replace hrun := hrun t c
  have hhl : (F.take (sizeofHeader cfg)).length = sizeofHeader cfg := by simp [hH]
  have hv : validateCommand cfg t c eLast
      { header := checkedHeader cfg (F.take (sizeofHeader cfg)), buffer := buf,
        byteCount := 0 } evLast
      = { status := uRPC_STATUS_UNKNOWN_CMD
          session := { header := checkedHeader cfg (F.take (sizeofHeader cfg)), buffer := buf,
                       byteCount := 0 }
          events := evLast } := by
    unfold validateCommand
    simp only [headerCode_checked cfg _ hhl]
    rw [if_pos hcode]
  rw [hv] at hrun
  refine ⟨_, hrun, ?_, ?_, ?_, ?_, ?_⟩
  · rw [statuses_append, hst]; rfl
  · rw [allEvents_append, allEvents_singleton]; exact hrec
  · rw [allEvents_append, allEvents_singleton]; exact hcalls
  · rw [allEvents_append, allEvents_singleton]; exact htx
  · rw [lastSession_snoc]

set_option maxRecDepth 100000 in
/-- The lemma `unknown_command` on the frame `sampleFrame` with no handler
registered. -/
theorem unknown_command_witness :
    ∃ rs, runCalls crcConfig echoTable 0 (emptySession crcConfig)
        (feed zeroMemory sampleFrame) = some rs ∧
      statuses rs = List.replicate (sampleFrame.length - 1) uRPC_STATUS_WAITING_DATA
        ++ [uRPC_STATUS_UNKNOWN_CMD] ∧
      received (allEvents rs) = sampleFrame ∧
      calls (allEvents rs) = [] ∧
      transmitted (allEvents rs) = [] ∧
      (lastSession (emptySession crcConfig) rs).byteCount = 0 :=
  unknown_command crcConfig echoTable 0 sampleFrame (feed zeroMemory sampleFrame)
    (by decide) (by decide) (by decide) (by decide) (by decide) (by decide)
    (fun _ => by decide) (fun _ => by decide)

/-- C3: unknown command, the request that declares less than the header.  For
every header (its checksum right when checksums are compiled in) whose `size`
field is below `sizeof(uRpcHeader)` and whose code is not below
`handlersCount`: the call that consumes its last byte does not return
`uRPC_STATUS_UNKNOWN_CMD`.  The difference `size - sizeof(uRpcHeader)` wraps to
`2 ^ 64 - (sizeof(uRpcHeader) - size)`, the call asks `malloc` for that many
bytes and returns `uRPC_STATUS_ERROR_MALLOC` (allocation refused) or
`uRPC_STATUS_WAITING_DATA` (allocation granted), whereas command validation,
which `size == sizeof(uRpcHeader)` reaches on that call, would return
`uRPC_STATUS_UNKNOWN_CMD` for this header. -/
theorem unknown_command_undersized (cfg : Config) (t : Nat → uRPC_PROCEDURE) (c : Nat)
    (envs0 : List Env) (e : Env)
    (hlen : envs0.length + 1 = sizeofHeader cfg)
    (hcrc : headerCrcOk cfg (envs0.map (·.rx) ++ [e.rx]))
    (hsz : headerSize (envs0.map (·.rx) ++ [e.rx]) < sizeofHeader cfg)
    (hcode : c ≤ headerCode (envs0.map (·.rx) ++ [e.rx])) :
    (∀ (buf : Option (List Byte)) (ev : List Event),
      (validateCommand cfg t c e
        { header := checkedHeader cfg (envs0.map (·.rx) ++ [e.rx]), buffer := buf,
          byteCount := 0 } ev).status = uRPC_STATUS_UNKNOWN_CMD) ∧
    ∃ rs, runCalls cfg t c (emptySession cfg) (envs0 ++ [e]) = some rs ∧
      statuses rs = List.replicate (sizeofHeader cfg - 1) uRPC_STATUS_WAITING_DATA ++
        [if e.mallocOk then uRPC_STATUS_WAITING_DATA else uRPC_STATUS_ERROR_MALLOC] ∧
      uRPC_STATUS_UNKNOWN_CMD ∉ statuses rs ∧
      received (allEvents rs) = envs0.map (·.rx) ++ [e.rx] ∧
      requestAllocations (allEvents rs)
        = [(2 ^ 64 - (sizeofHeader cfg - headerSize (envs0.map (·.rx) ++ [e.rx])),
            e.mallocOk)] := by
  have hhl : (envs0.map (·.rx) ++ [e.rx]).length = sizeofHeader cfg := by simp [hlen]
  refine ⟨?_, ?_⟩
  · intro buf ev
    unfold validateCommand
    simp only [headerCode_checked cfg _ hhl]
    rw [if_pos hcode]
  · obtain ⟨rs, h1, h2, h3, h4, -, -⟩ := run_undersized cfg t c envs0 e hlen hcrc hsz
    refine ⟨rs, h1, h2, ?_, h3, h4⟩
    rw [h2]
    intro hmem
    simp only [List.mem_append, List.mem_replicate, List.mem_singleton] at hmem
    rcases hmem with ⟨-, h⟩ | h
    · exact absurd h (by decide)
    · split at h
      · exact absurd h (by decide)
      · exact absurd h (by decide)

set_option maxRecDepth 100000 in
/-- C3 at a concrete input: the header `05 00 00 00 01 00` (size 5, code 1) of a
build without checksums, one handler registered, the allocation refused: the
sixth call returns `uRPC_STATUS_ERROR_MALLOC`. -/
theorem unknown_command_undersized_witness :
    ((feed zeroMemory [5, 0, 0, 0, 1]).length + 1 = sizeofHeader plainConfig ∧
     headerSize ((feed zeroMemory [5, 0, 0, 0, 1]).map (·.rx) ++ [failingEnv.rx])
        < sizeofHeader plainConfig ∧
     1 ≤ headerCode ((feed zeroMemory [5, 0, 0, 0, 1]).map (·.rx) ++ [failingEnv.rx]) ∧
     (runCalls plainConfig echoTable 1 (emptySession plainConfig)
        (feed zeroMemory [5, 0, 0, 0, 1] ++ [failingEnv])).map statuses
        = some [-1, -1, -1, -1, -1, 3]) ∧
    ((∀ (buf : Option (List Byte)) (ev : List Event),
      (validateCommand plainConfig echoTable 1 failingEnv
        { header := checkedHeader plainConfig
            ((feed zeroMemory [5, 0, 0, 0, 1]).map (·.rx) ++ [failingEnv.rx]),
          buffer := buf, byteCount := 0 } ev).status = uRPC_STATUS_UNKNOWN_CMD) ∧
    ∃ rs, runCalls plainConfig echoTable 1 (emptySession plainConfig)
          (feed zeroMemory [5, 0, 0, 0, 1] ++ [failingEnv]) = some rs ∧
      statuses rs = List.replicate (sizeofHeader plainConfig - 1) uRPC_STATUS_WAITING_DATA ++
        [if failingEnv.mallocOk then uRPC_STATUS_WAITING_DATA
          else uRPC_STATUS_ERROR_MALLOC] ∧
      uRPC_STATUS_UNKNOWN_CMD ∉ statuses rs ∧
      received (allEvents rs)
        = (feed zeroMemory [5, 0, 0, 0, 1]).map (·.rx) ++ [failingEnv.rx] ∧
      requestAllocations (allEvents rs)
        = [(2 ^ 64 - (sizeofHeader plainConfig
              - headerSize ((feed zeroMemory [5, 0, 0, 0, 1]).map (·.rx) ++ [failingEnv.rx])),
            failingEnv.mallocOk)]) :=
  ⟨⟨by decide, by decide, by decide, by decide⟩,
    unknown_command_undersized plainConfig echoTable 1 (feed zeroMemory [5, 0, 0, 0, 1])
      failingEnv (by decide) (fun h => by simp [plainConfig] at h) (by decide) (by decide)⟩


/-- C4: header checksum mismatch.  With integrity checking enabled, for a 14-byte
header whose `crc.header` field differs from `calculateCrc` over the header with
that field set to zero, received from the empty session: the first 13 calls
return `uRPC_STATUS_WAITING_DATA`, the 14th returns `uRPC_STATUS_WRONG_CRC` and
leaves the byte counter at zero; only the 14 header bytes have been received,
and every action of these calls is a receive, a header store or the header
check (no allocation, no payload store, no handler invocation, no transmit);
the header check is evaluated once, on the 14th call and on none of the first
13; and the next call stores the byte it receives at offset 0 of a cleared
header. -/
theorem header_crc_mismatch (cfg : Config) (t : Nat → uRPC_PROCEDURE) (c : Nat)
    (hdr : List Byte) (envs : List Env) (eNext : Env)
    (hc : cfg.crcChecksum = true)
    (hrx : envs.map (·.rx) = hdr)
    (hlen : hdr.length = 14)
    (hbad : headerCrcHeader hdr ≠ calculateCrc cfg (setCrcHeader hdr 0)) :
    ∃ rs, runCalls cfg t c (emptySession cfg) envs = some rs ∧
      statuses rs = List.replicate 13 uRPC_STATUS_WAITING_DATA ++ [uRPC_STATUS_WRONG_CRC] ∧
      (lastSession (emptySession cfg) rs).byteCount = 0 ∧
      received (allEvents rs) = hdr ∧
      (∀ ev ∈ allEvents rs, (∃ b, ev = Event.receive b) ∨
        (∃ i b, i < 14 ∧ ev = Event.storeHeader i b) ∨ (∃ x y, ev = Event.checkHeaderCrc x y)) ∧
      headerChecks (allEvents (rs.take 13)) = [] ∧
      headerChecks (allEvents (rs.drop 13))
        = [Event.checkHeaderCrc (calculateCrc cfg (setCrcHeader hdr 0)) (headerCrcHeader hdr)] ∧
      uRpcHandle cfg t c eNext (lastSession (emptySession cfg) rs)
        = some { status := uRPC_STATUS_WAITING_DATA
                 session := hdrSession cfg [eNext.rx]
                 events := [Event.receive eNext.rx, Event.storeHeader 0 eNext.rx] } :=
  run_header_mismatch cfg t c hdr envs eNext hc hrx hlen hbad


set_option maxRecDepth 100000 in
theorem header_crc_mismatch_witness :
    crcConfig.crcChecksum = true ∧
    headerCrcHeader badCrcHeader ≠ calculateCrc crcConfig (setCrcHeader badCrcHeader 0) ∧
    ∃ rs, runCalls crcConfig echoTable 1 (emptySession crcConfig)
        (feed zeroMemory badCrcHeader) = some rs ∧
      statuses rs = List.replicate 13 uRPC_STATUS_WAITING_DATA ++ [uRPC_STATUS_WRONG_CRC] ∧
      (lastSession (emptySession crcConfig) rs).byteCount = 0 ∧
      received (allEvents rs) = badCrcHeader ∧
      (∀ ev ∈ allEvents rs, (∃ b, ev = Event.receive b) ∨
        (∃ i b, i < 14 ∧ ev = Event.storeHeader i b) ∨ (∃ x y, ev = Event.checkHeaderCrc x y)) ∧
      headerChecks (allEvents (rs.take 13)) = [] ∧
      headerChecks (allEvents (rs.drop 13))
        = [Event.checkHeaderCrc (calculateCrc crcConfig (setCrcHeader badCrcHeader 0))
            (headerCrcHeader badCrcHeader)] ∧
      uRpcHandle crcConfig echoTable 1 sampleEnv (lastSession (emptySession crcConfig) rs)
        = some { status := uRPC_STATUS_WAITING_DATA
                 session := hdrSession crcConfig [sampleEnv.rx]
                 events := [Event.receive sampleEnv.rx, Event.storeHeader 0 sampleEnv.rx] } :=
  ⟨rfl, by decide,
    header_crc_mismatch crcConfig echoTable 1 badCrcHeader (feed zeroMemory badCrcHeader)
      sampleEnv rfl (by decide) (by decide) (by decide)⟩


/-- C5 (amended): payload checksum mismatch.  With integrity checking enabled, for
a frame `F` with a payload (`sizeof(uRpcHeader) < size = |F| < 2^32 - 1`), a
valid header checksum and a `crc.payload` field different from `calculateCrc`
over the received payload, fed from the empty session with the request-buffer
allocation succeeding: every call but the last waits, the call that consumes
the last payload byte returns `uRPC_STATUS_WRONG_CRC`, resets the byte counter
to zero, and no handler is invoked and nothing transmitted.  That call does
not release the request buffer: no `free` has happened, the buffer (holding
the payload) is still live in the session when the call returns, and it is
freed by `uRpcInitialize` at the start of the next call. -/
theorem payload_crc_mismatch (cfg : Config) (t : Nat → uRPC_PROCEDURE) (c : Nat)
    (F : List Byte) (envs : List Env) (eNext : Env)
    (hc : cfg.crcChecksum = true)
    (hrx : envs.map (·.rx) = F)
    (halloc : ∀ e ∈ envs.take (sizeofHeader cfg), e.mallocOk = true)
    (hH : sizeofHeader cfg < F.length)
    (hsize : headerSize (F.take (sizeofHeader cfg)) = F.length)
    (hlt : F.length < 2 ^ 32 - 1)
    (hcrcH : headerCrcOk cfg (F.take (sizeofHeader cfg)))
    (hbad : headerCrcPayload (F.take (sizeofHeader cfg))
      ≠ calculateCrc cfg (F.drop (sizeofHeader cfg))) :
    ∃ rs, runCalls cfg t c (emptySession cfg) envs = some rs ∧
      statuses rs = List.replicate (F.length - 1) uRPC_STATUS_WAITING_DATA
        ++ [uRPC_STATUS_WRONG_CRC] ∧
      (lastSession (emptySession cfg) rs).byteCount = 0 ∧
      calls (allEvents rs) = [] ∧
      transmitted (allEvents rs) = [] ∧
      Event.free ∉ allEvents rs ∧
      (lastSession (emptySession cfg) rs).buffer = some (F.drop (sizeofHeader cfg)) ∧
      uRpcHandle cfg t c eNext (lastSession (emptySession cfg) rs)
        = some { status := uRPC_STATUS_WAITING_DATA
                 session := hdrSession cfg [eNext.rx]
                 events := [Event.free, Event.receive eNext.rx,
                   Event.storeHeader 0 eNext.rx] } :=
  run_payload_mismatch cfg t c F envs eNext hc hrx halloc hH hsize hlt hcrcH hbad

set_option maxRecDepth 100000 in
theorem payload_crc_mismatch_witness :
    crcConfig.crcChecksum = true ∧
    headerCrcPayload (badPayloadFrame.take (sizeofHeader crcConfig))
      ≠ calculateCrc crcConfig (badPayloadFrame.drop (sizeofHeader crcConfig)) ∧
    ∃ rs, runCalls crcConfig echoTable 1 (emptySession crcConfig)
        (feed zeroMemory badPayloadFrame) = some rs ∧
      statuses rs = List.replicate (badPayloadFrame.length - 1) uRPC_STATUS_WAITING_DATA
        ++ [uRPC_STATUS_WRONG_CRC] ∧
      (lastSession (emptySession crcConfig) rs).byteCount = 0 ∧
      calls (allEvents rs) = [] ∧
      transmitted (allEvents rs) = [] ∧
      Event.free ∉ allEvents rs ∧
      (lastSession (emptySession crcConfig) rs).buffer
        = some (badPayloadFrame.drop (sizeofHeader crcConfig)) ∧
      uRpcHandle crcConfig echoTable 1 sampleEnv (lastSession (emptySession crcConfig) rs)
        = some { status := uRPC_STATUS_WAITING_DATA
                 session := hdrSession crcConfig [sampleEnv.rx]
                 events := [Event.free, Event.receive sampleEnv.rx,
                   Event.storeHeader 0 sampleEnv.rx] } :=
  ⟨rfl, by decide,
    payload_crc_mismatch crcConfig echoTable 1 badPayloadFrame (feed zeroMemory badPayloadFrame)
      sampleEnv rfl (by decide) (by decide) (by decide) (by decide) (by decide)
      (fun _ => by decide) (by decide)⟩

set_option maxRecDepth 100000 in
/-- C5, as stated, fails on its last clause: for the frame `badPayloadFrame` (valid
header checksum, 2 payload bytes, wrong payload checksum) the call that consumes
the last payload byte returns `uRPC_STATUS_WRONG_CRC` with the request buffer
still live in the session state, and no `free` has been performed. -/
theorem payload_crc_mismatch_counterexample :
    headerCrcOk crcConfig (badPayloadFrame.take 14) ∧
    headerCrcPayload (badPayloadFrame.take 14) ≠ calculateCrc crcConfig (badPayloadFrame.drop 14) ∧
    (runCalls crcConfig echoTable 1 (emptySession crcConfig)
        (feed zeroMemory badPayloadFrame)).map
      (fun rs => (statuses rs, (lastSession (emptySession crcConfig) rs).buffer,
        decide (Event.free ∈ allEvents rs)))
      = some (List.replicate 15 uRPC_STATUS_WAITING_DATA ++ [uRPC_STATUS_WRONG_CRC],
          some [1, 3], false) := by
  refine ⟨fun _ => by decide, by decide, by decide⟩


set_option maxRecDepth 100000 in
/-- The check values of CRC-32 hold for `calculateCrc` whatever the signedness of
`char`: the empty sequence gives 0 and the ASCII bytes of "123456789" give
`0xCBF43926`. -/
theorem calculateCrc_check_values (cfg : Config) :
    calculateCrc cfg [] = 0 ∧
    calculateCrc cfg [0x31, 0x32, 0x33, 0x34, 0x35, 0x36, 0x37, 0x38, 0x39] = 0xCBF43926 := by
  rcases cfg with ⟨crc, sg⟩
  cases crc <;> cases sg <;> decide

/-- C6: `calculateCrc` against the reference CRC-32, at the one-byte input `80` on a
build whose plain `char` is signed: `byte = *(char *)...` sign-extends the byte
to `0xFFFFFF80`, the xor changes the upper 24 bits of the running value as
well, and the result is `0x3F459352`, while the reference CRC-32 of that input
is `0x3FBA6CAD`. -/
theorem calculateCrc_sign_extension :
    charToUInt true 0x80 = 0xFFFFFF80 ∧
    calculateCrc signedConfig [0x80] = 0x3F459352 ∧
    crc32Reference [0x80] = 0x3FBA6CAD ∧
    calculateCrc signedConfig [0x80] ≠ crc32Reference [0x80] := by
  decide


/-- C7, amended: single-bit corruption of a request is detected, at the first
checksum that covers the flipped bit.  With integrity checking enabled, for a
well-formed frame `F` (valid header and payload checksums,
`sizeof(uRpcHeader) <= size = |F| < 2^32 - 1`) and the frame obtained from it by
flipping one bit of one byte, fed from the empty session with the
request-buffer allocation succeeding: the calls up to the detecting one wait,
the detecting call returns `uRPC_STATUS_WRONG_CRC` and leaves the counter at
zero, and no handler has been invoked.  The detecting call is the one that
completes the header when the flipped bit lies in the header (size, code,
`crc.header` or `crc.payload` field), and the one that consumes the last byte
of the frame when it lies in the payload; in the latter case it is the last
call of the run.  After a flip in the header the engine starts over: what the
caller and the peer observe of the whole run is what they observe of the
detecting prefix, followed by what they observe when the remaining bytes of
the frame are fed to the engine from the empty session. -/
theorem single_bit_corruption_detected (cfg : Config) (t : Nat → uRPC_PROCEDURE) (c : Nat)
    (F : List Byte) (envs : List Env) (i : Nat) (k : Fin 8)
    (hc : cfg.crcChecksum = true)
    (hrx : envs.map (·.rx) = corrupt F i k)
    (halloc : ∀ e ∈ envs.take (sizeofHeader cfg), e.mallocOk = true)
    (hi : i < F.length)
    (hH : sizeofHeader cfg ≤ F.length)
    (hsize : headerSize (F.take (sizeofHeader cfg)) = F.length)
    (hlt : F.length < 2 ^ 32 - 1)
    (hcrcH : headerCrcOk cfg (F.take (sizeofHeader cfg)))
    (hcrcP : payloadCrcOk cfg (F.take (sizeofHeader cfg)) (F.drop (sizeofHeader cfg))) :
    ∃ rs, runCalls cfg t c (emptySession cfg) (envs.take (detectionCall cfg F i)) = some rs ∧
      statuses rs = List.replicate (detectionCall cfg F i - 1) uRPC_STATUS_WAITING_DATA
        ++ [uRPC_STATUS_WRONG_CRC] ∧
      calls (allEvents rs) = [] ∧
      (lastSession (emptySession cfg) rs).byteCount = 0 ∧
      (sizeofHeader cfg ≤ i → envs.take (detectionCall cfg F i) = envs) ∧
      (runCalls cfg t c (emptySession cfg) envs).map (List.map observe)
        = (runCalls cfg t c (emptySession cfg) (envs.drop (detectionCall cfg F i))).map
            (fun rest => rs.map observe ++ rest.map observe) := by
  have hrest : ∀ (d : Nat) (rs : List Result),
      runCalls cfg t c (emptySession cfg) (envs.take d) = some rs →
      (lastSession (emptySession cfg) rs).byteCount = 0 →
      (runCalls cfg t c (emptySession cfg) envs).map (List.map observe)
        = (runCalls cfg t c (emptySession cfg) (envs.drop d)).map
            (fun rest => rs.map observe ++ rest.map observe) := by
    intro d rs h1 h0
    have hz := runCalls_observe_of_zero cfg t c (lastSession (emptySession cfg) rs) h0
      (envs.drop d)
    have hsplit : runCalls cfg t c (emptySession cfg) envs
        = (runCalls cfg t c (lastSession (emptySession cfg) rs) (envs.drop d)).map
            (fun rb => rs ++ rb) := by
      conv_lhs => rw [← List.take_append_drop d envs]
      rw [runCalls_append, h1, Option.some_bind]
    rw [hsplit, Option.map_map]
    have e1 : (List.map observe ∘ fun rb => rs ++ rb)
        = (fun l => rs.map observe ++ l) ∘ List.map observe := by
      funext rb
      simp
    have e2 : (fun rest : List Result => rs.map observe ++ rest.map observe)
        = (fun l => rs.map observe ++ l) ∘ List.map observe := rfl
    rw [e1, e2, ← Option.map_map, ← Option.map_map, hz]
  have h14 : sizeofHeader cfg = 14 := by simp [sizeofHeader, hc]
  have hx : flipBit (F.getD i 0) k ≠ F.getD i 0 := flipBit_ne _ _
  have hcl : (corrupt F i k).length = F.length := by simp [corrupt]
  by_cases hih : i < sizeofHeader cfg
  · -- a bit of the header
    have hd : detectionCall cfg F i = 14 := by
      unfold detectionCall; rw [if_pos hih, h14]
    rw [hd]
    have hlen : ((F.take 14).set i (flipBit (F.getD i 0) k)).length = 14 := by
      simp; omega
    have hbad := corrupt_header_bad cfg (F.take 14) i (flipBit (F.getD i 0) k)
      (by simp; omega) (by omega)
      (by rw [List.getD_eq_getElem (F.take 14) 0 (by simp; omega), List.getElem_take,
            ← List.getD_eq_getElem F 0 hi]; exact hx)
      (by rw [← h14]; exact hcrcH hc)
    obtain ⟨rs, h1, h2, h3, -, h5, -, -, -⟩ := run_header_mismatch cfg t c
      ((F.take 14).set i (flipBit (F.getD i 0) k)) (envs.take 14) (envs.headD ⟨0, true, zeroMemory⟩)
      hc (by rw [List.map_take, hrx, corrupt, List.set_take]) hlen hbad
    refine ⟨rs, h1, h2, ?_, h3, fun h => by omega, hrest 14 rs h1 h3⟩
    unfold calls
    rw [List.filter_eq_nil_iff]
    intro ev hev
    rcases h5 ev hev with ⟨b, rfl⟩ | ⟨j, b, -, rfl⟩ | ⟨x, y, rfl⟩ <;> simp [Event.isCall]
  · -- a bit of the payload
    have hd : detectionCall cfg F i = F.length := by
      unfold detectionCall; rw [if_neg hih]
    rw [hd]
    have hel : envs.length = F.length := by
      have := congrArg List.length hrx
      simpa [hcl] using this
    have hall : envs.take F.length = envs := List.take_of_length_le (by omega)
    have htake : (corrupt F i k).take (sizeofHeader cfg) = F.take (sizeofHeader cfg) := by
      rw [corrupt, List.set_take, List.set_eq_of_length_le (by simp; omega)]
    have hdrop : (corrupt F i k).drop (sizeofHeader cfg)
        = (F.drop (sizeofHeader cfg)).set (i - sizeofHeader cfg) (flipBit (F.getD i 0) k) := by
      rw [corrupt, List.drop_set, if_neg hih]
    have hj : i - sizeofHeader cfg < (F.drop (sizeofHeader cfg)).length := by
      simp; omega
    have hget : (F.drop (sizeofHeader cfg)).get ⟨i - sizeofHeader cfg, hj⟩ = F.getD i 0 := by
      rw [List.getD_eq_getElem F 0 hi, List.get_eq_getElem]
      simp only [List.getElem_drop]
      congr 1
      omega
    have hne := calculateCrc_ne_of_set cfg (F.drop (sizeofHeader cfg)) (i - sizeofHeader cfg)
      (flipBit (F.getD i 0) k) hj (by rw [hget]; exact hx)
    obtain ⟨rs, h1, h2, h3, h4, -⟩ := run_payload_mismatch cfg t c (corrupt F i k) envs
      (envs.headD ⟨0, true, zeroMemory⟩) hc hrx halloc (by rw [hcl]; omega)
      (by rw [htake, hcl]; exact hsize) (by rw [hcl]; exact hlt)
      (by rw [htake]; exact hcrcH)
      (by rw [htake, hdrop, hcrcP hc]; exact hne.symm)
    rw [hcl] at h2
    rw [← hall] at h1
    exact ⟨rs, h1, h2, h4, h3, fun _ => hall, hrest F.length rs h1 h3⟩


set_option maxRecDepth 100000 in
/-- C7 (amended) at a concrete input: bit 0 of the code field (byte 4) of
`nestedFrame` flipped.  The fourteenth call returns `uRPC_STATUS_WRONG_CRC`;
the remaining fourteen bytes are observed as a frame of their own. -/
theorem single_bit_corruption_detected_witness :
    (crcConfig.crcChecksum = true ∧
     (feed zeroMemory (corrupt nestedFrame 4 0)).map (·.rx) = corrupt nestedFrame 4 0 ∧
     4 < nestedFrame.length ∧
     sizeofHeader crcConfig ≤ nestedFrame.length ∧
     headerSize (nestedFrame.take (sizeofHeader crcConfig)) = nestedFrame.length ∧
     nestedFrame.length < 2 ^ 32 - 1 ∧
     detectionCall crcConfig nestedFrame 4 = 14) ∧
    ∃ rs, runCalls crcConfig echoTable 1 (emptySession crcConfig)
        ((feed zeroMemory (corrupt nestedFrame 4 0)).take
          (detectionCall crcConfig nestedFrame 4)) = some rs ∧
      statuses rs = List.replicate (detectionCall crcConfig nestedFrame 4 - 1)
        uRPC_STATUS_WAITING_DATA ++ [uRPC_STATUS_WRONG_CRC] ∧
      calls (allEvents rs) = [] ∧
      (lastSession (emptySession crcConfig) rs).byteCount = 0 ∧
      (sizeofHeader crcConfig ≤ 4 →
        (feed zeroMemory (corrupt nestedFrame 4 0)).take (detectionCall crcConfig nestedFrame 4)
          = feed zeroMemory (corrupt nestedFrame 4 0)) ∧
      (runCalls crcConfig echoTable 1 (emptySession crcConfig)
          (feed zeroMemory (corrupt nestedFrame 4 0))).map (List.map observe)
        = (runCalls crcConfig echoTable 1 (emptySession crcConfig)
            ((feed zeroMemory (corrupt nestedFrame 4 0)).drop
              (detectionCall crcConfig nestedFrame 4))).map
            (fun rest => rs.map observe ++ rest.map observe) :=
  ⟨⟨rfl, by decide, by decide, by decide, by decide, by decide, by decide⟩,
    single_bit_corruption_detected crcConfig echoTable 1 nestedFrame
      (feed zeroMemory (corrupt nestedFrame 4 0)) 4 0 rfl (by decide) (by decide)
      (by decide) (by decide) (by decide) (by decide) (fun _ => by decide)
      (fun _ => by decide)⟩

set_option maxRecDepth 100000 in
/-- C7, as stated, fails for a flip in a header field of a frame that has a
payload: the run does not end with the `uRPC_STATUS_WRONG_CRC` of the
fourteenth call, and a handler can be invoked.  (a) `nestedFrame` is well
formed; with bit 0 of its code field flipped the statuses are 13 times
`uRPC_STATUS_WAITING_DATA`, `uRPC_STATUS_WRONG_CRC`, 13 times
`uRPC_STATUS_WAITING_DATA`, `uRPC_STATUS_SUCCESS`: the payload is parsed as a
new frame, one handler is invoked and a response is transmitted.
(b) `sampleFrame` with the same bit flipped ends with
`uRPC_STATUS_WAITING_DATA`. -/
theorem single_bit_corruption_counterexample :
    (headerSize (nestedFrame.take 14) = nestedFrame.length ∧
     headerCrcHeader (nestedFrame.take 14)
       = calculateCrc crcConfig (setCrcHeader (nestedFrame.take 14) 0) ∧
     headerCrcPayload (nestedFrame.take 14) = calculateCrc crcConfig (nestedFrame.drop 14) ∧
     corrupt nestedFrame 4 0
       = [28, 0, 0, 0, 1, 0, 14, 94, 64, 124, 78, 62, 153, 28] ++ sampleEmptyFrame) ∧
    (runCalls crcConfig echoTable 1 (emptySession crcConfig)
        (feed zeroMemory (corrupt nestedFrame 4 0))).map
      (fun rs => (statuses rs, (calls (allEvents rs)).length, transmitted (allEvents rs)))
      = some (List.replicate 13 uRPC_STATUS_WAITING_DATA ++ [uRPC_STATUS_WRONG_CRC] ++
          List.replicate 13 uRPC_STATUS_WAITING_DATA ++ [uRPC_STATUS_SUCCESS], 1,
          sampleEmptyFrame) ∧
    (runCalls crcConfig echoTable 1 (emptySession crcConfig)
        (feed zeroMemory (corrupt sampleFrame 4 0))).map statuses
      = some (List.replicate 13 uRPC_STATUS_WAITING_DATA ++
          [uRPC_STATUS_WRONG_CRC, uRPC_STATUS_WAITING_DATA, uRPC_STATUS_WAITING_DATA]) := by
  decide


/-- C10: no residual state after a frame-fatal error.  From the session left by a
call that returned `uRPC_STATUS_WRONG_CRC`, `uRPC_STATUS_UNKNOWN_CMD` or
`uRPC_STATUS_ERROR_MALLOC`, every later run (any bytes, handlers table and
allocation outcomes) yields, call by call, the same statuses, the same handler
invocations with the same arguments and the same transmitted bytes as the run
on the same inputs from the freshly initialized engine. -/
theorem no_residual_state (cfg : Config) (t : Nat → uRPC_PROCEDURE) (c : Nat) (env : Env)
    (s : Session) (r : Result) (t' : Nat → uRPC_PROCEDURE) (c' : Nat) (envs : List Env)
    (h : uRpcHandle cfg t c env s = some r)
    (hst : r.status = uRPC_STATUS_WRONG_CRC ∨ r.status = uRPC_STATUS_UNKNOWN_CMD ∨
      r.status = uRPC_STATUS_ERROR_MALLOC) :
    (runCalls cfg t' c' r.session envs).map (List.map observe)
      = (runCalls cfg t' c' (emptySession cfg) envs).map (List.map observe) := by
  apply runCalls_observe_of_zero
  apply byteCount_zero_of_terminal cfg t c env s r h
  rcases hst with h1 | h1 | h1 <;> rw [h1] <;> decide

set_option maxRecDepth 100000 in
theorem no_residual_state_witness :
    uRpcHandle crcConfig echoTable 1 lastBadByteEnv lastBadByteSession
        = some payloadMismatchResult ∧
    payloadMismatchResult.status = uRPC_STATUS_WRONG_CRC ∧
    (runCalls crcConfig echoTable 1 payloadMismatchResult.session
        (feed zeroMemory sampleFrame)).map (List.map observe)
      = (runCalls crcConfig echoTable 1 (emptySession crcConfig)
        (feed zeroMemory sampleFrame)).map (List.map observe) :=
  ⟨by decide, by decide,
    no_residual_state crcConfig echoTable 1 lastBadByteEnv lastBadByteSession
      payloadMismatchResult echoTable 1 (feed zeroMemory sampleFrame) (by decide)
      (Or.inl (by decide))⟩


/-- C11: status codes and the EMPTY state.  The five status values are -1
(`uRPC_STATUS_WAITING_DATA`), 0 (`uRPC_STATUS_SUCCESS`), 1
(`uRPC_STATUS_WRONG_CRC`), 2 (`uRPC_STATUS_UNKNOWN_CMD`) and 3
(`uRPC_STATUS_ERROR_MALLOC`), and every result of `uRpcHandle`, in any session,
has one of them as its status.  In every session reachable from the empty
session the call has a result, and that result has status
`uRPC_STATUS_WAITING_DATA` if and only if the byte counter it leaves is
non-zero: every other status leaves the counter at 0. -/
theorem status_codes_and_empty_state (cfg : Config) (t : Nat → uRPC_PROCEDURE) (c : Nat)
    (env : Env) (s : Session) (hs : Reachable cfg s) :
    statusValues = [-1, 0, 1, 2, 3] ∧
    (∀ (s1 : Session) (r1 : Result), uRpcHandle cfg t c env s1 = some r1 →
      r1.status ∈ statusValues) ∧
    ∃ r, uRpcHandle cfg t c env s = some r ∧
      r.status ∈ statusValues ∧
      (r.status = uRPC_STATUS_WAITING_DATA ↔ r.session.byteCount ≠ 0) ∧
      (r.status ≠ uRPC_STATUS_WAITING_DATA → r.session.byteCount = 0) := by
  refine ⟨rfl, fun s1 r1 h1 => status_mem_statusValues cfg t c env s1 r1 h1, ?_⟩
  obtain ⟨r, hr, -, hw, -⟩ := uRpcHandle_inv cfg t c env s (sessionInv_of_reachable cfg s hs)
  have hz := byteCount_zero_of_terminal cfg t c env s r hr
  refine ⟨r, hr, status_mem_statusValues cfg t c env s r hr, ⟨hw, fun h => ?_⟩, hz⟩
  by_contra hne
  exact h (hz hne)

/-- C11 at a concrete input: the session one byte before the end of the header
`06 00 00 00 00 00`, reached from the empty session by five calls. -/
theorem status_codes_and_empty_state_witness :
    Reachable plainConfig lastHeaderByteSession ∧
    (statusValues = [-1, 0, 1, 2, 3] ∧
    (∀ (s1 : Session) (r1 : Result), uRpcHandle plainConfig echoTable 1 sampleEnv s1 = some r1 →
      r1.status ∈ statusValues) ∧
    ∃ r, uRpcHandle plainConfig echoTable 1 sampleEnv lastHeaderByteSession = some r ∧
      r.status ∈ statusValues ∧
      (r.status = uRPC_STATUS_WAITING_DATA ↔ r.session.byteCount ≠ 0) ∧
      (r.status ≠ uRPC_STATUS_WAITING_DATA → r.session.byteCount = 0)) :=
  ⟨reachable_lastSession plainConfig echoTable 1 (feed zeroMemory [6, 0, 0, 0, 0])
      (emptySession plainConfig) (headerRun plainConfig [] [6, 0, 0, 0, 0]) Reachable.empty
      (by decide),
    status_codes_and_empty_state plainConfig echoTable 1 sampleEnv lastHeaderByteSession
      (reachable_lastSession plainConfig echoTable 1 (feed zeroMemory [6, 0, 0, 0, 0])
        (emptySession plainConfig) (headerRun plainConfig [] [6, 0, 0, 0, 0]) Reachable.empty
        (by decide))⟩


/-- Dispatch, for frames that declare at least the header.  For a frame `F` with
`sizeof(uRpcHeader) <= size = |F| < 2 ^ 32 - 1`, checksums right, every
allocation granted, whose code `k` is below `handlersCount`, the run of
`uRpcHandle` over the bytes of `F` contains exactly one handler invocation: of
the table entry at index `k`, with the request buffer holding the received
payload (`NULL` when the frame has no payload), the payload length, an output
buffer of `uRPC_OUT_BUFFER_SIZE_BYTES = 64` zero bytes and the response length
pre-set to 64.  When the length `r` that entry writes back is at most 64, the
bytes transmitted are a header with size `sizeof(uRpcHeader) + r` and the
entry's return value as code, followed by the first `r` bytes the entry left
in the output buffer.  No other entry of the table is used: a table that
agrees with `handlersTable` at index `k` gives the same run, whatever its
other entries. -/
theorem dispatch (cfg : Config) (t : Nat → uRPC_PROCEDURE) (c : Nat)
    (F : List Byte) (envs : List Env)
    (hrx : envs.map (·.rx) = F)
    (halloc : ∀ e ∈ envs, e.mallocOk = true)
    (hH : sizeofHeader cfg ≤ F.length)
    (hsize : headerSize (F.take (sizeofHeader cfg)) = F.length)
    (hlt : F.length < 2 ^ 32 - 1)
    (hcode : headerCode (F.take (sizeofHeader cfg)) < c)
    (hcrcH : headerCrcOk cfg (F.take (sizeofHeader cfg)))
    (hcrcP : payloadCrcOk cfg (F.take (sizeofHeader cfg)) (F.drop (sizeofHeader cfg))) :
    uRPC_OUT_BUFFER_SIZE_BYTES = 64 ∧
    ∃ rs, runCalls cfg t c (emptySession cfg) envs = some rs ∧
      calls (allEvents rs)
        = [Event.call (headerCode (F.take (sizeofHeader cfg)))
            (if F.length = sizeofHeader cfg then none else some (F.drop (sizeofHeader cfg)))
            (F.length - sizeofHeader cfg)
            (List.replicate uRPC_OUT_BUFFER_SIZE_BYTES 0) uRPC_OUT_BUFFER_SIZE_BYTES] ∧
      (∀ hr, hr = t (headerCode (F.take (sizeofHeader cfg)))
          (if F.length = sizeofHeader cfg then none else some (F.drop (sizeofHeader cfg)))
          (F.length - sizeofHeader cfg)
          (List.replicate uRPC_OUT_BUFFER_SIZE_BYTES 0) uRPC_OUT_BUFFER_SIZE_BYTES →
        hr.response % UINT ≤ uRPC_OUT_BUFFER_SIZE_BYTES →
        ∃ hdr, hdr.length = sizeofHeader cfg ∧
          headerSize hdr = sizeofHeader cfg + hr.response % UINT ∧
          headerCode hdr = hr.code % USHORT ∧
          transmitted (allEvents rs)
            = hdr ++ (fitBuffer hr.outBuffer).take (hr.response % UINT)) ∧
      ∀ t2 : Nat → uRPC_PROCEDURE,
        t2 (headerCode (F.take (sizeofHeader cfg))) = t (headerCode (F.take (sizeofHeader cfg))) →
        runCalls cfg t2 c (emptySession cfg) envs = some rs := by
  obtain ⟨ws, eLast, evLast, buf, hmem, hrun, -, -, -, htx, hcalls, hbuf, hnone⟩ :=
    runCalls_frame cfg F envs hrx
      (fun _ e he => halloc e (List.mem_of_mem_take he)) hH hsize hlt hcrcH (fun _ => hcrcP)
  have hhl : (F.take (sizeofHeader cfg)).length = sizeofHeader cfg := by simp [hH]
  have hm := halloc eLast (List.mem_of_getLast?_eq_some hmem)
  have hv : validateCommand cfg t c eLast
      { header := checkedHeader cfg (F.take (sizeofHeader cfg)), buffer := buf,
        byteCount := 0 } evLast
      = respond cfg t eLast
      { header := checkedHeader cfg (F.take (sizeofHeader cfg)), buffer := buf,
        byteCount := 0 } evLast := by
    unfold validateCommand
    simp only [headerCode_checked cfg _ hhl]
    rw [if_neg (by omega)]
  have hrs : sizeSub (headerSize (F.take (sizeofHeader cfg))) (sizeofHeader cfg) % UINT
      = F.length - sizeofHeader cfg := by
    have hU : UINT = 4294967296 := by norm_num [UINT]
    rw [hsize, sizeSub_eq _ _ hH (by norm_num [SIZE_T]; omega), Nat.mod_eq_of_lt (by omega)]
  have hb : buf = if F.length = sizeofHeader cfg then none
      else some (F.drop (sizeofHeader cfg)) := by
    split
    · rename_i he
      exact (hnone he).1
    · rename_i hne
      cases buf with
      | none =>
        have h0 := congrArg List.length hbuf
        simp at h0
        omega
      | some b => simpa using hbuf
  refine ⟨rfl, _, hrun t c, ?_, ?_, ?_⟩
  · rw [allEvents_append, allEvents_singleton, hv, calls_append, calls_respond _ _ _ _ _ hm,
      ← List.append_assoc, ← calls_append, hcalls]
    simp only [headerCode_checked cfg _ hhl, headerSize_checked cfg _ hhl, hrs, ← hb,
      List.nil_append]
  · intro hr hhr hle
    rw [allEvents_append, allEvents_singleton]
    refine frame_response cfg t c eLast _ (allEvents ws) evLast hm
      (by simp only [headerCode_checked cfg _ hhl]; exact hcode) htx hr ?_ hle
    simp only [headerCode_checked cfg _ hhl, headerSize_checked cfg _ hhl, hrs]
    rw [hhr, hb]
  · intro t2 h2
    rw [hrun t2 c, validateCommand_congr_table cfg t t2 c eLast _ evLast
      (by simpa only [headerCode_checked cfg _ hhl] using h2)]

set_option maxRecDepth 100000 in
/-- The lemma `dispatch` on the frame `sampleFrame` (code 0, payload `01 02`) with
the echo handler. -/
theorem dispatch_witness :
    ((feed zeroMemory sampleFrame).map (·.rx) = sampleFrame ∧
     (∀ e ∈ feed zeroMemory sampleFrame, e.mallocOk = true) ∧
     sizeofHeader crcConfig ≤ sampleFrame.length ∧
     headerSize (sampleFrame.take (sizeofHeader crcConfig)) = sampleFrame.length ∧
     sampleFrame.length < 2 ^ 32 - 1 ∧
     headerCode (sampleFrame.take (sizeofHeader crcConfig)) < 1 ∧
     headerCrcOk crcConfig (sampleFrame.take (sizeofHeader crcConfig)) ∧
     payloadCrcOk crcConfig (sampleFrame.take (sizeofHeader crcConfig))
       (sampleFrame.drop (sizeofHeader crcConfig))) ∧
    (uRPC_OUT_BUFFER_SIZE_BYTES = 64 ∧
    ∃ rs, runCalls crcConfig echoTable 1 (emptySession crcConfig)
          (feed zeroMemory sampleFrame) = some rs ∧
      calls (allEvents rs)
        = [Event.call (headerCode (sampleFrame.take (sizeofHeader crcConfig)))
            (if sampleFrame.length = sizeofHeader crcConfig then none
              else some (sampleFrame.drop (sizeofHeader crcConfig)))
            (sampleFrame.length - sizeofHeader crcConfig)
            (List.replicate uRPC_OUT_BUFFER_SIZE_BYTES 0) uRPC_OUT_BUFFER_SIZE_BYTES] ∧
      (∀ hr, hr = echoTable (headerCode (sampleFrame.take (sizeofHeader crcConfig)))
          (if sampleFrame.length = sizeofHeader crcConfig then none
            else some (sampleFrame.drop (sizeofHeader crcConfig)))
          (sampleFrame.length - sizeofHeader crcConfig)
          (List.replicate uRPC_OUT_BUFFER_SIZE_BYTES 0) uRPC_OUT_BUFFER_SIZE_BYTES →
        hr.response % UINT ≤ uRPC_OUT_BUFFER_SIZE_BYTES →
        ∃ hdr, hdr.length = sizeofHeader crcConfig ∧
          headerSize hdr = sizeofHeader crcConfig + hr.response % UINT ∧
          headerCode hdr = hr.code % USHORT ∧
          transmitted (allEvents rs)
            = hdr ++ (fitBuffer hr.outBuffer).take (hr.response % UINT)) ∧
      ∀ t2 : Nat → uRPC_PROCEDURE,
        t2 (headerCode (sampleFrame.take (sizeofHeader crcConfig)))
          = echoTable (headerCode (sampleFrame.take (sizeofHeader crcConfig))) →
        runCalls crcConfig t2 1 (emptySession crcConfig) (feed zeroMemory sampleFrame)
          = some rs) :=
  ⟨⟨by decide, by decide, by decide, by decide, by decide, by decide, fun _ => by decide,
      fun _ => by decide⟩,
    dispatch crcConfig echoTable 1 sampleFrame (feed zeroMemory sampleFrame)
      (by decide) (by decide) (by decide) (by decide) (by decide) (by decide)
      (fun _ => by decide) (fun _ => by decide)⟩

/-- C12: dispatch, the request that declares less than the header.  For every
header (its checksum right when checksums are compiled in) whose `size` field
is below `sizeof(uRpcHeader)` and whose code `k` is below `handlersCount`: no
handler is invoked and nothing is transmitted by the call that consumes its
last byte or by any call before it.  The difference
`size - sizeof(uRpcHeader)` wraps to `2 ^ 64 - (sizeof(uRpcHeader) - size)`,
the call asks `malloc` for that many bytes and returns
`uRPC_STATUS_ERROR_MALLOC` (allocation refused) or `uRPC_STATUS_WAITING_DATA`
(allocation granted), whereas command validation, which
`size == sizeof(uRpcHeader)` reaches on that call, hands this header to the
response stage, which invokes the table entry at index `k`. -/
theorem dispatch_undersized (cfg : Config) (t : Nat → uRPC_PROCEDURE) (c : Nat)
    (envs0 : List Env) (e : Env)
    (hlen : envs0.length + 1 = sizeofHeader cfg)
    (hcrc : headerCrcOk cfg (envs0.map (·.rx) ++ [e.rx]))
    (hsz : headerSize (envs0.map (·.rx) ++ [e.rx]) < sizeofHeader cfg)
    (hcode : headerCode (envs0.map (·.rx) ++ [e.rx]) < c) :
    (∀ (buf : Option (List Byte)) (ev : List Event),
      validateCommand cfg t c e
          { header := checkedHeader cfg (envs0.map (·.rx) ++ [e.rx]), buffer := buf,
            byteCount := 0 } ev
        = respond cfg t e
          { header := checkedHeader cfg (envs0.map (·.rx) ++ [e.rx]), buffer := buf,
            byteCount := 0 } ev) ∧
    ∃ rs, runCalls cfg t c (emptySession cfg) (envs0 ++ [e]) = some rs ∧
      statuses rs = List.replicate (sizeofHeader cfg - 1) uRPC_STATUS_WAITING_DATA ++
        [if e.mallocOk then uRPC_STATUS_WAITING_DATA else uRPC_STATUS_ERROR_MALLOC] ∧
      uRPC_STATUS_SUCCESS ∉ statuses rs ∧
      received (allEvents rs) = envs0.map (·.rx) ++ [e.rx] ∧
      requestAllocations (allEvents rs)
        = [(2 ^ 64 - (sizeofHeader cfg - headerSize (envs0.map (·.rx) ++ [e.rx])),
            e.mallocOk)] ∧
      calls (allEvents rs) = [] ∧
      transmitted (allEvents rs) = [] := by
  have hhl : (envs0.map (·.rx) ++ [e.rx]).length = sizeofHeader cfg := by simp [hlen]
  refine ⟨?_, ?_⟩
  · intro buf ev
    unfold validateCommand
    simp only [headerCode_checked cfg _ hhl]
    rw [if_neg (by omega)]
  · obtain ⟨rs, h1, h2, h3, h4, h5, h6⟩ := run_undersized cfg t c envs0 e hlen hcrc hsz
    refine ⟨rs, h1, h2, ?_, h3, h4, h5, h6⟩
    rw [h2]
    intro hmem
    simp only [List.mem_append, List.mem_replicate, List.mem_singleton] at hmem
    rcases hmem with ⟨-, h⟩ | h
    · exact absurd h (by decide)
    · split at h
      · exact absurd h (by decide)
      · exact absurd h (by decide)

set_option maxRecDepth 100000 in
/-- C12 at a concrete input: the header `05 00 00 00 00 00` (size 5, code 0) of a
build without checksums, one handler registered, the allocation refused: the
sixth call returns `uRPC_STATUS_ERROR_MALLOC` and no handler is invoked. -/
theorem dispatch_undersized_witness :
    ((feed zeroMemory [5, 0, 0, 0, 0]).length + 1 = sizeofHeader plainConfig ∧
     headerSize ((feed zeroMemory [5, 0, 0, 0, 0]).map (·.rx) ++ [failingEnv.rx])
        < sizeofHeader plainConfig ∧
     headerCode ((feed zeroMemory [5, 0, 0, 0, 0]).map (·.rx) ++ [failingEnv.rx]) < 1 ∧
     (runCalls plainConfig echoTable 1 (emptySession plainConfig)
        (feed zeroMemory [5, 0, 0, 0, 0] ++ [failingEnv])).map
          (fun rs => (statuses rs, calls (allEvents rs)))
        = some ([-1, -1, -1, -1, -1, 3], [])) ∧
    ((∀ (buf : Option (List Byte)) (ev : List Event),
      validateCommand plainConfig echoTable 1 failingEnv
          { header := checkedHeader plainConfig
              ((feed zeroMemory [5, 0, 0, 0, 0]).map (·.rx) ++ [failingEnv.rx]),
            buffer := buf, byteCount := 0 } ev
        = respond plainConfig echoTable failingEnv
          { header := checkedHeader plainConfig
              ((feed zeroMemory [5, 0, 0, 0, 0]).map (·.rx) ++ [failingEnv.rx]),
            buffer := buf, byteCount := 0 } ev) ∧
    ∃ rs, runCalls plainConfig echoTable 1 (emptySession plainConfig)
          (feed zeroMemory [5, 0, 0, 0, 0] ++ [failingEnv]) = some rs ∧
      statuses rs = List.replicate (sizeofHeader plainConfig - 1) uRPC_STATUS_WAITING_DATA ++
        [if failingEnv.mallocOk then uRPC_STATUS_WAITING_DATA
          else uRPC_STATUS_ERROR_MALLOC] ∧
      uRPC_STATUS_SUCCESS ∉ statuses rs ∧
      received (allEvents rs)
        = (feed zeroMemory [5, 0, 0, 0, 0]).map (·.rx) ++ [failingEnv.rx] ∧
      requestAllocations (allEvents rs)
        = [(2 ^ 64 - (sizeofHeader plainConfig
              - headerSize ((feed zeroMemory [5, 0, 0, 0, 0]).map (·.rx) ++ [failingEnv.rx])),
            failingEnv.mallocOk)] ∧
      calls (allEvents rs) = [] ∧
      transmitted (allEvents rs) = []) :=
  ⟨⟨by decide, by decide, by decide, by decide⟩,
    dispatch_undersized plainConfig echoTable 1 (feed zeroMemory [5, 0, 0, 0, 0])
      failingEnv (by decide) (fun h => by simp [plainConfig] at h) (by decide) (by decide)⟩


/-- C13: the checksum fields of a response are consistent with the checks made
on a request.  With `uRPC_CRC_CHECKSUM`, on every call that returns
`uRPC_STATUS_SUCCESS` with the length `r` written back by the handler at most
64: the bytes transmitted are a 14-byte header `hdr` followed by the payload
`p`, the first `r` bytes of the response buffer; the size field is the frame
length; `crc.payload` is `calculateCrc` of `p` (0 when `r = 0`); `crc.header`
is `calculateCrc` of the header with `crc.header` set to zero and
`crc.payload` at its final value.  So the frame passes the request-side
checks: fed back byte by byte from the empty session (request buffer
allocated), every call but the last returns `uRPC_STATUS_WAITING_DATA` and
the last call gets past both checksum comparisons, to command validation. -/
theorem response_crc_consistent (cfg : Config) (t : Nat → uRPC_PROCEDURE) (c : Nat)
    (env : Env) (s : Session) (r : Result) (hc : cfg.crcChecksum = true)
    (h : uRpcHandle cfg t c env s = some r) (hs : r.status = uRPC_STATUS_SUCCESS) :
    ∃ code inBuffer request,
      calls r.events
        = [Event.call code inBuffer request
            (List.replicate uRPC_OUT_BUFFER_SIZE_BYTES 0) uRPC_OUT_BUFFER_SIZE_BYTES] ∧
      ∀ hr, hr = t code inBuffer request
          (List.replicate uRPC_OUT_BUFFER_SIZE_BYTES 0) uRPC_OUT_BUFFER_SIZE_BYTES →
        hr.response % UINT ≤ uRPC_OUT_BUFFER_SIZE_BYTES →
        ∃ hdr p, transmitted r.events = hdr ++ p ∧
          hdr.length = 14 ∧
          p = (fitBuffer hr.outBuffer).take (hr.response % UINT) ∧
          p.length = hr.response % UINT ∧
          headerSize hdr = (hdr ++ p).length ∧
          headerCrcPayload hdr = calculateCrc cfg p ∧
          (hr.response % UINT = 0 → headerCrcPayload hdr = 0) ∧
          headerCrcPayload (setCrcHeader hdr 0) = headerCrcPayload hdr ∧
          headerCrcHeader hdr = calculateCrc cfg (setCrcHeader hdr 0) ∧
          ∀ (t2 : Nat → uRPC_PROCEDURE) (c2 : Nat) (envs : List Env),
            envs.map (·.rx) = hdr ++ p →
            (∀ e ∈ envs.take (sizeofHeader cfg), e.mallocOk = true) →
            ∃ ws eLast σ evLast,
              runCalls cfg t2 c2 (emptySession cfg) envs
                = some (ws ++ [validateCommand cfg t2 c2 eLast σ evLast]) ∧
              statuses ws = List.replicate ((hdr ++ p).length - 1) uRPC_STATUS_WAITING_DATA ∧
              (validateCommand cfg t2 c2 eLast σ evLast).status ≠ uRPC_STATUS_WRONG_CRC := by
  have hH : sizeofHeader cfg = 14 := by simp [sizeofHeader, hc]
  have hU : UINT = 4294967296 := by norm_num [UINT]
  have h64 : uRPC_OUT_BUFFER_SIZE_BYTES = 64 := rfl
  obtain ⟨ev, σ, hev, hm, rfl⟩ := success_form cfg t c env s r h hs
  obtain ⟨-, p2, -, -, -⟩ := passive_facts ev hev
  refine ⟨headerCode σ.header, σ.buffer,
    sizeSub (headerSize σ.header) (sizeofHeader cfg) % UINT, ?_, ?_⟩
  · rw [calls_respond cfg t env σ ev hm, p2, List.nil_append]
  · intro hr hhr hle
    have hT := transmitted_respond cfg t env σ ev hev hm hr _ hhr hle rfl
    generalize hPdef : (if 0 < hr.response % UINT
      then calculateCrc cfg ((fitBuffer hr.outBuffer).take (hr.response % UINT)) else 0)
      = P at hT
    have hPlt : P < 2 ^ 32 := by
      rw [← hPdef]; split
      · exact calculateCrc_lt cfg _
      · norm_num
    have hplen : ((fitBuffer hr.outBuffer).take (hr.response % UINT)).length
        = hr.response % UINT := by
      rw [List.length_take, fitBuffer_length]; omega
    have hPeq : P = calculateCrc cfg ((fitBuffer hr.outBuffer).take (hr.response % UINT)) := by
      rw [← hPdef]
      split
      · rfl
      · rename_i h0
        have hz : hr.response % UINT = 0 := by omega
        rw [hz, List.take_zero, calculateCrc_nil]
    obtain ⟨f1, f2, -⟩ := responseHeaderBytes_facts cfg
      (sizeofHeader cfg + hr.response % UINT) (hr.code % USHORT)
      (calculateCrc cfg (responseHeaderBytes cfg (sizeofHeader cfg + hr.response % UINT)
        (hr.code % USHORT) 0 P)) P
    obtain ⟨g1, g2, g3⟩ := responseHeaderBytes_crc cfg
      (sizeofHeader cfg + hr.response % UINT) (hr.code % USHORT)
      (calculateCrc cfg (responseHeaderBytes cfg (sizeofHeader cfg + hr.response % UINT)
        (hr.code % USHORT) 0 P)) P hc
    obtain ⟨-, g5, -⟩ := responseHeaderBytes_crc cfg
      (sizeofHeader cfg + hr.response % UINT) (hr.code % USHORT) 0 P hc
    rw [Nat.mod_eq_of_lt (calculateCrc_lt cfg _)] at g1
    rw [Nat.mod_eq_of_lt hPlt] at g2 g5
    generalize hhdr : responseHeaderBytes cfg (sizeofHeader cfg + hr.response % UINT)
      (hr.code % USHORT)
      (calculateCrc cfg (responseHeaderBytes cfg (sizeofHeader cfg + hr.response % UINT)
        (hr.code % USHORT) 0 P)) P = hdr at hT f1 f2 g1 g2 g3
    generalize hp : (fitBuffer hr.outBuffer).take (hr.response % UINT) = p at hT hplen hPeq
    have hsize : headerSize hdr = (hdr ++ p).length := by
      rw [f2, List.length_append, f1, hplen, Nat.mod_eq_of_lt (by omega)]
    have hcrcP : headerCrcPayload hdr = calculateCrc cfg p := by rw [g2, hPeq]
    have hcrcH : headerCrcHeader hdr = calculateCrc cfg (setCrcHeader hdr 0) := by
      rw [g1, g3]
    refine ⟨hdr, p, hT, by rw [f1, hH], rfl, hplen, hsize, hcrcP, ?_, ?_, hcrcH, ?_⟩
    · intro hz
      rw [g2, ← hPdef, hz]; simp
    · rw [g3, g5, g2]
    · intro t2 c2 envs hrx halloc
      have htake : (hdr ++ p).take (sizeofHeader cfg) = hdr := List.take_left' f1
      have hdrop : (hdr ++ p).drop (sizeofHeader cfg) = p := List.drop_left' f1
      obtain ⟨ws, eLast, evLast, buf, -, hrun, hst, -, -, -, -, -, -⟩ :=
        runCalls_frame cfg (hdr ++ p) envs hrx (fun _ => halloc)
          (by rw [List.length_append, f1]; omega)
          (by rw [htake]; exact hsize)
          (by rw [List.length_append, f1, hplen]; omega)
          (by rw [htake]; exact fun _ => hcrcH)
          (fun _ => by rw [htake, hdrop]; exact fun _ => hcrcP)
      refine ⟨ws, eLast, _, evLast, hrun t2 c2, hst, ?_⟩
      rcases validateCommand_status cfg t2 c2 eLast
        { header := checkedHeader cfg ((hdr ++ p).take (sizeofHeader cfg)), buffer := buf,
          byteCount := 0 } evLast with h1 | h1 | h1 <;> rw [h1] <;> decide


set_option maxRecDepth 100000 in
/-- C13 at a concrete input: the call that consumes the last byte of `sampleFrame`,
the echo handler; the response is `sampleFrame` itself. -/
theorem response_crc_consistent_witness :
    (crcConfig.crcChecksum = true ∧
     uRpcHandle crcConfig echoTable 1 lastPayloadByteEnv lastSampleByteSession
        = some sampleResponseResult ∧
     sampleResponseResult.status = uRPC_STATUS_SUCCESS ∧
     transmitted sampleResponseResult.events = sampleFrame) ∧
    ∃ code inBuffer request,
      calls sampleResponseResult.events
        = [Event.call code inBuffer request
            (List.replicate uRPC_OUT_BUFFER_SIZE_BYTES 0) uRPC_OUT_BUFFER_SIZE_BYTES] ∧
      ∀ hr, hr = echoTable code inBuffer request
          (List.replicate uRPC_OUT_BUFFER_SIZE_BYTES 0) uRPC_OUT_BUFFER_SIZE_BYTES →
        hr.response % UINT ≤ uRPC_OUT_BUFFER_SIZE_BYTES →
        ∃ hdr p, transmitted sampleResponseResult.events = hdr ++ p ∧
          hdr.length = 14 ∧
          p = (fitBuffer hr.outBuffer).take (hr.response % UINT) ∧
          p.length = hr.response % UINT ∧
          headerSize hdr = (hdr ++ p).length ∧
          headerCrcPayload hdr = calculateCrc crcConfig p ∧
          (hr.response % UINT = 0 → headerCrcPayload hdr = 0) ∧
          headerCrcPayload (setCrcHeader hdr 0) = headerCrcPayload hdr ∧
          headerCrcHeader hdr = calculateCrc crcConfig (setCrcHeader hdr 0) ∧
          ∀ (t2 : Nat → uRPC_PROCEDURE) (c2 : Nat) (envs : List Env),
            envs.map (·.rx) = hdr ++ p →
            (∀ e ∈ envs.take (sizeofHeader crcConfig), e.mallocOk = true) →
            ∃ ws eLast σ evLast,
              runCalls crcConfig t2 c2 (emptySession crcConfig) envs
                = some (ws ++ [validateCommand crcConfig t2 c2 eLast σ evLast]) ∧
              statuses ws = List.replicate ((hdr ++ p).length - 1) uRPC_STATUS_WAITING_DATA ∧
              (validateCommand crcConfig t2 c2 eLast σ evLast).status
                ≠ uRPC_STATUS_WRONG_CRC :=
  ⟨⟨rfl, by decide, by decide, by decide⟩,
    response_crc_consistent crcConfig echoTable 1 lastPayloadByteEnv lastSampleByteSession
      sampleResponseResult rfl (by decide) (by decide)⟩


/-- C14: a declared size smaller than the header is not treated as a zero-payload
request.  For every header (its checksum right when checksums are compiled in)
whose `size` field is less than `sizeof(uRpcHeader)`, the difference
`size - sizeof(uRpcHeader)` wraps in unsigned arithmetic to
`2 ^ 64 - (sizeof(uRpcHeader) - size)`, which is positive: the call that
completes the header requests a request buffer of that many bytes and returns
`uRPC_STATUS_WAITING_DATA` (allocation granted) or `uRPC_STATUS_ERROR_MALLOC`
(allocation refused).  It does not reach command validation: it returns neither
`uRPC_STATUS_UNKNOWN_CMD` nor `uRPC_STATUS_SUCCESS` and invokes no handler. -/
theorem undersized_request_allocates (cfg : Config) (t : Nat → uRPC_PROCEDURE) (c : Nat)
    (envs0 : List Env) (e : Env)
    (hlen : envs0.length + 1 = sizeofHeader cfg)
    (hcrc : headerCrcOk cfg (envs0.map (·.rx) ++ [e.rx]))
    (hsz : headerSize (envs0.map (·.rx) ++ [e.rx]) < sizeofHeader cfg) :
    ∃ r, runCalls cfg t c (emptySession cfg) (envs0 ++ [e])
        = some (headerRun cfg [] (envs0.map (·.rx)) ++ [r]) ∧
      r.status = (if e.mallocOk then uRPC_STATUS_WAITING_DATA else uRPC_STATUS_ERROR_MALLOC) ∧
      r.events = [Event.receive e.rx, Event.storeHeader envs0.length e.rx] ++
        headerCheckEvents cfg (envs0.map (·.rx) ++ [e.rx]) ++
        [Event.mallocRequest
          (2 ^ 64 - (sizeofHeader cfg - headerSize (envs0.map (·.rx) ++ [e.rx]))) e.mallocOk] ∧
      r.status ≠ uRPC_STATUS_UNKNOWN_CMD ∧ r.status ≠ uRPC_STATUS_SUCCESS ∧
      calls r.events = [] := by
  have hHc := sizeofHeader_cases cfg
  have hhl : (envs0.map (·.rx) ++ [e.rx]).length = sizeofHeader cfg := by simp [hlen]
  have hsz' : headerSize (checkedHeader cfg (envs0.map (·.rx) ++ [e.rx]))
      = headerSize (envs0.map (·.rx) ++ [e.rx]) := headerSize_checked cfg _ hhl
  have hsub : sizeSub (headerSize (checkedHeader cfg (envs0.map (·.rx) ++ [e.rx])))
      (sizeofHeader cfg)
      = 2 ^ 64 - (sizeofHeader cfg - headerSize (envs0.map (·.rx) ++ [e.rx])) := by
    rw [hsz']
    unfold sizeSub SIZE_T
    rw [Nat.mod_eq_of_lt (by omega), Nat.mod_eq_of_lt (by omega), Nat.mod_eq_of_lt (by omega)]
    omega
  obtain ⟨k1, k2, k3, k4⟩ := headerCheckEvents_facts cfg (envs0.map (·.rx) ++ [e.rx])
  have hrun := runCalls_headerComplete cfg t c envs0 e [] hlen
  rw [checkHeader_ok cfg t c e _ none _ hcrc,
    receivePayload_malloc cfg t c e _ none _ (by rw [hsz']; omega), hsub] at hrun
  by_cases hm : e.mallocOk = true
  · rw [if_pos hm] at hrun
    simp only [Option.some_bind, runCalls, Option.map_some'] at hrun
    refine ⟨_, hrun, by simp [hm], by simp [hm], by simp [hm, uRPC_STATUS_WAITING_DATA,
      uRPC_STATUS_UNKNOWN_CMD], by simp [hm, uRPC_STATUS_WAITING_DATA, uRPC_STATUS_SUCCESS], ?_⟩
    simp only [calls_append, k4]
    simp [calls, Event.isCall]
  · rw [if_neg hm] at hrun
    simp only [Option.some_bind, runCalls, Option.map_some'] at hrun
    have hm' : e.mallocOk = false := by simpa using hm
    refine ⟨_, hrun, by simp [hm'], by simp [hm'], by simp [hm', uRPC_STATUS_ERROR_MALLOC,
      uRPC_STATUS_UNKNOWN_CMD], by simp [hm', uRPC_STATUS_ERROR_MALLOC, uRPC_STATUS_SUCCESS], ?_⟩
    simp only [calls_append, k4]
    simp [calls, Event.isCall]

/-- C14 at a concrete input: the header `05 00 00 00 00 00` (size 5, code 0) of a
build without checksums, the allocation refused: the sixth call asks `malloc`
for `2 ^ 64 - 1` bytes and returns `uRPC_STATUS_ERROR_MALLOC`. -/
theorem undersized_request_allocates_witness :
    ((feed zeroMemory [5, 0, 0, 0, 0]).length + 1 = sizeofHeader plainConfig ∧
     headerSize ((feed zeroMemory [5, 0, 0, 0, 0]).map (·.rx) ++ [failingEnv.rx])
        < sizeofHeader plainConfig) ∧
    ∃ r, runCalls plainConfig echoTable 1 (emptySession plainConfig)
          (feed zeroMemory [5, 0, 0, 0, 0] ++ [failingEnv])
        = some (headerRun plainConfig [] ((feed zeroMemory [5, 0, 0, 0, 0]).map (·.rx)) ++ [r]) ∧
      r.status = (if failingEnv.mallocOk then uRPC_STATUS_WAITING_DATA
        else uRPC_STATUS_ERROR_MALLOC) ∧
      r.events = [Event.receive failingEnv.rx,
          Event.storeHeader (feed zeroMemory [5, 0, 0, 0, 0]).length failingEnv.rx] ++
        headerCheckEvents plainConfig
          ((feed zeroMemory [5, 0, 0, 0, 0]).map (·.rx) ++ [failingEnv.rx]) ++
        [Event.mallocRequest
          (2 ^ 64 - (sizeofHeader plainConfig
            - headerSize ((feed zeroMemory [5, 0, 0, 0, 0]).map (·.rx) ++ [failingEnv.rx])))
          failingEnv.mallocOk] ∧
      r.status ≠ uRPC_STATUS_UNKNOWN_CMD ∧ r.status ≠ uRPC_STATUS_SUCCESS ∧
      calls r.events = [] :=
  ⟨⟨by decide, by decide⟩,
    undersized_request_allocates plainConfig echoTable 1 (feed zeroMemory [5, 0, 0, 0, 0])
      failingEnv (by decide) (fun h => by simp [plainConfig] at h) (by decide)⟩


/-- C15, amended: the header on the wire is 6 bytes without checksums and 14
bytes with them (`uRpcHeader` is packed: a 4-byte `size`, a 2-byte `code`, two
4-byte checksums).  For any input bytes, handlers and allocation outcomes, the
first `sizeof(uRpcHeader) - 1` calls from the empty session each store one
header byte and return `uRPC_STATUS_WAITING_DATA`, and the next call stores
the last header byte at offset `sizeof(uRpcHeader) - 1` and leaves the header
phase: it goes on to the header check with the counter equal to
`sizeof(uRpcHeader)` and all the header bytes in place. -/
theorem header_length (cfg : Config) (t : Nat → uRPC_PROCEDURE) (c : Nat)
    (envs0 : List Env) (e : Env)
    (hlen : envs0.length + 1 = sizeofHeader cfg) :
    sizeofHeader cfg = (if cfg.crcChecksum then 14 else 6) ∧
    runCalls cfg t c (emptySession cfg) envs0 = some (headerRun cfg [] (envs0.map (·.rx))) ∧
    statuses (headerRun cfg [] (envs0.map (·.rx)))
      = List.replicate (sizeofHeader cfg - 1) uRPC_STATUS_WAITING_DATA ∧
    received (allEvents (headerRun cfg [] (envs0.map (·.rx)))) = envs0.map (·.rx) ∧
    lastSession (emptySession cfg) (headerRun cfg [] (envs0.map (·.rx)))
      = hdrSession cfg (envs0.map (·.rx)) ∧
    uRpcHandle cfg t c e (hdrSession cfg (envs0.map (·.rx)))
      = checkHeader cfg t c e
          { header := envs0.map (·.rx) ++ [e.rx], buffer := none,
            byteCount := sizeofHeader cfg }
          [Event.receive e.rx, Event.storeHeader (sizeofHeader cfg - 1) e.rx] := by
  obtain ⟨h1, h2, h3, h4, h5⟩ := allEvents_headerRun cfg [] (envs0.map (·.rx))
  refine ⟨by unfold sizeofHeader; split <;> rfl, ?_, ?_, ?_, ?_, ?_⟩
  · rw [emptySession_eq]
    exact runCalls_header cfg t c envs0 [] (by simp; omega)
  · rw [statuses_headerRun]; simp; omega
  · simpa using h1
  · rw [emptySession_eq, lastSession_headerRun]; simp
  · rw [uRpcHandle_hdrSession,
      receiveHeader_complete cfg t c e (envs0.map (·.rx)) [] (by simpa using hlen)]
    have : (envs0.map (·.rx)).length = sizeofHeader cfg - 1 := by simp; omega
    rw [this]; simp

/-- C15 at a concrete input: the six header bytes `06 00 00 00 00 00` of a build
without checksums. -/
theorem header_length_witness :
    (feed zeroMemory [6, 0, 0, 0, 0]).length + 1 = sizeofHeader plainConfig ∧
    (sizeofHeader plainConfig = (if plainConfig.crcChecksum then 14 else 6) ∧
    runCalls plainConfig echoTable 1 (emptySession plainConfig) (feed zeroMemory [6, 0, 0, 0, 0])
      = some (headerRun plainConfig [] ((feed zeroMemory [6, 0, 0, 0, 0]).map (·.rx))) ∧
    statuses (headerRun plainConfig [] ((feed zeroMemory [6, 0, 0, 0, 0]).map (·.rx)))
      = List.replicate (sizeofHeader plainConfig - 1) uRPC_STATUS_WAITING_DATA ∧
    received (allEvents (headerRun plainConfig [] ((feed zeroMemory [6, 0, 0, 0, 0]).map (·.rx))))
      = (feed zeroMemory [6, 0, 0, 0, 0]).map (·.rx) ∧
    lastSession (emptySession plainConfig)
        (headerRun plainConfig [] ((feed zeroMemory [6, 0, 0, 0, 0]).map (·.rx)))
      = hdrSession plainConfig ((feed zeroMemory [6, 0, 0, 0, 0]).map (·.rx)) ∧
    uRpcHandle plainConfig echoTable 1 sampleEnv
        (hdrSession plainConfig ((feed zeroMemory [6, 0, 0, 0, 0]).map (·.rx)))
      = checkHeader plainConfig echoTable 1 sampleEnv
          { header := (feed zeroMemory [6, 0, 0, 0, 0]).map (·.rx) ++ [sampleEnv.rx],
            buffer := none, byteCount := sizeofHeader plainConfig }
          [Event.receive sampleEnv.rx,
            Event.storeHeader (sizeofHeader plainConfig - 1) sampleEnv.rx]) :=
  ⟨by decide,
    header_length plainConfig echoTable 1 (feed zeroMemory [6, 0, 0, 0, 0]) sampleEnv
      (by decide)⟩

set_option maxRecDepth 100000 in
/-- C15, as stated, fails: `sizeof(uRpcHeader)` is 6 without checksums and 14 with
them, not 10 and 18.  Without checksums the sixth call on the header
`06 00 00 00 00 00` already returns `uRPC_STATUS_SUCCESS`; with checksums the
fourteenth call on the header `sampleEmptyFrame` does. -/
theorem header_length_counterexample :
    sizeofHeader plainConfig = 6 ∧ sizeofHeader plainConfig ≠ 10 ∧
    sizeofHeader crcConfig = 14 ∧ sizeofHeader crcConfig ≠ 18 ∧
    (runCalls plainConfig echoTable 1 (emptySession plainConfig)
        (feed zeroMemory plainEmptyFrame)).map statuses
      = some (List.replicate 5 uRPC_STATUS_WAITING_DATA ++ [uRPC_STATUS_SUCCESS]) ∧
    (runCalls crcConfig echoTable 1 (emptySession crcConfig)
        (feed zeroMemory sampleEmptyFrame)).map statuses
      = some (List.replicate 13 uRPC_STATUS_WAITING_DATA ++ [uRPC_STATUS_SUCCESS]) := by
  decide


theorem take_fitBuffer_toBytes (v : Nat) (rest : List Byte) :
    (fitBuffer (toBytes 4 v ++ rest)).take 4 = toBytes 4 v := by
  unfold fitBuffer
  rw [List.take_take, List.append_assoc]
  exact List.take_left' (toBytes_length 4 v)

/-- C16, amended: the example scenario for the header the code has.  Without
checksums the header is 6 bytes, so the request that carries a 4-byte payload
declares size 10.  For every payload `b0 b1 b2 b3` (the little-endian bytes of
a 32-bit value `v`), feeding the frame size 10, code 0, payload `v` to
`uRpcHandle` with the handlers table of `main.c`: nine calls return
`uRPC_STATUS_WAITING_DATA`, the tenth returns `uRPC_STATUS_SUCCESS`, and the
bytes transmitted are the header size 10, code `XST_SUCCESS` (as a
`uRPC_CODE_T`; the bytes `00 00` when the constant is 0) followed by the four
bytes of `(v + 0xCAFE) mod 2^32`; the response size equals the request size.
For `v = 1` the response payload is `FF CA 00 00`, the bytes of `0x0000CAFF`. -/
theorem example_scenario (xstSuccess xstFailure : Nat) (beyond : Nat → Byte) (b0 b1 b2 b3 : Byte) :
    (runCalls plainConfig (HANDLERS_TABLE xstSuccess xstFailure) 1 (emptySession plainConfig)
        (feed beyond (selfTestFrame b0 b1 b2 b3))).map
      (fun rs => (statuses rs, transmitted (allEvents rs)))
      = some (List.replicate 9 uRPC_STATUS_WAITING_DATA ++ [uRPC_STATUS_SUCCESS],
          [10, 0, 0, 0] ++ toBytes 2 (xstSuccess % 2 ^ 16) ++
            toBytes 4 ((fromBytes [b0, b1, b2, b3] + 0xCAFE) % 2 ^ 32)) ∧
    toBytes 2 (0 % 2 ^ 16) = [0, 0] ∧
    toBytes 4 ((fromBytes [1, 0, 0, 0] + 0xCAFE) % 2 ^ 32) = [0xFF, 0xCA, 0, 0] ∧
    fromBytes [0xFF, 0xCA, 0, 0] = 0x0000CAFF := by
  refine ⟨?_, by decide, by decide, by decide⟩
  have hH : sizeofHeader plainConfig = 6 := rfl
  have hU : UINT = 4294967296 := by norm_num [UINT]
  obtain ⟨ws, eLast, evLast, buf, hmem, hrun, hst, -, -, htx, -, hbuf, -⟩ :=
    runCalls_frame plainConfig (selfTestFrame b0 b1 b2 b3)
      (feed beyond (selfTestFrame b0 b1 b2 b3))
      (by simp [feed, selfTestFrame])
      (fun _ e he => by
        have := List.mem_of_mem_take he
        simp only [feed, List.mem_map] at this
        obtain ⟨b, -, rfl⟩ := this
        rfl)
      (by simp [selfTestFrame, hH])
      (by rfl)
      (by simp [selfTestFrame])
      (fun h => by simp [plainConfig] at h)
      (fun _ h => by simp [plainConfig] at h)
  have hlast : eLast = { rx := b3, mallocOk := true, beyond := beyond } := by
    simp [feed, selfTestFrame] at hmem
    exact hmem.symm
  have hbuf' : buf = some [b0, b1, b2, b3] := by
    cases buf with
    | none => simp [selfTestFrame, hH] at hbuf
    | some b => simpa [selfTestFrame, hH] using hbuf
  have hhdr : checkedHeader plainConfig ((selfTestFrame b0 b1 b2 b3).take
      (sizeofHeader plainConfig)) = [10, 0, 0, 0, 0, 0] := by
    rfl
  have hcode : headerCode ([10, 0, 0, 0, 0, 0] : List Byte) = 0 := by decide
  have hreq : sizeSub (headerSize ([10, 0, 0, 0, 0, 0] : List Byte))
      (sizeofHeader plainConfig) % UINT = 4 := by decide
  rw [hrun (HANDLERS_TABLE xstSuccess xstFailure) 1, hhdr, hbuf']
  have hv : validateCommand plainConfig (HANDLERS_TABLE xstSuccess xstFailure) 1 eLast
      { header := [10, 0, 0, 0, 0, 0], buffer := some [b0, b1, b2, b3], byteCount := 0 } evLast
      = prependEvents evLast (respond plainConfig (HANDLERS_TABLE xstSuccess xstFailure) eLast
          { header := [10, 0, 0, 0, 0, 0], buffer := some [b0, b1, b2, b3], byteCount := 0 }
          []) := by
    rw [← respond_events]
    unfold validateCommand
    rw [if_neg (by simp only [hcode]; omega)]
  have hm : eLast.mallocOk = true := by rw [hlast]
  have hr : HANDLERS_TABLE xstSuccess xstFailure
      (headerCode ([10, 0, 0, 0, 0, 0] : List Byte)) (some [b0, b1, b2, b3])
      (sizeSub (headerSize ([10, 0, 0, 0, 0, 0] : List Byte)) (sizeofHeader plainConfig) % UINT)
      (List.replicate uRPC_OUT_BUFFER_SIZE_BYTES 0) uRPC_OUT_BUFFER_SIZE_BYTES
      = { code := xstSuccess
          outBuffer := toBytes 4 ((fromBytes [b0, b1, b2, b3] + 0xCAFE) % UINT)
            ++ (List.replicate uRPC_OUT_BUFFER_SIZE_BYTES (0 : Byte)).drop 4
          response := 4 } := by
    rw [hreq]
    simp [HANDLERS_TABLE, SelfTestFunction]
  have h4 : 4 % UINT = 4 := by rw [hU]
  have hT := transmitted_respond plainConfig (HANDLERS_TABLE xstSuccess xstFailure) eLast
    { header := [10, 0, 0, 0, 0, 0], buffer := some [b0, b1, b2, b3], byteCount := 0 } []
    (by simp) hm _ _ hr.symm (by simp only [h4]; decide) rfl
  obtain ⟨r1, -, -, -⟩ := respond_success plainConfig (HANDLERS_TABLE xstSuccess xstFailure) eLast
    { header := [10, 0, 0, 0, 0, 0], buffer := some [b0, b1, b2, b3], byteCount := 0 } [] hm
  simp only [Option.map_some', Option.some.injEq, Prod.mk.injEq]
  refine ⟨?_, ?_⟩
  · rw [statuses_append, hst, hv]
    simp [statuses, prependEvents, r1, selfTestFrame]
  · rw [allEvents_append, allEvents_singleton, hv]
    simp only [prependEvents]
    rw [← List.append_assoc, transmitted_append, htx, List.nil_append, hT]
    simp only [h4]
    rw [take_fitBuffer_toBytes, hU]
    have e : ∀ x y : Nat, responseHeaderBytes plainConfig (sizeofHeader plainConfig + 4)
        (xstSuccess % USHORT) x y = [10, 0, 0, 0] ++ toBytes 2 (xstSuccess % 2 ^ 16) :=
      fun _ _ => by simp [responseHeaderBytes, plainConfig, USHORT]; rfl
    rw [e]
    norm_num


set_option maxRecDepth 100000 in
/-- C16, as stated, fails: without checksums the header is 6 bytes, so the frame
of the specification (size 14, code 0, a 4-byte payload) is 10 bytes on the
wire and declares 8 payload bytes.  After its 10 bytes every call has returned
`uRPC_STATUS_WAITING_DATA` and nothing has been transmitted.  If four more
bytes follow, the handler gets a request of length 8, returns `XST_FAILURE`
(here 1, with `XST_SUCCESS` 0) with no payload, and the response is size 6, code 1: not size 14,
code 0, payload `0x0000CAFF`. -/
theorem example_scenario_counterexample :
    sizeofHeader plainConfig = 6 ∧
    specExampleFrame.length = 10 ∧
    headerSize (specExampleFrame.take (sizeofHeader plainConfig)) = 14 ∧
    specExampleFrame.drop (sizeofHeader plainConfig) = [1, 0, 0, 0] ∧
    (runCalls plainConfig (HANDLERS_TABLE 0 1) 1 (emptySession plainConfig)
        (feed zeroMemory specExampleFrame)).map
      (fun rs => (statuses rs, transmitted (allEvents rs)))
      = some (List.replicate 10 uRPC_STATUS_WAITING_DATA, []) ∧
    (runCalls plainConfig (HANDLERS_TABLE 0 1) 1 (emptySession plainConfig)
        (feed zeroMemory (specExampleFrame ++ [0, 0, 0, 0]))).map
      (fun rs => (statuses rs, transmitted (allEvents rs)))
      = some (List.replicate 13 uRPC_STATUS_WAITING_DATA ++ [uRPC_STATUS_SUCCESS],
          [6, 0, 0, 0, 1, 0]) := by
  decide


/-- C18: `calculateCrc` separates single-bit differences.  For every byte
sequence `d` and every sequence obtained from it by flipping one bit (bit `k`
of the byte at a position `i` inside `d`), the two sequences have the same
length, are different, and `calculateCrc` returns different values on them, for
either signedness of `char`; and the per-bit step of `calculateCrc` is
injective on 32-bit words. -/
theorem calculateCrc_separates_single_bit (cfg : Config) (d : List Byte) (i : Nat) (k : Fin 8)
    (hi : i < d.length) :
    (corrupt d i k).length = d.length ∧
    corrupt d i k ≠ d ∧
    calculateCrc cfg (corrupt d i k) ≠ calculateCrc cfg d ∧
    (∀ c e : Nat, c < 2 ^ 32 → e < 2 ^ 32 → crcBit c = crcBit e → c = e) := by
  have hget : d.getD i 0 = d.get ⟨i, hi⟩ := by
    rw [List.getD_eq_getElem _ _ hi, List.get_eq_getElem]
  have hx : flipBit (d.getD i 0) k ≠ d.get ⟨i, hi⟩ := by
    rw [← hget]; exact flipBit_ne _ _
  have hne := calculateCrc_ne_of_set cfg d i (flipBit (d.getD i 0) k) hi hx
  refine ⟨by simp [corrupt], ?_, hne, fun c e hc he h => crcBit_injective c e hc he h⟩
  intro h
  apply hne
  unfold corrupt at h
  rw [h]

/-- C18 at a concrete input: flipping bit 0 of the second byte of `01 02`. -/
theorem calculateCrc_separates_single_bit_witness :
    (1 < ([1, 2] : List Byte).length) ∧
    (corrupt [1, 2] 1 0).length = ([1, 2] : List Byte).length ∧
    corrupt [1, 2] 1 0 ≠ ([1, 2] : List Byte) ∧
    calculateCrc crcConfig (corrupt [1, 2] 1 0) ≠ calculateCrc crcConfig [1, 2] ∧
    (∀ c e : Nat, c < 2 ^ 32 → e < 2 ^ 32 → crcBit c = crcBit e → c = e) :=
  ⟨by decide, calculateCrc_separates_single_bit crcConfig [1, 2] 1 0 (by decide)⟩


/-- C19: header writes stay inside the header.  In every session reachable from
the empty session (any input bytes, handlers and allocation outcomes) the byte
counter at entry to `uRpcHandle` is not `sizeof(uRpcHeader)`; the call has a
result, and the stores it makes into the request header are: one store of the
received byte at the offset the counter gives when the counter is below
`sizeof(uRpcHeader)`, none otherwise; so every offset written is below
`sizeof(uRpcHeader)`.  The guard `uRpcByteCount <= sizeof(uRpcHeader)` alone
would not give this: in a session whose counter equals `sizeof(uRpcHeader)`
the store lands outside the header and the call has no defined result. -/
theorem header_writes_inside_header (cfg : Config) (t : Nat → uRPC_PROCEDURE) (c : Nat)
    (env : Env) (s : Session) (hs : Reachable cfg s) :
    s.byteCount ≠ sizeofHeader cfg ∧
    (∃ r, uRpcHandle cfg t c env s = some r ∧
      headerStores r.events
        = (if s.byteCount < sizeofHeader cfg then [(s.byteCount, env.rx)] else []) ∧
      ∀ i b, (i, b) ∈ headerStores r.events → i < sizeofHeader cfg) ∧
    (∀ s1 : Session, s1.byteCount = sizeofHeader cfg → uRpcHandle cfg t c env s1 = none) := by
  have hHc := sizeofHeader_cases cfg
  have hinv := sessionInv_of_reachable cfg s hs
  refine ⟨?_, ?_, ?_⟩
  · rcases hinv with h | ⟨h, -⟩ <;> omega
  · obtain ⟨r, hr, -, -, hst⟩ := uRpcHandle_inv cfg t c env s hinv
    refine ⟨r, hr, hst, ?_⟩
    intro i b hm
    rw [hst] at hm
    split at hm
    · simp only [List.mem_singleton, Prod.mk.injEq] at hm
      omega
    · simp at hm
  · intro s1 h1
    unfold uRpcHandle receiveHeader
    rw [if_neg (by omega)]
    simp only
    rw [if_pos (by omega), if_neg (by omega)]

/-- C19 at a concrete input: the session one byte before the end of the header
`07 00 00 00 00 00`, reached from the empty session by five calls. -/
theorem header_writes_inside_header_witness :
    Reachable plainConfig payloadHeaderSession ∧
    (payloadHeaderSession.byteCount ≠ sizeofHeader plainConfig ∧
    (∃ r, uRpcHandle plainConfig echoTable 1 sampleEnv payloadHeaderSession = some r ∧
      headerStores r.events
        = (if payloadHeaderSession.byteCount < sizeofHeader plainConfig
            then [(payloadHeaderSession.byteCount, sampleEnv.rx)] else []) ∧
      ∀ i b, (i, b) ∈ headerStores r.events → i < sizeofHeader plainConfig) ∧
    (∀ s1 : Session, s1.byteCount = sizeofHeader plainConfig →
      uRpcHandle plainConfig echoTable 1 sampleEnv s1 = none)) :=
  ⟨reachable_lastSession plainConfig echoTable 1 (feed zeroMemory [7, 0, 0, 0, 0])
      (emptySession plainConfig) (headerRun plainConfig [] [7, 0, 0, 0, 0]) Reachable.empty
      (by decide),
    header_writes_inside_header plainConfig echoTable 1 sampleEnv payloadHeaderSession
      (reachable_lastSession plainConfig echoTable 1 (feed zeroMemory [7, 0, 0, 0, 0])
        (emptySession plainConfig) (headerRun plainConfig [] [7, 0, 0, 0, 0]) Reachable.empty
        (by decide))⟩


theorem allocation_isResponse (e : Event) (h : e.isResponse = true) :
    Event.allocation? e = none := by
  cases e <;> simp_all [Event.isResponse, Event.allocation?]

theorem payloadStore_isResponse (e : Event) (h : e.isResponse = true) :
    Event.payloadStore? e = none := by
  cases e <;> simp_all [Event.isResponse, Event.payloadStore?]

theorem payloadStores_of_singletons (rs : List Result) (l : List (Nat × Byte))
    (h : rs.map (fun r => payloadStores r.events) = l.map (fun p => [p])) :
    payloadStores (allEvents rs) = l := by
  induction rs generalizing l with
  | nil =>
    cases l with
    | nil => rfl
    | cons p l => simp at h
  | cons r rs ih =>
    cases l with
    | nil => simp at h
    | cons p l =>
      simp only [List.map_cons, List.cons.injEq] at h
      simp only [allEvents, payloadStores_append, h.1, ih l h.2, List.singleton_append]

theorem requestAllocations_allEvents_append (a b : List Result) :
    requestAllocations (allEvents (a ++ b))
      = requestAllocations (allEvents a) ++ requestAllocations (allEvents b) := by
  rw [allEvents_append, requestAllocations_append]

/-- C20: payload writes stay inside the request buffer.  For every frame `F`
whose header declares the size `s = |F|` with
`sizeof(uRpcHeader) < s < 2 ^ 32 - 1` (header checksum right when checksums are
compiled in, the allocation granted), for any handlers: the run of the `s`
calls consists of the `sizeof(uRpcHeader) - 1` calls `wsH`, the call `rH` that
completes the header, and the `s - sizeof(uRpcHeader)` calls `wsP`.  The
request buffer is allocated once, in `rH`, with `s - sizeof(uRpcHeader)`
bytes.  No payload byte is stored before or in `rH`; each call of `wsP` stores
exactly one byte, the `k`-th of them the `k`-th payload byte at index `k`
(counting from 0): the indices are `0, 1, ..., s - sizeof(uRpcHeader) - 1` in
order, each below the allocated size. -/
theorem payload_writes_inside_buffer (cfg : Config) (t : Nat → uRPC_PROCEDURE) (c : Nat)
    (F : List Byte) (envs : List Env)
    (hrx : envs.map (·.rx) = F)
    (halloc : ∀ e ∈ envs.take (sizeofHeader cfg), e.mallocOk = true)
    (hH : sizeofHeader cfg < F.length)
    (hsize : headerSize (F.take (sizeofHeader cfg)) = F.length)
    (hlt : F.length < 2 ^ 32 - 1)
    (hcrcH : headerCrcOk cfg (F.take (sizeofHeader cfg))) :
    ∃ wsH rH wsP, runCalls cfg t c (emptySession cfg) envs = some (wsH ++ rH :: wsP) ∧
      wsH.length + 1 = sizeofHeader cfg ∧
      wsP.length = F.length - sizeofHeader cfg ∧
      requestAllocations (allEvents wsH) = [] ∧
      requestAllocations rH.events = [(F.length - sizeofHeader cfg, true)] ∧
      requestAllocations (allEvents wsP) = [] ∧
      requestAllocations (allEvents (wsH ++ rH :: wsP))
        = [(F.length - sizeofHeader cfg, true)] ∧
      payloadStores (allEvents wsH ++ rH.events) = [] ∧
      wsP.map (fun r => payloadStores r.events)
        = ((F.drop (sizeofHeader cfg)).enum).map (fun p => [p]) ∧
      payloadStores (allEvents (wsH ++ rH :: wsP)) = (F.drop (sizeofHeader cfg)).enum ∧
      ∀ p ∈ payloadStores (allEvents (wsH ++ rH :: wsP)), p.1 < F.length - sizeofHeader cfg := by
  have hHc := sizeofHeader_cases cfg
  have hU : UINT = 4294967296 := by norm_num [UINT]
  have hS : SIZE_T = 18446744073709551616 := by norm_num [SIZE_T]
  obtain ⟨ws, eLast, evLast, bc, -, hrun, -, -, -, -, -, -, wsH, rH, wsP0, hws, hlenH, a1, a2,
    a3, a4, a5, a6⟩ := runCalls_frame_payload cfg F envs hrx halloc hH hsize hlt hcrcH
  have hhl : (F.take (sizeofHeader cfg)).length = sizeofHeader cfg := by simp; omega
  have hdl : (F.drop (sizeofHeader cfg)).length = F.length - sizeofHeader cfg := by simp
  obtain ⟨r, hr, -, -, hf⟩ := checkPayload_total cfg t c eLast
    { header := checkedHeader cfg (F.take (sizeofHeader cfg)),
      buffer := some (F.drop (sizeofHeader cfg)), byteCount := bc } evLast
    (F.drop (sizeofHeader cfg)) rfl (by
      simp only
      rw [headerSize_checked cfg _ hhl, hsize, sizeSub_eq _ _ (by omega) (by omega), hdl]
      exact Nat.mod_le _ _)
  have hra : requestAllocations r.events = requestAllocations evLast :=
    hf Event.allocation? allocation_isResponse (fun _ _ => rfl)
  have hps : payloadStores r.events = payloadStores evLast :=
    hf Event.payloadStore? payloadStore_isResponse (fun _ _ => rfl)
  have hP : requestAllocations (allEvents (wsP0 ++ [r])) = [] := by
    rw [allEvents_append, allEvents_singleton, requestAllocations_append, hra,
      ← requestAllocations_append]
    exact a5
  have hM : (wsP0 ++ [r]).map (fun r => payloadStores r.events)
      = ((F.drop (sizeofHeader cfg)).enum).map (fun p => [p]) := by
    rw [List.map_append, List.map_singleton, hps]
    exact a6
  have hlenP : (wsP0 ++ [r]).length = F.length - sizeofHeader cfg := by
    have := congrArg List.length hM
    simpa using this
  have hall : payloadStores (allEvents (wsH ++ rH :: (wsP0 ++ [r])))
      = (F.drop (sizeofHeader cfg)).enum := by
    have e : wsH ++ rH :: (wsP0 ++ [r]) = (wsH ++ [rH]) ++ (wsP0 ++ [r]) := by simp
    rw [e, allEvents_append, payloadStores_append, payloadStores_of_singletons _ _ hM,
      allEvents_append, allEvents_singleton, payloadStores_append, a2, a4]
    rfl
  refine ⟨wsH, rH, wsP0 ++ [r], ?_, hlenH, hlenP, a1, a3, hP, ?_, ?_, hM, hall, ?_⟩
  · rw [hrun t c, hr, Option.map_some', hws]
    simp
  · have e : wsH ++ rH :: (wsP0 ++ [r]) = (wsH ++ [rH]) ++ (wsP0 ++ [r]) := by simp
    rw [e, requestAllocations_allEvents_append, requestAllocations_allEvents_append, hP, a1,
      allEvents_singleton, a3]
    rfl
  · rw [payloadStores_append, a2, a4]; rfl
  · intro p hp
    rw [hall] at hp
    have := List.fst_lt_of_mem_enum hp
    rw [hdl] at this
    exact this

set_option maxRecDepth 100000 in
/-- C20 at a concrete input: the frame `sampleFrame` (size 16, two payload bytes). -/
theorem payload_writes_inside_buffer_witness :
    ((feed zeroMemory sampleFrame).map (·.rx) = sampleFrame ∧
     (∀ e ∈ (feed zeroMemory sampleFrame).take (sizeofHeader crcConfig), e.mallocOk = true) ∧
     sizeofHeader crcConfig < sampleFrame.length ∧
     headerSize (sampleFrame.take (sizeofHeader crcConfig)) = sampleFrame.length ∧
     sampleFrame.length < 2 ^ 32 - 1 ∧
     headerCrcOk crcConfig (sampleFrame.take (sizeofHeader crcConfig))) ∧
    ∃ wsH rH wsP, runCalls crcConfig echoTable 1 (emptySession crcConfig)
          (feed zeroMemory sampleFrame) = some (wsH ++ rH :: wsP) ∧
      wsH.length + 1 = sizeofHeader crcConfig ∧
      wsP.length = sampleFrame.length - sizeofHeader crcConfig ∧
      requestAllocations (allEvents wsH) = [] ∧
      requestAllocations rH.events = [(sampleFrame.length - sizeofHeader crcConfig, true)] ∧
      requestAllocations (allEvents wsP) = [] ∧
      requestAllocations (allEvents (wsH ++ rH :: wsP))
        = [(sampleFrame.length - sizeofHeader crcConfig, true)] ∧
      payloadStores (allEvents wsH ++ rH.events) = [] ∧
      wsP.map (fun r => payloadStores r.events)
        = ((sampleFrame.drop (sizeofHeader crcConfig)).enum).map (fun p => [p]) ∧
      payloadStores (allEvents (wsH ++ rH :: wsP))
        = (sampleFrame.drop (sizeofHeader crcConfig)).enum ∧
      ∀ p ∈ payloadStores (allEvents (wsH ++ rH :: wsP)),
        p.1 < sampleFrame.length - sizeofHeader crcConfig :=
  ⟨⟨by decide, by decide, by decide, by decide, by decide, fun _ => by decide⟩,
    payload_writes_inside_buffer crcConfig echoTable 1 sampleFrame (feed zeroMemory sampleFrame)
      (by decide) (by decide) (by decide) (by decide) (by decide) (fun _ => by decide)⟩


/-- Setting `crc.header` to zero leaves the `size` field as it is. -/
theorem headerSize_setCrcHeader (h : List Byte) :
    headerSize (setCrcHeader h 0) = headerSize h := by
  rcases h with _ | ⟨a, _ | ⟨b, _ | ⟨c, _ | ⟨d, l⟩⟩⟩⟩ <;>
    simp [headerSize, setCrcHeader, toBytes, fromBytes, Fin.ofNat]

theorem transfers_append (a b : List Event) :
    transfers (a ++ b) = transfers a ++ transfers b := by
  simp [transfers, List.filterMap_append]

theorem transfer_isResponse (e : Event) (h : e.isResponse = true) :
    Event.transfer? e = none := by
  cases e <;> simp_all [Event.isResponse, Event.transfer?]

theorem received_transfers (evs : List Event) : received (transfers evs) = received evs := by
  unfold received transfers
  rw [List.filterMap_filterMap]
  congr 1
  funext e
  cases e <;> rfl

theorem headerStores_transfers (evs : List Event) :
    headerStores (transfers evs) = headerStores evs := by
  unfold headerStores transfers
  rw [List.filterMap_filterMap]
  congr 1
  funext e
  cases e <;> rfl

theorem payloadStores_transfers (evs : List Event) :
    payloadStores (transfers evs) = payloadStores evs := by
  unfold payloadStores transfers
  rw [List.filterMap_filterMap]
  congr 1
  funext e
  cases e <;> rfl

theorem sizedInv_of_zero (cfg : Config) (s : Session) (h : s.byteCount = 0) :
    SizedInv cfg s := by
  left
  rw [h]
  rcases sizeofHeader_cases cfg with e | e <;> omega

theorem waiting_ne_terminal :
    uRPC_STATUS_UNKNOWN_CMD ≠ uRPC_STATUS_WAITING_DATA ∧
    uRPC_STATUS_SUCCESS ≠ uRPC_STATUS_WAITING_DATA ∧
    uRPC_STATUS_ERROR_MALLOC ≠ uRPC_STATUS_WAITING_DATA ∧
    uRPC_STATUS_WRONG_CRC ≠ uRPC_STATUS_WAITING_DATA := by decide

theorem validateCommand_not_waiting (cfg : Config) (t : Nat → uRPC_PROCEDURE) (c : Nat)
    (env : Env) (σ : Session) (ev : List Event) :
    (validateCommand cfg t c env σ ev).status ≠ uRPC_STATUS_WAITING_DATA := by
  obtain ⟨w1, w2, w3, -⟩ := waiting_ne_terminal
  rcases validateCommand_status cfg t c env σ ev with h | h | h <;> rw [h] <;> assumption

/-- The payload stage on the call that completes the header moves no byte; it
leaves the counter at `sizeof(uRpcHeader) + 1` when it waits, and keeps the
invariant when the declared size is in range. -/
theorem sized_receivePayload_header (cfg : Config) (t : Nat → uRPC_PROCEDURE) (c : Nat)
    (env : Env) (hdr : List Byte) (buf : Option (List Byte)) (ev : List Event) :
    ∃ r, receivePayload cfg t c env
        { header := hdr, buffer := buf, byteCount := sizeofHeader cfg } ev = some r ∧
      transfers r.events = transfers ev ∧
      (r.status = uRPC_STATUS_WAITING_DATA → r.session.byteCount = sizeofHeader cfg + 1) ∧
      (sizeofHeader cfg ≤ headerSize hdr → headerSize hdr < 2 ^ 32 - 1 →
        SizedInv cfg r.session) := by
  have hHc := sizeofHeader_cases cfg
  have hS : SIZE_T = 18446744073709551616 := by norm_num [SIZE_T]
  obtain ⟨w1, w2, w3, w4⟩ := waiting_ne_terminal
  by_cases hsz : headerSize hdr = sizeofHeader cfg
  · rw [receivePayload_none cfg t c env _ ev hsz]
    refine ⟨_, rfl, filterMap_validateCommand Event.transfer? transfer_isResponse cfg t c env _ ev,
      fun h => absurd h (validateCommand_not_waiting cfg t c env _ ev),
      fun _ _ => sizedInv_of_zero cfg _ (validateCommand_byteCount_zero cfg t c env _ ev)⟩
  · rw [receivePayload_malloc cfg t c env hdr buf ev hsz]
    split
    · refine ⟨_, rfl, ?_, ?_, ?_⟩
      · simp [transfers_append, transfers, Event.transfer?]
      · intro _; simp [paySession]
      · intro h1 h2
        right
        refine ⟨by simp [paySession], ?_, h2, _, rfl, ?_⟩
        · simp only [paySession, List.length_nil]; omega
        · simp only [paySession, List.nil_append, List.length_replicate]
          exact sizeSub_eq _ _ h1 (by omega)
    · refine ⟨_, rfl, ?_, fun h => absurd h w3, fun _ _ => sizedInv_of_zero cfg _ rfl⟩
      simp [transfers_append, transfers, Event.transfer?]

/-- The header check and what follows it on the call that completes the header. -/
theorem sized_checkHeader_header (cfg : Config) (t : Nat → uRPC_PROCEDURE) (c : Nat)
    (env : Env) (hdr : List Byte) (buf : Option (List Byte)) (ev : List Event) :
    ∃ r, checkHeader cfg t c env
        { header := hdr, buffer := buf, byteCount := sizeofHeader cfg } ev = some r ∧
      transfers r.events = transfers ev ∧
      (r.status = uRPC_STATUS_WAITING_DATA → r.session.byteCount = sizeofHeader cfg + 1) ∧
      (sizeofHeader cfg ≤ headerSize hdr → headerSize hdr < 2 ^ 32 - 1 →
        SizedInv cfg r.session) := by
  obtain ⟨w1, w2, w3, w4⟩ := waiting_ne_terminal
  unfold checkHeader
  simp only
  split
  · split
    · refine ⟨_, rfl, ?_, fun h => absurd h w4, fun _ _ => sizedInv_of_zero cfg _ rfl⟩
      simp [transfers_append, transfers, Event.transfer?]
    · obtain ⟨r, hr, h1, h2, h3⟩ := sized_receivePayload_header cfg t c env
        (setCrcHeader hdr 0) buf
        (ev ++ [Event.checkHeaderCrc (calculateCrc cfg (setCrcHeader hdr 0))
          (headerCrcHeader hdr)])
      refine ⟨r, hr, ?_, h2, ?_⟩
      · rw [h1]; simp [transfers_append, transfers, Event.transfer?]
      · rw [headerSize_setCrcHeader] at h3
        exact h3
  · exact sized_receivePayload_header cfg t c env hdr buf ev

/-- The header stage in a session whose counter is below `sizeof(uRpcHeader)`: the
byte received is stored at the offset the counter gives, and nothing else is
moved. -/
theorem sized_receiveHeader (cfg : Config) (t : Nat → uRPC_PROCEDURE) (c : Nat)
    (env : Env) (s : Session) (ev : List Event) (h : s.byteCount < sizeofHeader cfg) :
    ∃ r, receiveHeader cfg t c env s ev = some r ∧
      transfers r.events
        = transfers ev ++ [Event.receive env.rx, Event.storeHeader s.byteCount env.rx] ∧
      (r.status = uRPC_STATUS_WAITING_DATA → r.session.byteCount
        = if s.byteCount + 1 = sizeofHeader cfg then sizeofHeader cfg + 1
          else s.byteCount + 1) ∧
      (declaresFrameSize cfg s env → SizedInv cfg r.session) := by
  have hHc := sizeofHeader_cases cfg
  have hU : UINT = 4294967296 := by norm_num [UINT]
  have hnext : (s.byteCount + 1) % UINT = s.byteCount + 1 := Nat.mod_eq_of_lt (by omega)
  unfold receiveHeader
  simp only
  rw [if_pos (le_of_lt h), if_pos h, hnext]
  split
  · rename_i hw
    refine ⟨_, rfl, ?_, fun _ => by rw [if_neg (by omega)], fun _ => Or.inl hw⟩
    simp [transfers_append, transfers, Event.transfer?]
  · rename_i hw
    have he : s.byteCount + 1 = sizeofHeader cfg := by omega
    rw [he]
    obtain ⟨r, hr, h1, h2, h3⟩ := sized_checkHeader_header cfg t c env
      (s.header.set s.byteCount env.rx) s.buffer
      (ev ++ [Event.receive env.rx, Event.storeHeader s.byteCount env.rx])
    refine ⟨r, hr, ?_, ?_, ?_⟩
    · rw [h1]; simp [transfers_append, transfers, Event.transfer?]
    · intro hwait; rw [h2 hwait, if_pos rfl]
    · intro hd
      obtain ⟨d1, d2⟩ := hd he
      exact h3 d1 d2

/-- The payload stage on a later call of a well-sized frame: the byte received is
stored at index `uRpcByteCount - sizeof(uRpcHeader) - 1`, and nothing else is
moved. -/
theorem sized_receivePayload_payload (cfg : Config) (t : Nat → uRPC_PROCEDURE) (c : Nat)
    (env : Env) (s : Session) (ev : List Event) (buf : List Byte)
    (hbc : sizeofHeader cfg < s.byteCount) (hle : s.byteCount ≤ headerSize s.header)
    (hlt : headerSize s.header < 2 ^ 32 - 1) (hb : s.buffer = some buf)
    (hlen : buf.length = headerSize s.header - sizeofHeader cfg) :
    ∃ r, receivePayload cfg t c env s ev = some r ∧
      transfers r.events = transfers ev ++
        [Event.receive env.rx,
         Event.storePayload (s.byteCount - sizeofHeader cfg - 1) env.rx] ∧
      (r.status = uRPC_STATUS_WAITING_DATA → r.session.byteCount = s.byteCount + 1) ∧
      SizedInv cfg r.session := by
  have hHc := sizeofHeader_cases cfg
  have hU : UINT = 4294967296 := by norm_num [UINT]
  have hS : SIZE_T = 18446744073709551616 := by norm_num [SIZE_T]
  obtain ⟨w1, w2, w3, w4⟩ := waiting_ne_terminal
  have hsub : sizeSub (headerSize s.header) (sizeofHeader cfg)
      = headerSize s.header - sizeofHeader cfg := sizeSub_eq _ _ (by omega) (by omega)
  have hsz1 : (headerSize s.header + 1) % UINT = headerSize s.header + 1 :=
    Nat.mod_eq_of_lt (by omega)
  have hnext : (s.byteCount + 1) % UINT = s.byteCount + 1 := Nat.mod_eq_of_lt (by omega)
  have hidx : sizeSub (sizeSub s.byteCount (sizeofHeader cfg)) 1
      = s.byteCount - sizeofHeader cfg - 1 := by
    rw [sizeSub_eq s.byteCount (sizeofHeader cfg) (by omega) (by omega),
      sizeSub_eq _ _ (by omega) (by omega)]
  unfold receivePayload
  simp only
  rw [if_pos (by rw [hsub]; omega), if_neg (by omega), hsz1, if_pos (by omega), hb]
  simp only
  rw [hidx, if_pos (by omega), hnext]
  split
  · rename_i hw
    refine ⟨_, rfl, ?_, fun _ => rfl, Or.inr ⟨?_, ?_, hlt, _, rfl, ?_⟩⟩
    · simp [transfers_append, transfers, Event.transfer?]
    · show sizeofHeader cfg < s.byteCount + 1
      omega
    · show s.byteCount + 1 ≤ headerSize s.header
      omega
    · simpa using hlen
  · obtain ⟨r, hr, h0, hst, hf⟩ := checkPayload_total cfg t c env
      { header := s.header
        buffer := some (buf.set (s.byteCount - sizeofHeader cfg - 1) env.rx)
        byteCount := s.byteCount + 1 }
      (ev ++ [Event.receive env.rx,
        Event.storePayload (s.byteCount - sizeofHeader cfg - 1) env.rx])
      _ rfl (by
        simp only [List.length_set]
        rw [hsub, hlen]
        exact Nat.mod_le _ _)
    refine ⟨r, hr, ?_, ?_, sizedInv_of_zero cfg _ h0⟩
    · have := hf Event.transfer? transfer_isResponse (fun _ _ => rfl)
      unfold transfers
      rw [this]
      simp [List.filterMap_append, Event.transfer?]
    · intro hwait
      rcases hst with h | h | h | h <;> rw [h] at hwait
      · exact absurd hwait w4
      · exact absurd hwait w1
      · exact absurd hwait w2
      · exact absurd hwait w3

/-- One call of `uRpcHandle` in a session that satisfies `SizedInv`: the call has
a result; it takes exactly one byte from the transport and stores it, into the
header or the request buffer as the counter says, and moves nothing else; when
it waits the counter has advanced by one; and the invariant is kept when the
header, if this call completes it, declares a size in range. -/
theorem uRpcHandle_sized (cfg : Config) (t : Nat → uRPC_PROCEDURE) (c : Nat) (env : Env)
    (s : Session) (hs : SizedInv cfg s) :
    ∃ r, uRpcHandle cfg t c env s = some r ∧
      transfers r.events = [Event.receive env.rx, storeOf cfg s env] ∧
      (r.status = uRPC_STATUS_WAITING_DATA → r.session.byteCount
        = if s.byteCount + 1 = sizeofHeader cfg then sizeofHeader cfg + 1
          else s.byteCount + 1) ∧
      (declaresFrameSize cfg s env → SizedInv cfg r.session) := by
  have hHc := sizeofHeader_cases cfg
  unfold uRpcHandle
  split
  · rename_i h0
    have hlt : s.byteCount < sizeofHeader cfg := by omega
    obtain ⟨r, hr, h1, h2, h3⟩ := sized_receiveHeader cfg t c env (uRpcInitialize cfg s).1
      (uRpcInitialize cfg s).2 (by simp [uRpcInitialize]; omega)
    refine ⟨r, hr, ?_, ?_, ?_⟩
    · rw [h1, storeOf, if_pos hlt, h0]
      unfold uRpcInitialize
      simp only
      split <;> simp [transfers, Event.transfer?]
    · intro hw
      rw [h2 hw, h0]
      simp only [uRpcInitialize]
    · intro _
      apply h3
      intro he
      simp only [uRpcInitialize] at he
      omega
  · rename_i h0
    rcases hs with hlt | ⟨hgt, hle, hlt, buf, hb, hlen⟩
    · obtain ⟨r, hr, h1, h2, h3⟩ := sized_receiveHeader cfg t c env s [] hlt
      refine ⟨r, hr, ?_, h2, h3⟩
      rw [h1, storeOf, if_pos hlt]
      simp [transfers]
    · have e1 : receiveHeader cfg t c env s [] = receivePayload cfg t c env s [] := by
        unfold receiveHeader checkHeader
        simp only
        rw [if_neg (by omega), if_neg (by omega)]
      rw [e1]
      obtain ⟨r, hr, h1, h2, h3⟩ := sized_receivePayload_payload cfg t c env s [] buf hgt hle
        hlt hb hlen
      refine ⟨r, hr, ?_, fun hw => by rw [h2 hw, if_neg (by omega)], fun _ => h3⟩
      rw [h1, storeOf, if_neg (by omega)]
      simp [transfers]

/-- In a run over well-sized frames every call so far has taken exactly one byte
from the transport, and the session satisfies `SizedInv`. -/
theorem sizedRun_facts (cfg : Config) (envs : List Env) (rs : List Result) (s : Session)
    (h : SizedRun cfg envs rs s) :
    SizedInv cfg s ∧
    rs.length = envs.length ∧
    rs.map (fun r => received r.events) = envs.map (fun e => [e.rx]) := by
  induction h with
  | start =>
    exact ⟨sizedInv_of_zero cfg _ rfl, rfl, rfl⟩
  | call t c env envs rs s r _ hd hr ih =>
    obtain ⟨hinv, hl, hrec⟩ := ih
    obtain ⟨r1, hr1, h1, -, h3⟩ := uRpcHandle_sized cfg t c env s hinv
    rw [hr] at hr1
    cases hr1
    refine ⟨h3 hd, by simpa using hl, ?_⟩
    rw [List.map_append, List.map_append, hrec, List.map_singleton, List.map_singleton,
      ← received_transfers, h1]
    have hst : Event.rxByte? (storeOf cfg s env) = none := by
      unfold storeOf
      split <;> rfl
    have hrx : Event.rxByte? (Event.receive env.rx) = some env.rx := rfl
    simp only [received, List.filterMap_cons, hrx, hst, List.filterMap_nil]

theorem received_of_singletons (rs : List Result) (l : List Byte)
    (h : rs.map (fun r => received r.events) = l.map (fun b => [b])) :
    received (allEvents rs) = l := by
  induction rs generalizing l with
  | nil =>
    cases l with
    | nil => rfl
    | cons p l => simp at h
  | cons r rs ih =>
    cases l with
    | nil => simp at h
    | cons p l =>
      simp only [List.map_cons, List.cons.injEq] at h
      simp only [allEvents, received_append, h.1, ih l h.2, List.singleton_append]

/-- A run of `runCalls` from the empty session that passes the check `sizedCalls`
is a run over well-sized frames. -/
theorem sizedRun_of_sizedCalls (cfg : Config) (t : Nat → uRPC_PROCEDURE) (c : Nat)
    (envs : List Env) (envs0 : List Env) (rs0 : List Result) (s : Session) (rs : List Result)
    (h0 : SizedRun cfg envs0 rs0 s)
    (hc : sizedCalls cfg t c s envs = true)
    (hr : runCalls cfg t c s envs = some rs) :
    SizedRun cfg (envs0 ++ envs) (rs0 ++ rs) (lastSession s rs) := by
  induction envs generalizing envs0 rs0 s rs with
  | nil =>
    simp only [runCalls, Option.some.injEq] at hr
    subst hr
    simpa [lastSession] using h0
  | cons e es ih =>
    rw [runCalls_cons] at hr
    simp only [sizedCalls, Bool.and_eq_true, decide_eq_true_eq] at hc
    obtain ⟨hd, hrest⟩ := hc
    cases hu : uRpcHandle cfg t c e s with
    | none => rw [hu] at hr; simp at hr
    | some r =>
      rw [hu, Option.some_bind] at hr
      rw [hu] at hrest
      simp only at hrest
      cases hrs : runCalls cfg t c r.session es with
      | none => rw [hrs] at hr; simp at hr
      | some rs1 =>
        rw [hrs] at hr
        simp only [Option.map_some', Option.some.injEq] at hr
        subst hr
        have := ih (envs0 ++ [e]) (rs0 ++ [r]) r.session rs1
          (SizedRun.call t c e envs0 rs0 s r h0 hd hu) hrest hrs
        simpa [lastSession] using this


/-- Why the size condition is there: after a header that declares a size below
`sizeof(uRpcHeader)` (here 5, without checksums) and a granted allocation, the
counter is `sizeof(uRpcHeader) + 1 = 7`, above `size + 1 = 6`: the next call
skips the receive and goes to command validation without taking a byte. -/
theorem undersized_call_takes_no_byte (t : Nat → uRPC_PROCEDURE) (c : Nat) (env : Env)
    (buf : List Byte) :
    (uRpcHandle plainConfig t c env
        { header := [5, 0, 0, 0, 0, 0], buffer := some buf, byteCount := 7 }).map
      (fun r => received r.events) = some [] := by
  have h1 : uRpcHandle plainConfig t c env
      { header := [5, 0, 0, 0, 0, 0], buffer := some buf, byteCount := 7 }
      = some (validateCommand plainConfig t c env
          { header := [5, 0, 0, 0, 0, 0], buffer := some buf, byteCount := 7 } []) := by
    unfold uRpcHandle receiveHeader checkHeader receivePayload checkPayload
    have hH : sizeofHeader plainConfig = 6 := rfl
    have hs : headerSize ([5, 0, 0, 0, 0, 0] : List Byte) = 5 := by decide
    have hp : 0 < sizeSub 5 6 := by decide
    have hu : (5 + 1) % UINT = 6 := by decide
    have hc : plainConfig.crcChecksum = false := rfl
    simp [hH, hs, hp, hu, hc]
  have hq : ∀ e : Event, e.isResponse = true → Event.rxByte? e = none := by
    intro e he
    cases e <;> simp_all [Event.isResponse, Event.rxByte?]
  have h2 := filterMap_validateCommand Event.rxByte? hq plainConfig t c env
    { header := [5, 0, 0, 0, 0, 0], buffer := some buf, byteCount := 7 } []
  rw [h1, Option.map_some']
  unfold received
  rw [h2]
  rfl


/-- C21: one byte per call.  In a run of calls of `uRpcHandle` from the empty
session in which every completed header declares a size `s` with
`sizeof(uRpcHeader) <= s < 2 ^ 32 - 1` (any handlers, handler counts and
allocation outcomes): every call made so far has taken exactly one byte from
the transport, so the bytes taken are the bytes that arrived, in order, and
their number is the number of calls; and the next call, whatever status it
returns, has a result, takes exactly one byte and stores that byte and no
other: at offset `uRpcByteCount` of the request header while the counter is
below `sizeof(uRpcHeader)`, at index `uRpcByteCount - sizeof(uRpcHeader) - 1`
of the request buffer after.  When the call waits, the counter has advanced to
the position of the next byte: by one, and on the call that completes the
header to `sizeof(uRpcHeader) + 1`, which is index 0 of the request buffer. -/
theorem one_byte_per_call (cfg : Config) (envs : List Env) (rs : List Result) (s : Session)
    (h : SizedRun cfg envs rs s) (t : Nat → uRPC_PROCEDURE) (c : Nat) (env : Env) :
    rs.length = envs.length ∧
    rs.map (fun r => received r.events) = envs.map (fun e => [e.rx]) ∧
    received (allEvents rs) = envs.map (·.rx) ∧
    (received (allEvents rs)).length = rs.length ∧
    ∃ r, uRpcHandle cfg t c env s = some r ∧
      received r.events = [env.rx] ∧
      transfers r.events = [Event.receive env.rx, storeOf cfg s env] ∧
      headerStores r.events
        = (if s.byteCount < sizeofHeader cfg then [(s.byteCount, env.rx)] else []) ∧
      payloadStores r.events
        = (if s.byteCount < sizeofHeader cfg then []
            else [(s.byteCount - sizeofHeader cfg - 1, env.rx)]) ∧
      (r.status = uRPC_STATUS_WAITING_DATA → r.session.byteCount
        = if s.byteCount + 1 = sizeofHeader cfg then sizeofHeader cfg + 1
          else s.byteCount + 1) := by
  obtain ⟨hinv, hl, hrec⟩ := sizedRun_facts cfg envs rs s h
  have hall : received (allEvents rs) = envs.map (·.rx) := by
    apply received_of_singletons
    rw [hrec, List.map_map]
    rfl
  refine ⟨hl, hrec, hall, by rw [hall, List.length_map, hl], ?_⟩
  obtain ⟨r, hr, h1, h2, -⟩ := uRpcHandle_sized cfg t c env s hinv
  have hrx : Event.rxByte? (Event.receive env.rx) = some env.rx := rfl
  refine ⟨r, hr, ?_, h1, ?_, ?_, h2⟩
  · have hst : Event.rxByte? (storeOf cfg s env) = none := by
      unfold storeOf
      split <;> rfl
    rw [← received_transfers, h1]
    simp only [received, List.filterMap_cons, hrx, hst, List.filterMap_nil]
  · rw [← headerStores_transfers, h1]
    unfold storeOf
    split <;> rfl
  · rw [← payloadStores_transfers, h1]
    unfold storeOf
    split <;> rfl

set_option maxRecDepth 100000 in
/-- C21 at a concrete input: after the seven calls of `sampleSizedEnvs` (the header
of a frame of size 8 and its first payload byte), the call that receives the
last payload byte. -/
theorem one_byte_per_call_witness :
    SizedRun plainConfig sampleSizedEnvs sampleSizedResults lastPayloadByteSession ∧
    (sampleSizedResults.length = sampleSizedEnvs.length ∧
    sampleSizedResults.map (fun r => received r.events)
      = sampleSizedEnvs.map (fun e => [e.rx]) ∧
    received (allEvents sampleSizedResults) = sampleSizedEnvs.map (·.rx) ∧
    (received (allEvents sampleSizedResults)).length = sampleSizedResults.length ∧
    ∃ r, uRpcHandle plainConfig echoTable 1 lastPayloadByteEnv lastPayloadByteSession = some r ∧
      received r.events = [lastPayloadByteEnv.rx] ∧
      transfers r.events = [Event.receive lastPayloadByteEnv.rx,
        storeOf plainConfig lastPayloadByteSession lastPayloadByteEnv] ∧
      headerStores r.events
        = (if lastPayloadByteSession.byteCount < sizeofHeader plainConfig
            then [(lastPayloadByteSession.byteCount, lastPayloadByteEnv.rx)] else []) ∧
      payloadStores r.events
        = (if lastPayloadByteSession.byteCount < sizeofHeader plainConfig then []
            else [(lastPayloadByteSession.byteCount - sizeofHeader plainConfig - 1,
              lastPayloadByteEnv.rx)]) ∧
      (r.status = uRPC_STATUS_WAITING_DATA → r.session.byteCount
        = if lastPayloadByteSession.byteCount + 1 = sizeofHeader plainConfig
          then sizeofHeader plainConfig + 1
          else lastPayloadByteSession.byteCount + 1)) :=
  ⟨sizedRun_of_sizedCalls plainConfig echoTable 1 sampleSizedEnvs [] []
      (emptySession plainConfig) sampleSizedResults SizedRun.start (by decide) (by decide),
    one_byte_per_call plainConfig sampleSizedEnvs sampleSizedResults lastPayloadByteSession
      (sizedRun_of_sizedCalls plainConfig echoTable 1 sampleSizedEnvs [] []
        (emptySession plainConfig) sampleSizedResults SizedRun.start (by decide) (by decide))
      echoTable 1 lastPayloadByteEnv⟩

end uRPC
